import Mathlib

/-!
Smart Municipality Management System: moderation, voting and notification core

A shallow embedding of the backend services
(`backend/src/services/*.js`) and of the Mongoose models they use
(`backend/src/models/*.js`).

Modelling conventions
* An `ObjectId` is represented by its canonical 24-digit hex string, the value that
  `id.toString()` returns.  The post and comment handlers pass `req.user._id.toString()`,
  so the id string given to `votePost`, `voteComment` and `updatePost` is such a canonical
  string and the comparison `id.toString() !== userId` is disequality of ids.  The two
  registration handlers of `routes/event.routes.js` pass `req.user._id` itself, an ObjectId
  object that is never `===` to a string; the argument of `registerForEvent` and
  `cancelRegistration` is therefore a `UserIdArg`, a string or an ObjectId.
* `new Date()` is an explicit clock argument `now`; one service call reads one clock value.
* The documents of a store satisfy their schemas, so `save()` and `create()` validate the
  paths a call assigns (`Report.valid`, `Notification.valid`) and nothing else.
* The `_id` the driver generates for a created document is an explicit argument `newId`;
  inserting under an `_id` that is already taken fails as MongoDB does.
* A collection is the list of its documents in storage order; `findById` returns the
  first document with the given `_id`.
* A service call maps the store to a pair of its outcome and the store it leaves behind;
  a thrown `Error(msg)` is the outcome `Except.error msg`, and the store of the pair then
  holds whatever the call had written before it threw.
* An optional schema path (`undefined` when unset) is an `Option`.
* A unique index of a schema is enforced on insertion: `Report.create` fails with the
  MongoDB error E11000 when the key `(reporter, contentType, contentId)` is taken.
* A `maxlength` bound and JavaScript `length` count UTF-16 code units (`jsLength`): a
  character outside the basic multilingual plane counts twice.
* The `capacity` of an event, a schema `Number` with no validator, is a rational number.
* The `createdAt` / `updatedAt` stamps that Mongoose maintains on its own
  (`timestamps: true`) are not part of the document records.
-/

/-! ## Data model -/

abbrev ObjectId := String

abbrev Date := Nat

/-- The number of UTF-16 code units of a character: two outside the basic multilingual
plane, one inside it. -/
def utf16Size (c : Char) : Nat :=
  if c.toNat < 65536 then 1 else 2

/-- JavaScript `s.length`, the number of UTF-16 code units of the string; it is the number
a Mongoose `maxlength` validator compares with its bound. -/
def jsLength (s : String) : Nat :=
  (s.toList.map utf16Size).sum

/-- JavaScript `s.substring(0, n)` on the characters of `s`: the characters that lie within
the first `n` code units.  When the cut falls between the two code units of a character the
JavaScript string ends in a lone surrogate, which is no character; it is kept as U+FFFD,
the character the driver writes for it. -/
def jsPrefix : Nat → List Char → List Char
  | _, [] => []
  | n, c :: cs =>
    if utf16Size c ≤ n then c :: jsPrefix (n - utf16Size c) cs
    else if n = 0 then [] else [Char.ofNat 65533]

/-- The `votes` sub-document of `Post` and of `Comment`. -/
structure Votes where
  up : List ObjectId
  down : List ObjectId
deriving DecidableEq, Repr

structure Location where
  type : String
  coordinates : List Int
  address : Option String
  city : Option String
  region : Option String
deriving DecidableEq, Repr

structure Image where
  url : Option String
  caption : Option String
  altText : Option String
deriving DecidableEq, Repr

structure Attachment where
  name : Option String
  url : Option String
  type : Option String
  size : Option Nat
deriving DecidableEq, Repr

/-- Document of `models/Post.js`. -/
structure Post where
  _id : ObjectId
  title : String
  content : String
  excerpt : Option String
  author : ObjectId
  category : String
  tags : List String
  location : Location
  images : List Image
  attachments : List Attachment
  isOfficial : Bool
  isPinned : Bool
  status : String
  visibility : String
  votes : Votes
  viewCount : Nat
  commentCount : Nat
  publishedAt : Option Date
  expiresAt : Option Date
  moderationNotes : Option String
  moderatedBy : Option ObjectId
  moderatedAt : Option Date
deriving DecidableEq, Repr

/-- Document of `models/Comment.js`. -/
structure Comment where
  _id : ObjectId
  content : String
  author : ObjectId
  post : ObjectId
  parentComment : Option ObjectId
  status : String
  votes : Votes
  isEdited : Bool
  editedAt : Option Date
  moderationNotes : Option String
  moderatedBy : Option ObjectId
  moderatedAt : Option Date
deriving DecidableEq, Repr

/-- The value returned by `votePost` and `voteComment`. -/
structure VoteResult where
  voteScore : Int
  upvotes : Nat
  downvotes : Nat
deriving DecidableEq, Repr

/-- The `preferences.notifications` sub-document of `User`. -/
structure NotificationPrefs where
  email : Option Bool
  sms : Option Bool
  inApp : Option Bool
deriving DecidableEq, Repr

structure Preferences where
  language : String
  notifications : Option NotificationPrefs
  categories : List String
deriving DecidableEq, Repr

/-- Document of `models/User.js` (credentials and tokens are not modelled). -/
structure User where
  _id : ObjectId
  email : String
  firstName : String
  lastName : String
  role : String
  avatar : Option String
  phone : Option String
  preferences : Option Preferences
  isActive : Bool
  isVerified : Bool
  lastLogin : Option Date
deriving DecidableEq, Repr

/-- The `resolution` sub-document of `Report`. -/
structure Resolution where
  action : Option String
  notes : Option String
  resolvedBy : ObjectId
  resolvedAt : Date
deriving DecidableEq, Repr

structure Screenshot where
  url : Option String
  uploadedAt : Option Date
deriving DecidableEq, Repr

/-- Document of `models/Report.js`. -/
structure Report where
  _id : ObjectId
  reporter : ObjectId
  contentType : String
  contentId : ObjectId
  reason : String
  description : Option String
  status : String
  priority : String
  resolution : Option Resolution
  screenshots : List Screenshot
deriving DecidableEq, Repr

/-- An element of `deliveryMethods` of `Notification`. -/
structure DeliveryMethod where
  method : String
  status : String
  sentAt : Option Date
  error : Option String
deriving DecidableEq, Repr

/-- The `data` sub-document of `Notification`. -/
structure NotificationRef where
  entityType : Option String
  entityId : Option ObjectId
  url : Option String
deriving DecidableEq, Repr

/-- Document of `models/Notification.js`. -/
structure Notification where
  _id : ObjectId
  recipient : ObjectId
  type : String
  title : String
  message : String
  data : NotificationRef
  deliveryMethods : List DeliveryMethod
  priority : String
  isRead : Bool
  readAt : Option Date
  expiresAt : Option Date
deriving DecidableEq, Repr

/-- The `data` argument of `createNotification`. -/
structure NotificationData where
  type : String
  title : String
  message : String
  entityType : Option String
  entityId : Option ObjectId
  url : Option String
  priority : Option String
deriving DecidableEq, Repr

/-- The `resolution` argument of `resolveReport`: `{ action, notes }`, either of which the
request body may leave out. -/
structure ResolutionInput where
  action : Option String
  notes : Option String
deriving DecidableEq, Repr

/-! ## Collection primitives -/

/-- The query `Model.findById(id)`: the first document whose `_id` is `id`. -/
def findById {α : Type} (key : α → ObjectId) (docs : List α) (id : ObjectId) : Option α :=
  docs.find? (fun d => key d == id)

/-- The query `Model.findByIdAndUpdate(id, update)`: the first document whose `_id` is `id`
is updated in place; nothing happens when there is none. -/
def findByIdAndUpdate {α : Type} (key : α → ObjectId) (docs : List α) (id : ObjectId)
    (f : α → α) : List α :=
  match docs with
  | [] => []
  | d :: ds => if key d = id then f d :: ds else d :: findByIdAndUpdate key ds id f

/-- The write of `doc.save()` for a document that was loaded from the collection: the stored
document with the same `_id` is replaced. -/
def saveDoc {α : Type} (key : α → ObjectId) (docs : List α) (doc : α) : List α :=
  findByIdAndUpdate key docs (key doc) (fun _ => doc)

/-- JavaScript `n || 0` for a number `n`. -/
def orZero (n : Nat) : Nat :=
  if n ≠ 0 then n else 0

/-- The `voteScore` virtual of `Post` and `Comment`:
`(this.votes?.up?.length || 0) - (this.votes?.down?.length || 0)`. -/
def Votes.voteScore (v : Votes) : Int :=
  (orZero v.up.length : Int) - (orZero v.down.length : Int)

/-- The body shared by `votePost` and `voteComment`: the voter is filtered out of both lists
and then pushed on the list named by `voteType`. -/
def Votes.cast (v : Votes) (userId : String) (voteType : String) : Votes :=
  let up := v.up.filter (fun id => id != userId)
  let down := v.down.filter (fun id => id != userId)
  if voteType = "up" then { up := up ++ [userId], down := down }
  else if voteType = "down" then { up := up, down := down ++ [userId] }
  else { up := up, down := down }

/-- The excerpt text of the `pre('save')` hook of `Post`:
`content.substring(0, 200) + (content.length > 200 ? '...' : '')`. -/
def Post.makeExcerpt (content : String) : String :=
  String.mk (jsPrefix 200 content.toList) ++ (if jsLength content > 200 then "..." else "")

/-- The `pre('save')` hook of `Post`. -/
def Post.preSave (now : Date) (p : Post) : Post :=
  let p1 : Post :=
    if (p.excerpt = none ∨ p.excerpt = some "") ∧ p.content ≠ "" then
      { p with excerpt := some (Post.makeExcerpt p.content) }
    else p
  if p1.status = "published" ∧ p1.publishedAt = none then
    { p1 with publishedAt := some now }
  else p1

/-- The `location` sub-document of `Event`. -/
structure EventLocation where
  name : String
  address : Option String
  city : Option String
  postalCode : Option String
  coordinates : List Int
  isOnline : Bool
  onlineUrl : Option String
deriving DecidableEq, Repr

/-- An element of `attendees` of `Event`. -/
structure Attendee where
  user : ObjectId
  status : String
  registeredAt : Date
deriving DecidableEq, Repr

/-- The `cost` sub-document of `Event`. -/
structure EventCost where
  isFree : Bool
  amount : Option Int
  currency : String
deriving DecidableEq, Repr

/-- The `contactInfo` sub-document of `Event`. -/
structure ContactInfo where
  email : Option String
  phone : Option String
  website : Option String
deriving DecidableEq, Repr

/-- The `recurrence` sub-document of `Event`. -/
structure Recurrence where
  isRecurring : Bool
  pattern : Option String
  endAfter : Option Date
deriving DecidableEq, Repr

/-- Document of `models/Event.js`. -/
structure Event where
  _id : ObjectId
  title : String
  description : String
  organizer : ObjectId
  category : String
  startDate : Date
  endDate : Date
  allDay : Bool
  location : EventLocation
  images : List Image
  capacity : Option ℚ
  registrationRequired : Bool
  registrationDeadline : Option Date
  attendees : List Attendee
  isOfficial : Bool
  status : String
  tags : List String
  cost : EventCost
  contactInfo : ContactInfo
  recurrence : Recurrence
deriving DecidableEq, Repr

/-- The persistent state: one list of documents per collection the services touch. -/
structure Store where
  posts : List Post
  comments : List Comment
  users : List User
  reports : List Report
  notifications : List Notification
  events : List Event
deriving DecidableEq, Repr

/-- The `post('save')` hook of `Comment`: the owning post's `commentCount` is set to the
number of active comments on it. -/
def Comment.postSave (s : Store) (c : Comment) : Store :=
  let count := (s.comments.filter (fun d => d.post == c.post && d.status == "active")).length
  { s with posts := findByIdAndUpdate Post._id s.posts c.post (fun p => { p with commentCount := count }) }

namespace ContentService

/-- Embeds `ContentService.votePost(postId, userId, voteType)`. -/
def votePost (s : Store) (now : Date) (postId : ObjectId) (userId : String) (voteType : String) :
    Except String VoteResult × Store :=
  match findById Post._id s.posts postId with
  | none => (.error "Post not found", s)
  | some post =>
    let post := { post with votes := post.votes.cast userId voteType }
    let post := post.preSave now
    (.ok { voteScore := post.votes.voteScore,
           upvotes := post.votes.up.length,
           downvotes := post.votes.down.length },
     { s with posts := saveDoc Post._id s.posts post })

end ContentService

namespace CommentService

/-- Embeds `CommentService.voteComment(commentId, userId, voteType)`. -/
def voteComment (s : Store) (commentId : ObjectId) (userId : String) (voteType : String) :
    Except String VoteResult × Store :=
  match findById Comment._id s.comments commentId with
  | none => (.error "Comment not found", s)
  | some comment =>
    let comment := { comment with votes := comment.votes.cast userId voteType }
    let s1 := { s with comments := saveDoc Comment._id s.comments comment }
    (.ok { voteScore := comment.votes.voteScore,
           upvotes := comment.votes.up.length,
           downvotes := comment.votes.down.length },
     comment.postSave s1)

end CommentService

/-- The `enum` of `Notification.type`. -/
def notificationTypes : List String :=
  ["new_post", "new_comment", "comment_reply", "post_vote", "event_reminder", "event_update",
   "system_alert", "moderation_action", "welcome", "announcement"]

/-- The schema validation that `Notification.create` runs on the document it is given. -/
def Notification.valid (n : Notification) : Bool :=
  decide (n.type ∈ notificationTypes)
    && decide (n.title ≠ "") && decide (jsLength n.title ≤ 200)
    && decide (n.message ≠ "") && decide (jsLength n.message ≤ 1000)
    && (match n.data.entityType with
        | none => true
        | some t => decide (t ∈ ["post", "comment", "event", "user"]))
    && decide (n.priority ∈ ["low", "normal", "high", "urgent"])
    && n.deliveryMethods.all (fun d =>
        decide (d.method ∈ ["email", "sms", "inApp"])
          && decide (d.status ∈ ["pending", "sent", "delivered", "failed"]))

/-- The `enum` of `Report.resolution.action`. -/
def resolutionActions : List String :=
  ["none", "warning", "content_removed", "user_suspended", "user_banned"]

/-- The schema validation that `report.save()` runs on the paths `resolveReport` and
`dismissReport` assign. -/
def Report.valid (r : Report) : Bool :=
  decide (r.status ∈ ["pending", "reviewing", "resolved", "dismissed"])
    && (match r.resolution with
        | none => true
        | some res =>
          match res.action with
          | none => true
          | some a => decide (a ∈ resolutionActions))

/-- Marks the element returned by `deliveryMethods.find(d => d.method === 'inApp')` as sent. -/
def markInAppSent (now : Date) (ds : List DeliveryMethod) : List DeliveryMethod :=
  match ds with
  | [] => []
  | d :: rest =>
    if d.method = "inApp" then { d with status := "sent", sentAt := some now } :: rest
    else d :: markInAppSent now rest

namespace NotificationService

/-- The delivery methods `createNotification` selects from
`prefs = user.preferences?.notifications || {}`. -/
def selectDeliveryMethods (user : User) : List DeliveryMethod :=
  let prefs : NotificationPrefs :=
    match user.preferences with
    | none => { email := none, sms := none, inApp := none }
    | some p =>
      match p.notifications with
      | none => { email := none, sms := none, inApp := none }
      | some n => n
  (if prefs.inApp ≠ some false then
      [{ method := "inApp", status := "pending", sentAt := none, error := none }] else [])
    ++ (if prefs.email = some true then
      [{ method := "email", status := "pending", sentAt := none, error := none }] else [])
    ++ (if prefs.sms = some true then
      [{ method := "sms", status := "pending", sentAt := none, error := none }] else [])

/-- Embeds `NotificationService.createNotification(recipientId, data)`.  `newId` is the `_id` the
driver generates for the new document and `pushRaises` tells whether the socket emit inside
the `try` block throws. -/
def createNotification (s : Store) (now : Date) (newId : ObjectId) (pushRaises : Bool)
    (recipientId : ObjectId) (data : NotificationData) : Except String Notification × Store :=
  match findById User._id s.users recipientId with
  | none => (.error "Recipient not found", s)
  | some user =>
    let notification : Notification :=
      { _id := newId, recipient := recipientId, type := data.type, title := data.title,
        message := data.message,
        data := { entityType := data.entityType, entityId := data.entityId, url := data.url },
        deliveryMethods := selectDeliveryMethods user,
        priority := data.priority.getD "normal",
        isRead := false, readAt := none, expiresAt := none }
    if ¬ notification.valid then (.error "Notification validation failed", s)
    else if (findById Notification._id s.notifications newId).isSome then
      (.error "E11000 duplicate key error", s)
    else
      let s1 := { s with notifications := s.notifications ++ [notification] }
      let notification :=
        if pushRaises then notification
        else { notification with
                deliveryMethods := markInAppSent now notification.deliveryMethods }
      (.ok notification,
       { s1 with notifications := saveDoc Notification._id s1.notifications notification })

end NotificationService

namespace ModerationService

/-- Embeds `ModerationService.applyModerationAction(contentType, contentId, action, adminId)`. -/
def applyModerationAction (s : Store) (now : Date) (newId : ObjectId) (pushRaises : Bool)
    (contentType : String) (contentId : ObjectId) (action : Option String)
    (adminId : ObjectId) : Except String Unit × Store :=
  if action = some "content_removed" then
    if contentType = "post" then
      (.ok (), { s with posts := findByIdAndUpdate Post._id s.posts contentId (fun p =>
                  { p with status := "rejected", moderatedBy := some adminId,
                           moderatedAt := some now }) })
    else if contentType = "comment" then
      (.ok (), { s with comments := findByIdAndUpdate Comment._id s.comments contentId (fun c =>
                  { c with status := "hidden", moderatedBy := some adminId,
                           moderatedAt := some now }) })
    else (.ok (), s)
  else if action = some "user_suspended" then
    (.ok (), { s with users := findByIdAndUpdate User._id s.users contentId (fun u =>
                { u with isActive := false }) })
  else if action = some "user_banned" then
    (.ok (), { s with users := findByIdAndUpdate User._id s.users contentId (fun u =>
                { u with isActive := false }) })
  else if action = some "warning" then
    let authorId : Option ObjectId :=
      if contentType = "post" then (findById Post._id s.posts contentId).map Post.author
      else if contentType = "comment" then
        (findById Comment._id s.comments contentId).map Comment.author
      else some contentId
    match authorId with
    | none => (.ok (), s)
    | some authorId =>
      match NotificationService.createNotification s now newId pushRaises authorId
          { type := "moderation_action", title := "Content Warning",
            message := "Your content has been flagged for review. Please review our community guidelines.",
            entityType := none, entityId := none, url := none, priority := some "high" } with
      | (.error e, s1) => (.error e, s1)
      | (.ok _, s1) => (.ok (), s1)
  else (.ok (), s)

/-- Embeds `ModerationService.resolveReport(reportId, adminId, resolution)`. -/
def resolveReport (s : Store) (now : Date) (newId : ObjectId) (pushRaises : Bool)
    (reportId : ObjectId) (adminId : ObjectId) (resolution : ResolutionInput) :
    Except String Report × Store :=
  match findById Report._id s.reports reportId with
  | none => (.error "Report not found", s)
  | some report =>
    let report : Report :=
      { report with
          status := "resolved",
          resolution := some { action := resolution.action, notes := resolution.notes,
                               resolvedBy := adminId, resolvedAt := now } }
    match applyModerationAction s now newId pushRaises report.contentType report.contentId
        resolution.action adminId with
    | (.error e, s1) => (.error e, s1)
    | (.ok _, s1) =>
      if report.valid then
        (.ok report, { s1 with reports := saveDoc Report._id s1.reports report })
      else (.error "Report validation failed", s1)

/-- Embeds `ModerationService.dismissReport(reportId, adminId, notes = '')`. -/
def dismissReport (s : Store) (now : Date) (reportId : ObjectId) (adminId : ObjectId)
    (notes : Option String) : Except String Report × Store :=
  match findById Report._id s.reports reportId with
  | none => (.error "Report not found", s)
  | some report =>
    let report : Report :=
      { report with
          status := "dismissed",
          resolution := some { action := some "none", notes := some (notes.getD ""),
                               resolvedBy := adminId, resolvedAt := now } }
    if report.valid then
      (.ok report, { s with reports := saveDoc Report._id s.reports report })
    else (.error "Report validation failed", s)

end ModerationService

/-! ## Drivers for sequences of calls -/

/-- One vote request: the clock at the call, the voter and the requested direction. -/
structure VoteCall where
  now : Date
  userId : String
  voteType : String
deriving DecidableEq, Repr

namespace ContentService

/-- Runs `votePost` on the post `postId` once per element of `calls`, in order, and collects
the returned values. -/
def votePostCalls (s : Store) (postId : ObjectId) (calls : List VoteCall) :
    Except String (List VoteResult) × Store :=
  match calls with
  | [] => (.ok [], s)
  | c :: cs =>
    match votePost s c.now postId c.userId c.voteType with
    | (.error e, s1) => (.error e, s1)
    | (.ok r, s1) =>
      match votePostCalls s1 postId cs with
      | (.error e, s2) => (.error e, s2)
      | (.ok rs, s2) => (.ok (r :: rs), s2)

end ContentService

namespace CommentService

/-- Runs `voteComment` on the comment `commentId` once per element of `calls`, in order, and
collects the returned values. -/
def voteCommentCalls (s : Store) (commentId : ObjectId) (calls : List VoteCall) :
    Except String (List VoteResult) × Store :=
  match calls with
  | [] => (.ok [], s)
  | c :: cs =>
    match voteComment s commentId c.userId c.voteType with
    | (.error e, s1) => (.error e, s1)
    | (.ok r, s1) =>
      match voteCommentCalls s1 commentId cs with
      | (.error e, s2) => (.error e, s2)
      | (.ok rs, s2) => (.ok (r :: rs), s2)

end CommentService

/-! ## Example states -/

/-- A published post `P1` by `U1` with no votes. -/
def examplePost : Post :=
  { _id := "P1", title := "Road works", content := "Main street is closed.", excerpt := none,
    author := "U1", category := "news", tags := [],
    location := { type := "Point", coordinates := [0, 0], address := none, city := none,
                  region := none },
    images := [], attachments := [], isOfficial := false, isPinned := false,
    status := "published", visibility := "public", votes := { up := [], down := [] },
    viewCount := 0, commentCount := 0, publishedAt := some 1, expiresAt := none,
    moderationNotes := none, moderatedBy := none, moderatedAt := none }

/-- An active comment `C1` by `U2` on `P1`. -/
def exampleComment : Comment :=
  { _id := "C1", content := "Thanks for the notice.", author := "U2", post := "P1",
    parentComment := none, status := "active", votes := { up := [], down := [] },
    isEdited := false, editedAt := none, moderationNotes := none, moderatedBy := none,
    moderatedAt := none }

/-- A citizen with the schema's default notification preferences. -/
def exampleUser (id : ObjectId) : User :=
  { _id := id, email := "citizen@example.org", firstName := "Ada", lastName := "Martin",
    role := "citizen", avatar := none, phone := none,
    preferences := some { language := "en",
                          notifications := some { email := some true, sms := some false,
                                                  inApp := some true },
                          categories := [] },
    isActive := true, isVerified := false, lastLogin := none }

/-- A pending report by `U1`. -/
def exampleReport (id : ObjectId) (contentType : String) (contentId : ObjectId) : Report :=
  { _id := id, reporter := "U1", contentType := contentType, contentId := contentId,
    reason := "spam", description := none, status := "pending", priority := "medium",
    resolution := none, screenshots := [] }

/-- A store with one post, one comment on it, two users and no report. -/
def exampleStore : Store :=
  { posts := [examplePost], comments := [exampleComment],
    users := [exampleUser "U1", exampleUser "U2"], reports := [], notifications := [],
    events := [] }

/-- The example store with `U2` recorded on both vote lists of `P1` and of `C1`. -/
def doubleVotedStore : Store :=
  { exampleStore with
      posts := [{ examplePost with votes := { up := ["U2", "U3"], down := ["U2"] } }],
      comments := [{ exampleComment with votes := { up := ["U2"], down := ["U3", "U2"] } }] }

/-- Scenario B of the specification: `U2` votes up, then down, then none. -/
def scenarioB : List VoteCall :=
  [{ now := 10, userId := "U2", voteType := "up" },
   { now := 11, userId := "U2", voteType := "down" },
   { now := 12, userId := "U2", voteType := "none" }]

/-- The moderator accounts of the examples. -/
def exampleModerator (id : ObjectId) : User :=
  { exampleUser id with email := "moderator@example.org", role := "staff" }

/-- Scenario A of the specification before the resolution: `U1` has reported the post `P1`
and the report `R1` is pending. -/
def scenarioAStore : Store :=
  { exampleStore with
      users := [exampleUser "U1", exampleUser "U2", exampleModerator "M1", exampleModerator "M2"],
      reports := [exampleReport "R1" "post" "P1"] }

/-- The report `R1` of scenario A once moderator `M1` has resolved it. -/
def resolvedReport : Report :=
  { exampleReport "R1" "post" "P1" with
      status := "resolved",
      resolution := some { action := some "content_removed", notes := some "confirmed spam",
                           resolvedBy := "M1", resolvedAt := 5 } }

/-- Scenario A after moderator `M1` has resolved `R1` with `content_removed`. -/
def resolvedStore : Store :=
  { scenarioAStore with
      posts := [{ examplePost with status := "rejected", moderatedBy := some "M1",
                                   moderatedAt := some 5 }],
      reports := [resolvedReport] }

/-- A pending report `R2` against the user `U9`, whose account no longer exists. -/
def missingUserStore : Store :=
  { scenarioAStore with reports := [exampleReport "R2" "user" "U9"] }

/-- A pending report `R3` against the post `P9`, which no longer exists. -/
def missingPostStore : Store :=
  { scenarioAStore with reports := [exampleReport "R3" "post" "P9"] }

/-! ## Report registry: creation, lookup and statistics -/

/-- The `data` argument of `createReport`. -/
structure ReportData where
  contentType : String
  contentId : ObjectId
  reason : String
  description : Option String
  screenshots : List Screenshot
deriving DecidableEq, Repr

/-- The `enum` of `Report.contentType`, which is also the list the `createReport` validator
of `middleware/validate.js` accepts. -/
def reportContentTypes : List String :=
  ["post", "comment", "event", "user"]

/-- The `enum` of `Report.reason`. -/
def reportReasons : List String :=
  ["spam", "harassment", "hate_speech", "misinformation", "inappropriate", "copyright",
   "privacy_violation", "other"]

/-- The schema validation that `Report.create` runs on a new document: `contentType` and
`reason` lie in their enumerations and `description` has at most 1000 UTF-16 code units,
which is what `maxlength: 1000` bounds. -/
def Report.validNew (r : Report) : Bool :=
  decide (r.contentType ∈ reportContentTypes)
    && decide (r.reason ∈ reportReasons)
    && (match r.description with
        | none => true
        | some d => decide (jsLength d ≤ 1000))

/-- The unique index `{ reporter: 1, contentType: 1, contentId: 1 }` of `models/Report.js`:
whether a stored report already carries the key of `r`. -/
def Report.keyTaken (reports : List Report) (r : Report) : Bool :=
  reports.any (fun d =>
    d.reporter == r.reporter && d.contentType == r.contentType && d.contentId == r.contentId)

/-- A user document as `populate` returns it for the selected name (and e-mail) fields. -/
structure UserSummary where
  _id : ObjectId
  firstName : String
  lastName : String
  email : Option String
deriving DecidableEq, Repr

/-- The projection `populate(path, 'firstName lastName email')`. -/
def User.summaryWithEmail (u : User) : UserSummary :=
  { _id := u._id, firstName := u.firstName, lastName := u.lastName, email := some u.email }

/-- The projection `populate(path, 'firstName lastName')`. -/
def User.summary (u : User) : UserSummary :=
  { _id := u._id, firstName := u.firstName, lastName := u.lastName, email := none }

/-- A report with `reporter` and `resolution.resolvedBy` populated; a reference to a user
that no longer exists populates to null. -/
structure PopulatedReport where
  doc : Report
  reporter : Option UserSummary
  resolvedBy : Option UserSummary
deriving DecidableEq, Repr

/-- The reported content as `getReportById` loads it. -/
inductive ReportedContent where
  | post (p : Post) (author : Option UserSummary)
  | comment (c : Comment) (author : Option UserSummary)
  | user (u : User)
deriving DecidableEq, Repr

/-- The value returned by `getReportById`: `{ report, content }`, where `content` is null or
undefined when nothing was loaded. -/
structure ReportDetail where
  report : PopulatedReport
  content : Option ReportedContent
deriving DecidableEq, Repr

/-- The `totals` of `getModerationStats`. -/
structure ModerationTotals where
  pending : Nat
  resolved : Nat
  dismissed : Nat
deriving DecidableEq, Repr

/-- The value returned by `getModerationStats`. -/
structure ModerationStats where
  totals : ModerationTotals
  byReason : List (String × Nat)
  byContentType : List (String × Nat)
deriving DecidableEq, Repr

/-- The query `Report.countDocuments({ status })`. -/
def countByStatus (reports : List Report) (status : String) : Nat :=
  (reports.filter (fun r => r.status == status)).length

/-- The aggregation `{ $group: { _id: key, count: { $sum: 1 } } }` followed by
`Object.fromEntries`: one entry per distinct key with the number of its occurrences. -/
def groupCount (keys : List String) : List (String × Nat) :=
  keys.eraseDups.map (fun k => (k, keys.count k))

namespace ModerationService

/-- Embeds `ModerationService.createReport(reporterId, data)`.  `newId` is the `_id` the
driver generates for the new report.  `Report.create` validates the document and then
inserts it, which the unique indexes reject with the MongoDB error E11000 (the error the
global error handler answers with status 409). -/
def createReport (s : Store) (newId : ObjectId) (reporterId : ObjectId) (data : ReportData) :
    Except String Report × Store :=
  let content : Except String Bool :=
    if data.contentType = "post" then .ok (findById Post._id s.posts data.contentId).isSome
    else if data.contentType = "comment" then
      .ok (findById Comment._id s.comments data.contentId).isSome
    else if data.contentType = "user" then .ok (findById User._id s.users data.contentId).isSome
    else .error "Invalid content type"
  match content with
  | .error e => (.error e, s)
  | .ok false => (.error (data.contentType ++ " not found"), s)
  | .ok true =>
    let report : Report :=
      { _id := newId, reporter := reporterId, contentType := data.contentType,
        contentId := data.contentId, reason := data.reason, description := data.description,
        status := "pending", priority := "medium", resolution := none,
        screenshots := data.screenshots }
    if ¬ report.validNew then (.error "Report validation failed", s)
    else if (findById Report._id s.reports newId).isSome ∨ Report.keyTaken s.reports report then
      (.error "E11000 duplicate key error", s)
    else (.ok report, { s with reports := s.reports ++ [report] })

/-- Embeds `ModerationService.getReportById(reportId)`. -/
def getReportById (s : Store) (reportId : ObjectId) : Except String ReportDetail × Store :=
  match findById Report._id s.reports reportId with
  | none => (.error "Report not found", s)
  | some report =>
    let populated : PopulatedReport :=
      { doc := report,
        reporter := (findById User._id s.users report.reporter).map User.summaryWithEmail,
        resolvedBy :=
          match report.resolution with
          | none => none
          | some res => (findById User._id s.users res.resolvedBy).map User.summary }
    let content : Option ReportedContent :=
      if report.contentType = "post" then
        (findById Post._id s.posts report.contentId).map (fun p =>
          ReportedContent.post p ((findById User._id s.users p.author).map User.summaryWithEmail))
      else if report.contentType = "comment" then
        (findById Comment._id s.comments report.contentId).map (fun c =>
          ReportedContent.comment c
            ((findById User._id s.users c.author).map User.summaryWithEmail))
      else if report.contentType = "user" then
        (findById User._id s.users report.contentId).map ReportedContent.user
      else none
    (.ok { report := populated, content := content }, s)

/-- Embeds `ModerationService.getModerationStats()`. -/
def getModerationStats (s : Store) : Except String ModerationStats × Store :=
  (.ok { totals := { pending := countByStatus s.reports "pending",
                     resolved := countByStatus s.reports "resolved",
                     dismissed := countByStatus s.reports "dismissed" },
         byReason := groupCount (s.reports.map Report.reason),
         byContentType := groupCount (s.reports.map Report.contentType) }, s)

end ModerationService

/-- A valid `createReport` argument: a spam report against the given content. -/
def spamReport (contentType : String) (contentId : ObjectId) : ReportData :=
  { contentType := contentType, contentId := contentId, reason := "spam",
    description := none, screenshots := [] }

/-- A spam report against the post `P1` whose description is 501 times the character
U+1F600, which takes two UTF-16 code units: 501 characters, 1002 code units. -/
def longReport : ReportData :=
  { spamReport "post" "P1" with
      description := some (String.mk (List.replicate 501 (Char.ofNat 128512))) }

/-- A pending report `R4` against the comment `C1`. -/
def commentReportStore : Store :=
  { scenarioAStore with reports := [exampleReport "R4" "comment" "C1"] }

/-- A pending report `R5` against the user `U2`. -/
def userReportStore : Store :=
  { scenarioAStore with reports := [exampleReport "R5" "user" "U2"] }

/-- Scenario A after the author `U1` of the reported post `P1` has deleted the account: the
post and the report `R1` remain. -/
def orphanPostStore : Store :=
  { scenarioAStore with users := [exampleUser "U2", exampleModerator "M1", exampleModerator "M2"] }

/-- A store in which the comment `C1` is reported as `R4` and the account of its author
`U2` has been deleted. -/
def orphanCommentStore : Store :=
  { scenarioAStore with
      users := [exampleUser "U1", exampleModerator "M1", exampleModerator "M2"],
      reports := [exampleReport "R4" "comment" "C1"] }

/-- Scenario A after the reported post `P1` has been deleted: the report `R1` remains. -/
def deletedPostStore : Store :=
  { scenarioAStore with posts := [] }

/-- A published community event `E1` organised by `U1`. -/
def exampleEvent : Event :=
  { _id := "E1", title := "Spring market", description := "Local producers on the square.",
    organizer := "U1", category := "community", startDate := 100, endDate := 200,
    allDay := false,
    location := { name := "Town square", address := none, city := none, postalCode := none,
                  coordinates := [0, 0], isOnline := false, onlineUrl := none },
    images := [], capacity := none, registrationRequired := false,
    registrationDeadline := none, attendees := [], isOfficial := false,
    status := "published", tags := [],
    cost := { isFree := true, amount := none, currency := "EUR" },
    contactInfo := { email := none, phone := none, website := none },
    recurrence := { isRecurring := false, pattern := none, endAfter := none } }

/-- The example store with the event `E1`. -/
def eventStore : Store :=
  { exampleStore with events := [exampleEvent] }

/-- A registry holding one report of each status the schema declares. -/
def reviewingStore : Store :=
  { scenarioAStore with
      reports := [exampleReport "R8" "user" "U1",
                  { exampleReport "R6" "comment" "C1" with status := "reviewing" },
                  resolvedReport,
                  { exampleReport "R7" "user" "U2" with
                      status := "dismissed",
                      resolution := some { action := some "none", notes := some "",
                                           resolvedBy := "M1", resolvedAt := 6 } }] }

/-- The notification data `applyModerationAction` sends with the action `warning`. -/
def warningData : NotificationData :=
  { type := "moderation_action", title := "Content Warning",
    message := "Your content has been flagged for review. Please review our community guidelines.",
    entityType := none, entityId := none, url := none, priority := some "high" }

/-- The document `createReport` hands to `Report.create`, completed with the schema defaults
(status pending, priority medium, no resolution). -/
def newReport (newId reporterId : ObjectId) (data : ReportData) : Report :=
  { _id := newId, reporter := reporterId, contentType := data.contentType,
    contentId := data.contentId, reason := data.reason, description := data.description,
    status := "pending", priority := "medium", resolution := none,
    screenshots := data.screenshots }

/-- The registry states of the moderation workflow: a store is reachable when it comes
from a store with an empty registry by calls of `createReport`, `resolveReport` and
`dismissReport` (whatever their outcome) and by changes of the other services, which leave
the reports collection alone. -/
inductive ModerationService.Reachable : Store → Prop where
  | empty (s : Store) (h : s.reports = []) : ModerationService.Reachable s
  | content (s s1 : Store) (h : ModerationService.Reachable s)
      (hrep : s1.reports = s.reports) : ModerationService.Reachable s1
  | create (s : Store) (newId reporterId : ObjectId) (data : ReportData)
      (h : ModerationService.Reachable s) :
      ModerationService.Reachable (ModerationService.createReport s newId reporterId data).2
  | resolve (s : Store) (now : Date) (newId : ObjectId) (pushRaises : Bool)
      (reportId adminId : ObjectId) (res : ResolutionInput)
      (h : ModerationService.Reachable s) :
      ModerationService.Reachable
        (ModerationService.resolveReport s now newId pushRaises reportId adminId res).2
  | dismiss (s : Store) (now : Date) (reportId adminId : ObjectId) (notes : Option String)
      (h : ModerationService.Reachable s) :
      ModerationService.Reachable
        (ModerationService.dismissReport s now reportId adminId notes).2

/-- The reading of "the report has a resolution (action, resolvedBy, resolvedAt)": the
`resolution` sub-document is set and carries an action; `resolvedBy` and `resolvedAt` are
set whenever the sub-document is. -/
def Report.hasFullResolution (r : Report) : Bool :=
  match r.resolution with
  | none => false
  | some res => res.action.isSome

/-- What holds of every report of a reachable registry: the status is pending, resolved or
dismissed, the `resolution` sub-document is set exactly in the two terminal statuses, and a
dismissed report records the action `none`. -/
def Report.wellResolved (r : Report) : Prop :=
  (r.status = "pending" ∨ r.status = "resolved" ∨ r.status = "dismissed")
    ∧ (r.resolution.isSome = true ↔ (r.status = "resolved" ∨ r.status = "dismissed"))
    ∧ (r.status = "dismissed" → ∃ res, r.resolution = some res ∧ res.action = some "none")

/-- The example store after `U1` has reported the post `P1` (report `R1`) and moderator `M1`
has resolved that report with a request body that carries no action. -/
def actionlessResolvedStore : Store :=
  (ModerationService.resolveReport
    (ModerationService.createReport exampleStore "R1" "U1" (spamReport "post" "P1")).2
    5 "N1" false "R1" "M1" { action := none, notes := none }).2

/-- The number of reports that `getModerationStats` counts in none of its three totals:
those whose status is neither pending nor resolved nor dismissed. -/
def countUncounted (reports : List Report) : Nat :=
  (reports.filter (fun r =>
    !(r.status == "pending" || r.status == "resolved" || r.status == "dismissed"))).length

/-! ## Notification preferences as the dispatcher reads them -/

/-- The value of `(user.preferences?.notifications || {}).inApp`. -/
def User.prefInApp (u : User) : Option Bool :=
  (u.preferences.bind Preferences.notifications).bind NotificationPrefs.inApp

/-- The value of `(user.preferences?.notifications || {}).email`. -/
def User.prefEmail (u : User) : Option Bool :=
  (u.preferences.bind Preferences.notifications).bind NotificationPrefs.email

/-- The value of `(user.preferences?.notifications || {}).sms`. -/
def User.prefSms (u : User) : Option Bool :=
  (u.preferences.bind Preferences.notifications).bind NotificationPrefs.sms

/-- A valid `createNotification` argument: a system alert of normal priority. -/
def alertData : NotificationData :=
  { type := "system_alert", title := "Water cut", message := "No water on Main street today.",
    entityType := none, entityId := none, url := none, priority := none }

/-- A citizen who has switched every notification channel off. -/
def mutedUser (id : ObjectId) : User :=
  { exampleUser id with
      preferences := some { language := "en",
                            notifications := some { email := some false, sms := some false,
                                                    inApp := some false },
                            categories := [] } }

/-- A citizen who has switched every notification channel on. -/
def eagerUser (id : ObjectId) : User :=
  { exampleUser id with
      preferences := some { language := "en",
                            notifications := some { email := some true, sms := some true,
                                                    inApp := some true },
                            categories := [] } }

/-- A store whose users are the default citizen `U1`, the muted citizen `U3` and the eager
citizen `U4`. -/
def preferenceStore : Store :=
  { exampleStore with users := [exampleUser "U1", mutedUser "U3", eagerUser "U4"] }

/-- The document `createNotification` hands to `Notification.create`. -/
def NotificationService.newNotification (newId recipientId : ObjectId)
    (data : NotificationData) (user : User) : Notification :=
  { _id := newId, recipient := recipientId, type := data.type, title := data.title,
    message := data.message,
    data := { entityType := data.entityType, entityId := data.entityId, url := data.url },
    deliveryMethods := NotificationService.selectDeliveryMethods user,
    priority := data.priority.getD "normal",
    isRead := false, readAt := none, expiresAt := none }

/-- The schema validation of `Notification.create` as far as it depends on the `data`
argument of `createNotification`. -/
def NotificationData.valid (data : NotificationData) : Bool :=
  decide (data.type ∈ notificationTypes)
    && decide (data.title ≠ "") && decide (jsLength data.title ≤ 200)
    && decide (data.message ≠ "") && decide (jsLength data.message ≤ 1000)
    && (match data.entityType with
        | none => true
        | some t => decide (t ∈ ["post", "comment", "event", "user"]))
    && decide (data.priority.getD "normal" ∈ ["low", "normal", "high", "urgent"])

namespace NotificationService

/-- The array `recipientIds.map(id => this.createNotification(id, data).catch(e => null))`
of `sendBulkNotification`, once every promise has settled: one entry per listed id, null
(here `none`) where the call threw.  The calls are run one after the other in list order;
the call for the id at position `i` of the original list (`k` counts the positions already
done) gets the generated `_id` `gen i` and the push outcome `pushRaises i`. -/
def settleAll (s : Store) (now : Date) (gen : Nat → ObjectId) (pushRaises : Nat → Bool)
    (data : NotificationData) (k : Nat) (recipientIds : List ObjectId) :
    List (Option Notification) × Store :=
  match recipientIds with
  | [] => ([], s)
  | id :: rest =>
    match createNotification s now (gen k) (pushRaises k) id data with
    | (.error _, s1) =>
      ((none : Option Notification) :: (settleAll s1 now gen pushRaises data (k + 1) rest).1,
       (settleAll s1 now gen pushRaises data (k + 1) rest).2)
    | (.ok n, s1) =>
      (some n :: (settleAll s1 now gen pushRaises data (k + 1) rest).1,
       (settleAll s1 now gen pushRaises data (k + 1) rest).2)

/-- Embeds `NotificationService.sendBulkNotification(recipientIds, data)`: the settled
array with its null entries filtered out. -/
def sendBulkNotification (s : Store) (now : Date) (gen : Nat → ObjectId)
    (pushRaises : Nat → Bool) (recipientIds : List ObjectId) (data : NotificationData) :
    Except String (List Notification) × Store :=
  (.ok ((settleAll s now gen pushRaises data 0 recipientIds).1.filterMap (fun n => n)),
   (settleAll s now gen pushRaises data 0 recipientIds).2)

end NotificationService

/-- The generated ids `N1`, `N2`, `N3` of the bulk example (`N0` beyond them). -/
def exampleGen (i : Nat) : ObjectId :=
  ["N1", "N2", "N3"].getD i "N0"

/-! ## Report listing -/

/-- The `filters` argument of `getReports`. -/
structure ReportFilters where
  status : Option String
  contentType : Option String
  priority : Option String
  reason : Option String
deriving DecidableEq, Repr

/-- The `pagination` object of the list operations. -/
structure Pagination where
  page : Nat
  limit : Nat
  total : Nat
  pages : Nat
deriving DecidableEq, Repr

/-- The value returned by `getReports`. -/
structure ReportPage where
  reports : List PopulatedReport
  pagination : Pagination
deriving DecidableEq, Repr

/-- One condition of the query of `getReports`: `if (filter) query.path = filter`, so an
unset or empty filter value matches every document. -/
def matchesFilter (filter : Option String) (value : String) : Bool :=
  match filter with
  | none => true
  | some v => v == "" || value == v

/-- The query `getReports` builds from its filters. -/
def ReportFilters.matches (f : ReportFilters) (r : Report) : Bool :=
  matchesFilter f.status r.status && matchesFilter f.contentType r.contentType
    && matchesFilter f.priority r.priority && matchesFilter f.reason r.reason

/-- The two `populate` calls of `getReports` and `getReportById`. -/
def populateReport (s : Store) (r : Report) : PopulatedReport :=
  { doc := r,
    reporter := (findById User._id s.users r.reporter).map User.summaryWithEmail,
    resolvedBy :=
      match r.resolution with
      | none => none
      | some res => (findById User._id s.users res.resolvedBy).map User.summary }

/-- JavaScript `Math.ceil(total / limit)` for a count `total` and a positive `limit`. -/
def ceilDiv (total limit : Nat) : Nat :=
  (total + limit - 1) / limit

namespace ModerationService

/-- Embeds `ModerationService.getReports(filters, options)` with the `sort` option left at
its default `-createdAt`, as the admin route calls it.  Reports are stored in the order of
their creation, so newest-first is the reverse of the storage order; the cursor sorts, then
skips `(page - 1) * limit` documents, then takes `limit`.  `page` and `limit` are
non-negative integers (default 1 and 20), `limit` positive as the pagination validator
requires; for page 0 the skip is negative, which the database rejects. -/
def getReports (s : Store) (filters : ReportFilters) (page limit : Option Nat) :
    Except String ReportPage × Store :=
  let page := page.getD 1
  let limit := limit.getD 20
  let skip : Int := ((page : Int) - 1) * (limit : Int)
  if skip < 0 then (.error "Skip value must be non-negative", s)
  else
    let sorted := (s.reports.filter filters.matches).reverse
    let reports := ((sorted.drop skip.toNat).take limit).map (populateReport s)
    let total := (s.reports.filter filters.matches).length
    (.ok { reports := reports,
           pagination := { page := page, limit := limit, total := total,
                           pages := ceilDiv total limit } }, s)

end ModerationService

/-- A registry of five reports `Q1` to `Q5`, the third of them resolved. -/
def fiveReportStore : Store :=
  { scenarioAStore with
      reports := [exampleReport "Q1" "post" "P1", exampleReport "Q2" "comment" "C1",
                  { exampleReport "Q3" "user" "U2" with
                      status := "resolved",
                      resolution := some { action := some "none", notes := none,
                                           resolvedBy := "M1", resolvedAt := 9 } },
                  exampleReport "Q4" "user" "U1", exampleReport "Q5" "user" "M1"] }

/-- The filter `status = pending`. -/
def pendingFilter : ReportFilters :=
  { status := some "pending", contentType := none, priority := none, reason := none }

/-! ## Events: registration -/

/-- The `attendeeCount` virtual of `Event`:
`this.attendees?.filter(a => a.status !== 'cancelled').length || 0`. -/
def Event.attendeeCount (e : Event) : Nat :=
  orZero (e.attendees.filter (fun a => a.status != "cancelled")).length

/-- The `isFull` virtual of `Event`: `if (!this.capacity) return false` and then
`this.attendeeCount >= this.capacity`; a capacity of null and a capacity of 0 are both
falsy.  The schema declares `capacity` as a `Number` without a validator, so any finite
number can be stored; it is a rational here. -/
def Event.isFull (e : Event) : Bool :=
  match e.capacity with
  | none => false
  | some c => if c = 0 then false else decide ((e.attendeeCount : ℚ) ≥ c)

/-- The validation `event.save()` runs: the `pre('validate')` hook rejects an end date that
is not after the start date. -/
def Event.valid (e : Event) : Bool :=
  decide (e.startDate < e.endDate)

/-- The `userId` argument of `registerForEvent` and `cancelRegistration` as a JavaScript
value.  The services compare it with `a.user.toString() === userId`, which can hold only
for an id string; the handlers of `routes/event.routes.js` pass `req.user._id`, the
ObjectId object itself, which is never `===` to a string. -/
inductive UserIdArg where
  | text (id : String)
  | objectId (id : ObjectId)
deriving DecidableEq, Repr

/-- The comparison `idString === userId` for a string `idString`. -/
def UserIdArg.strictEq (idString : String) : UserIdArg → Bool
  | .text id => idString == id
  | .objectId _ => false

/-- The ObjectId Mongoose casts the value to when it is assigned to an ObjectId path. -/
def UserIdArg.toObjectId : UserIdArg → ObjectId
  | .text id => id
  | .objectId id => id

/-- Sets the status of the element returned by
`attendees.find(a => a.user.toString() === userId)` to cancelled. -/
def cancelFirst (userId : UserIdArg) (attendees : List Attendee) : List Attendee :=
  match attendees with
  | [] => []
  | a :: rest =>
    if UserIdArg.strictEq a.user userId then { a with status := "cancelled" } :: rest
    else a :: cancelFirst userId rest

namespace EventService

/-- Embeds `EventService.registerForEvent(eventId, userId)`; the returned value is the
message of the result object. -/
def registerForEvent (s : Store) (now : Date) (eventId : ObjectId) (userId : UserIdArg) :
    Except String String × Store :=
  match findById Event._id s.events eventId with
  | none => (.error "Event not found", s)
  | some event =>
    if event.status ≠ "published" then (.error "Event is not available for registration", s)
    else if (event.attendees.find?
        (fun a => UserIdArg.strictEq a.user userId && a.status != "cancelled")).isSome then
      (.error "Already registered for this event", s)
    else if event.isFull then (.error "Event is at full capacity", s)
    else if (match event.registrationDeadline with
             | none => false
             | some deadline => decide (now > deadline)) then
      (.error "Registration deadline has passed", s)
    else
      let event : Event :=
        { event with
            attendees := event.attendees
              ++ [{ user := userId.toObjectId, status := "registered", registeredAt := now }] }
      if event.valid then
        (.ok "Successfully registered for event",
         { s with events := saveDoc Event._id s.events event })
      else (.error "Event validation failed", s)

/-- Embeds `EventService.cancelRegistration(eventId, userId)`; the returned value is the
message of the result object. -/
def cancelRegistration (s : Store) (eventId : ObjectId) (userId : UserIdArg) :
    Except String String × Store :=
  match findById Event._id s.events eventId with
  | none => (.error "Event not found", s)
  | some event =>
    if (event.attendees.find? (fun a => UserIdArg.strictEq a.user userId)).isNone then
      (.error "Not registered for this event", s)
    else
      let event : Event := { event with attendees := cancelFirst userId event.attendees }
      if event.valid then
        (.ok "Registration cancelled", { s with events := saveDoc Event._id s.events event })
      else (.error "Event validation failed", s)

end EventService

/-- The event store with the capacity of `E1` set to 0. -/
def zeroCapacityStore : Store :=
  { exampleStore with events := [{ exampleEvent with capacity := some 0 }] }

/-- The event store with the capacity of `E1` set to 1 and `U1` registered. -/
def fullEventStore : Store :=
  { exampleStore with
      events := [{ exampleEvent with
                     capacity := some 1,
                     attendees := [{ user := "U1", status := "registered",
                                     registeredAt := 40 }] }] }

/-- The number 2.5. -/
def twoAndHalf : ℚ :=
  { num := 5, den := 2 }

/-- The event store with the capacity of `E1` set to 2.5 and two registered attendees. -/
def fractionalCapacityStore : Store :=
  { exampleStore with
      events := [{ exampleEvent with
                     capacity := some twoAndHalf,
                     attendees := [{ user := "U1", status := "registered",
                                     registeredAt := 40 },
                                   { user := "U3", status := "registered",
                                     registeredAt := 41 }] }] }

/-- The event store after the handler of `POST /api/events/:id/register` has registered
`U2` for `E1`. -/
def registeredStore : Store :=
  (EventService.registerForEvent eventStore 50 "E1" (.objectId "U2")).2

/-- The event store after `U2` has registered for `E1`, cancelled, and registered again,
each time with the id string. -/
def reRegisteredStore : Store :=
  (EventService.registerForEvent
    (EventService.cancelRegistration
      (EventService.registerForEvent eventStore 50 "E1" (.text "U2")).2 "E1" (.text "U2")).2
    52 "E1" (.text "U2")).2

/-! ## Posts: update -/

/-- The `updates` argument of `updatePost` (the request body): the keys the service may
copy, and four further keys of the Post schema a caller can send, which it never copies. -/
structure PostUpdates where
  title : Option String
  content : Option String
  category : Option String
  tags : Option (List String)
  images : Option (List Image)
  attachments : Option (List Attachment)
  status : Option String
  visibility : Option String
  isOfficial : Option Bool
  isPinned : Option Bool
  moderationNotes : Option String
  author : Option ObjectId
  votes : Option Votes
  moderatedBy : Option ObjectId
  moderatedAt : Option Date
deriving DecidableEq, Repr

/-- The request body that sets no key. -/
def PostUpdates.empty : PostUpdates :=
  { title := Option.none, content := Option.none, category := Option.none,
    tags := Option.none, images := Option.none, attachments := Option.none,
    status := Option.none, visibility := Option.none, isOfficial := Option.none,
    isPinned := Option.none, moderationNotes := Option.none, author := Option.none,
    votes := Option.none, moderatedBy := Option.none, moderatedAt := Option.none }

/-- The copy loop of `updatePost` over the keys every authorised caller may set; the schema
trims the title and trims and lower-cases the tags on assignment. -/
def Post.applyUpdates (p : Post) (u : PostUpdates) : Post :=
  { p with
      title := (u.title.map String.trim).getD p.title,
      content := u.content.getD p.content,
      category := u.category.getD p.category,
      tags := (u.tags.map (fun ts => ts.map (fun t => t.trim.toLower))).getD p.tags,
      images := u.images.getD p.images,
      attachments := u.attachments.getD p.attachments,
      status := u.status.getD p.status,
      visibility := u.visibility.getD p.visibility }

/-- The copy loop of `updatePost` over the three keys added for staff and administrators. -/
def Post.applyAdminUpdates (p : Post) (u : PostUpdates) : Post :=
  { p with
      isOfficial := u.isOfficial.getD p.isOfficial,
      isPinned := u.isPinned.getD p.isPinned,
      moderationNotes :=
        match u.moderationNotes with
        | Option.none => p.moderationNotes
        | some notes => some notes }

/-- The schema validation `post.save()` runs on the paths `updatePost` can assign. -/
def Post.valid (p : Post) : Bool :=
  decide (p.title ≠ "") && decide (jsLength p.title ≤ 200)
    && decide (p.content ≠ "") && decide (jsLength p.content ≤ 10000)
    && decide (p.category ∈ ["news", "announcement", "discussion", "alert", "event"])
    && decide (p.status ∈ ["draft", "pending", "published", "archived", "rejected"])
    && decide (p.visibility ∈ ["public", "registered", "staff"])

namespace ContentService

/-- Embeds `ContentService.updatePost(postId, authorId, updates, isAdmin = false)`; the route
passes `isAdmin` true for staff and administrators.  The returned document is given
without the populated author. -/
def updatePost (s : Store) (now : Date) (postId : ObjectId) (authorId : String)
    (updates : PostUpdates) (isAdmin : Bool) : Except String Post × Store :=
  match findById Post._id s.posts postId with
  | none => (.error "Post not found", s)
  | some post =>
    if post.author ≠ authorId ∧ isAdmin = false then
      (.error "Not authorized to update this post", s)
    else
      let post := post.applyUpdates updates
      let post := if isAdmin then post.applyAdminUpdates updates else post
      if post.valid then
        let post := post.preSave now
        (.ok post, { s with posts := saveDoc Post._id s.posts post })
      else (.error "Post validation failed", s)

end ContentService

/-- The request body `{ status: 'published' }` together with every key an author is not
allowed to set. -/
def republishUpdates : PostUpdates :=
  { PostUpdates.empty with
      status := some "published", isOfficial := some true, isPinned := some true,
      moderationNotes := some "cleared", author := some "U2",
      votes := some { up := ["U1"], down := [] }, moderatedBy := some "U1",
      moderatedAt := some 0 }

/-- The event store with the capacity of `E1` set to 2 and `U1` registered. -/
def roomyEventStore : Store :=
  { exampleStore with
      events := [{ exampleEvent with
                     capacity := some 2,
                     attendees := [{ user := "U1", status := "registered",
                                     registeredAt := 40 }] }] }

/-! ## Lemmas on the collection primitives -/

theorem findById_key {α : Type} (key : α → ObjectId) (docs : List α) (id : ObjectId) (d : α)
    (h : findById key docs id = some d) : key d = id := by
  unfold findById at h
  have := List.find?_some h
  simpa using this

theorem findById_findByIdAndUpdate_same {α : Type} (key : α → ObjectId) (docs : List α)
    (id : ObjectId) (f : α → α) (hf : ∀ d, key d = id → key (f d) = id) :
    findById key (findByIdAndUpdate key docs id f) id = (findById key docs id).map f := by
  induction docs with
  | nil => simp [findById, findByIdAndUpdate]
  | cons d ds ih =>
    unfold findByIdAndUpdate
    by_cases h : key d = id
    · simp [findById, h, hf d h]
    · have hb : (key d == id) = false := by simpa using h
      simp only [h, if_false]
      simp only [findById, List.find?_cons, hb] at ih ⊢
      exact ih

theorem findById_findByIdAndUpdate_other {α : Type} (key : α → ObjectId) (docs : List α)
    (id id' : ObjectId) (f : α → α) (hf : ∀ d, key d = id → key (f d) = id) (hne : id' ≠ id) :
    findById key (findByIdAndUpdate key docs id f) id' = findById key docs id' := by
  induction docs with
  | nil => simp [findById, findByIdAndUpdate]
  | cons d ds ih =>
    unfold findByIdAndUpdate
    by_cases h : key d = id
    · have h1 : (key (f d) == id') = false := by
        rw [hf d h]; simpa using fun e : id = id' => hne e.symm
      have h2 : (key d == id') = false := by
        rw [h]; simpa using fun e : id = id' => hne e.symm
      simp only [h, if_true]
      simp only [findById, List.find?_cons, h1, h2]
    · simp only [h, if_false]
      simp only [findById, List.find?_cons] at ih ⊢
      rw [ih]

theorem findByIdAndUpdate_length {α : Type} (key : α → ObjectId) (docs : List α)
    (id : ObjectId) (f : α → α) :
    (findByIdAndUpdate key docs id f).length = docs.length := by
  induction docs with
  | nil => simp [findByIdAndUpdate]
  | cons d ds ih =>
    unfold findByIdAndUpdate
    by_cases h : key d = id <;> simp [h, ih]

theorem findById_saveDoc {α : Type} (key : α → ObjectId) (docs : List α) (id : ObjectId)
    (d doc : α) (h : findById key docs id = some d) (hk : key doc = id) :
    findById key (saveDoc key docs doc) id = some doc := by
  unfold saveDoc
  rw [hk, findById_findByIdAndUpdate_same key docs id _ (fun _ _ => hk), h]
  rfl

/-! ## Lemmas on the vote ledger -/

theorem orZero_eq (n : Nat) : orZero n = n := by
  unfold orZero
  split <;> omega

theorem Votes.mem_filter_ne (l : List ObjectId) (v : String) :
    v ∉ l.filter (fun id => id != v) := by
  simp [List.mem_filter]

theorem Votes.cast_up (vs : Votes) (v : String) :
    (vs.cast v "up").up = vs.up.filter (fun id => id != v) ++ [v]
      ∧ (vs.cast v "up").down = vs.down.filter (fun id => id != v) := by
  simp [Votes.cast]

theorem Votes.cast_down (vs : Votes) (v : String) :
    (vs.cast v "down").up = vs.up.filter (fun id => id != v)
      ∧ (vs.cast v "down").down = vs.down.filter (fun id => id != v) ++ [v] := by
  simp [Votes.cast]

theorem Votes.cast_other (vs : Votes) (v d : String) (hu : d ≠ "up") (hd : d ≠ "down") :
    (vs.cast v d).up = vs.up.filter (fun id => id != v)
      ∧ (vs.cast v d).down = vs.down.filter (fun id => id != v) := by
  simp [Votes.cast, hu, hd]

theorem Votes.cast_exclusive (vs : Votes) (v d : String) :
    ¬ (v ∈ (vs.cast v d).up ∧ v ∈ (vs.cast v d).down) := by
  by_cases hu : d = "up"
  · subst hu
    rw [(Votes.cast_up vs v).2]
    exact fun h => Votes.mem_filter_ne _ _ h.2
  · by_cases hd : d = "down"
    · subst hd
      rw [(Votes.cast_down vs v).1]
      exact fun h => Votes.mem_filter_ne _ _ h.1
    · rw [(Votes.cast_other vs v d hu hd).1]
      exact fun h => Votes.mem_filter_ne _ _ h.1

theorem Post.preSave_id (now : Date) (p : Post) : (p.preSave now)._id = p._id := by
  unfold Post.preSave
  dsimp only
  split <;> split <;> rfl

theorem Post.preSave_votes (now : Date) (p : Post) : (p.preSave now).votes = p.votes := by
  unfold Post.preSave
  dsimp only
  split <;> split <;> rfl

/-- The post that `votePost` stores. -/
theorem ContentService.votePost_eq (s : Store) (now : Date) (postId : ObjectId) (p : Post)
    (v d : String) (hp : findById Post._id s.posts postId = some p) :
    ContentService.votePost s now postId v d
      = (.ok { voteScore := (({ p with votes := p.votes.cast v d } : Post).preSave now).votes.voteScore,
               upvotes := (({ p with votes := p.votes.cast v d } : Post).preSave now).votes.up.length,
               downvotes := (({ p with votes := p.votes.cast v d } : Post).preSave now).votes.down.length },
         { s with posts := saveDoc Post._id s.posts
                        (({ p with votes := p.votes.cast v d } : Post).preSave now) }) := by
  simp only [ContentService.votePost, hp]

/-- A call of `votePost` on an existing post returns, and the stored post then carries the
votes computed by `Votes.cast`. -/
theorem ContentService.votePost_ok (s : Store) (now : Date) (postId : ObjectId) (p : Post)
    (v d : String) (hp : findById Post._id s.posts postId = some p) :
    ∃ s1 r p1, ContentService.votePost s now postId v d = (.ok r, s1)
      ∧ findById Post._id s1.posts postId = some p1
      ∧ p1.votes = p.votes.cast v d
      ∧ r = { voteScore := (p.votes.cast v d).voteScore,
              upvotes := (p.votes.cast v d).up.length,
              downvotes := (p.votes.cast v d).down.length } := by
  have hk := findById_key _ _ _ _ hp
  refine ⟨_, _, ({ p with votes := p.votes.cast v d } : Post).preSave now,
    ContentService.votePost_eq s now postId p v d hp, ?_, ?_, ?_⟩
  · exact findById_saveDoc _ _ _ p _ hp (by rw [Post.preSave_id]; exact hk)
  · rw [Post.preSave_votes]
  · simp only [Post.preSave_votes]

/-- The comment that `voteComment` stores. -/
theorem CommentService.voteComment_eq (s : Store) (commentId : ObjectId) (c : Comment)
    (v d : String) (hc : findById Comment._id s.comments commentId = some c) :
    CommentService.voteComment s commentId v d
      = (.ok { voteScore := (c.votes.cast v d).voteScore,
               upvotes := (c.votes.cast v d).up.length,
               downvotes := (c.votes.cast v d).down.length },
         Comment.postSave
               { s with comments := saveDoc Comment._id s.comments
                          { c with votes := c.votes.cast v d } }
               { c with votes := c.votes.cast v d }) := by
  simp only [CommentService.voteComment, hc]

/-- A call of `voteComment` on an existing comment returns, and the stored comment then
carries the votes computed by `Votes.cast`. -/
theorem CommentService.voteComment_ok (s : Store) (commentId : ObjectId) (c : Comment)
    (v d : String) (hc : findById Comment._id s.comments commentId = some c) :
    ∃ s1 r c1, CommentService.voteComment s commentId v d = (.ok r, s1)
      ∧ findById Comment._id s1.comments commentId = some c1
      ∧ c1.votes = c.votes.cast v d
      ∧ r = { voteScore := (c.votes.cast v d).voteScore,
              upvotes := (c.votes.cast v d).up.length,
              downvotes := (c.votes.cast v d).down.length } := by
  have hk := findById_key _ _ _ _ hc
  refine ⟨_, _, { c with votes := c.votes.cast v d },
    CommentService.voteComment_eq s commentId c v d hc, ?_, rfl, rfl⟩
  exact findById_saveDoc _ _ _ c _ hc hk

theorem ContentService.votePostCalls_cons (s s1 : Store) (postId : ObjectId) (c : VoteCall)
    (cs : List VoteCall) (r : VoteResult)
    (h : ContentService.votePost s c.now postId c.userId c.voteType = (.ok r, s1)) :
    ContentService.votePostCalls s postId (c :: cs)
      = match ContentService.votePostCalls s1 postId cs with
        | (.error e, s2) => (.error e, s2)
        | (.ok rs, s2) => (.ok (r :: rs), s2) := by
  rw [ContentService.votePostCalls, h]

theorem CommentService.voteCommentCalls_cons (s s1 : Store) (commentId : ObjectId)
    (c : VoteCall) (cs : List VoteCall) (r : VoteResult)
    (h : CommentService.voteComment s commentId c.userId c.voteType = (.ok r, s1)) :
    CommentService.voteCommentCalls s commentId (c :: cs)
      = match CommentService.voteCommentCalls s1 commentId cs with
        | (.error e, s2) => (.error e, s2)
        | (.ok rs, s2) => (.ok (r :: rs), s2) := by
  rw [CommentService.voteCommentCalls, h]

theorem ContentService.votePostCalls_exclusive (postId : ObjectId) (v : String) :
    ∀ (calls : List VoteCall) (s : Store) (p : Post),
      findById Post._id s.posts postId = some p → calls ≠ [] →
      (∀ c ∈ calls, c.userId = v) →
      ∃ s1 rs p1, ContentService.votePostCalls s postId calls = (.ok rs, s1)
        ∧ findById Post._id s1.posts postId = some p1
        ∧ ¬ (v ∈ p1.votes.up ∧ v ∈ p1.votes.down) := by
  intro calls
  induction calls with
  | nil => intro s p _ hne; exact absurd rfl hne
  | cons c cs ih =>
    intro s p hp _ hv
    obtain ⟨s1, r, p1, h1, hp1, hv1, _⟩ :=
      ContentService.votePost_ok s c.now postId p c.userId c.voteType hp
    cases cs with
    | nil =>
      refine ⟨s1, [r], p1, ?_, hp1, ?_⟩
      · rw [ContentService.votePostCalls_cons s s1 postId c [] r h1]
        rfl
      · rw [hv1, ← hv c (List.mem_cons_self _ _)]
        exact Votes.cast_exclusive _ _ _
    | cons c2 cs2 =>
      obtain ⟨s2, rs, p2, h2, hp2, hex⟩ :=
        ih s1 p1 hp1 (by simp) (fun x hx => hv x (List.mem_cons_of_mem _ hx))
      refine ⟨s2, r :: rs, p2, ?_, hp2, hex⟩
      rw [ContentService.votePostCalls_cons s s1 postId c _ r h1, h2]

theorem CommentService.voteCommentCalls_exclusive (commentId : ObjectId) (v : String) :
    ∀ (calls : List VoteCall) (s : Store) (c : Comment),
      findById Comment._id s.comments commentId = some c → calls ≠ [] →
      (∀ x ∈ calls, x.userId = v) →
      ∃ s1 rs c1, CommentService.voteCommentCalls s commentId calls = (.ok rs, s1)
        ∧ findById Comment._id s1.comments commentId = some c1
        ∧ ¬ (v ∈ c1.votes.up ∧ v ∈ c1.votes.down) := by
  intro calls
  induction calls with
  | nil => intro s p _ hne; exact absurd rfl hne
  | cons c cs ih =>
    intro s p hp _ hv
    obtain ⟨s1, r, p1, h1, hp1, hv1, _⟩ :=
      CommentService.voteComment_ok s commentId p c.userId c.voteType hp
    cases cs with
    | nil =>
      refine ⟨s1, [r], p1, ?_, hp1, ?_⟩
      · rw [CommentService.voteCommentCalls_cons s s1 commentId c [] r h1]
        rfl
      · rw [hv1, ← hv c (List.mem_cons_self _ _)]
        exact Votes.cast_exclusive _ _ _
    | cons c2 cs2 =>
      obtain ⟨s2, rs, p2, h2, hp2, hex⟩ :=
        ih s1 p1 hp1 (by simp) (fun x hx => hv x (List.mem_cons_of_mem _ hx))
      refine ⟨s2, r :: rs, p2, ?_, hp2, hex⟩
      rw [CommentService.voteCommentCalls_cons s s1 commentId c _ r h1, h2]

/-! ## Vote ledger: the claims -/

/-- C1 (vote mutual exclusion). From any store, whatever the up and down lists of the post
or comment hold at the start, every non-empty sequence of `votePost` calls (respectively
`voteComment` calls) by one voter `v` runs to completion, and in the stored document `v`
then occurs in at most one of `votes.up` and `votes.down`.  As the sequence is arbitrary,
this is the state after each call.  It holds for every `voteType` string, in particular
for up, down and none. -/
theorem vote_mutual_exclusion (s : Store) (v : String) (calls : List VoteCall)
    (hne : calls ≠ []) (hv : ∀ c ∈ calls, c.userId = v) :
    (∀ postId p, findById Post._id s.posts postId = some p →
      ∃ s1 rs p1, ContentService.votePostCalls s postId calls = (.ok rs, s1)
        ∧ findById Post._id s1.posts postId = some p1
        ∧ ¬ (v ∈ p1.votes.up ∧ v ∈ p1.votes.down))
    ∧ (∀ commentId c, findById Comment._id s.comments commentId = some c →
      ∃ s1 rs c1, CommentService.voteCommentCalls s commentId calls = (.ok rs, s1)
        ∧ findById Comment._id s1.comments commentId = some c1
        ∧ ¬ (v ∈ c1.votes.up ∧ v ∈ c1.votes.down)) :=
  ⟨fun postId p hp => ContentService.votePostCalls_exclusive postId v calls s p hp hne hv,
   fun commentId c hc =>
     CommentService.voteCommentCalls_exclusive commentId v calls s c hc hne hv⟩

theorem Votes.cast_cast (vs : Votes) (v d : String) : (vs.cast v d).cast v d = vs.cast v d := by
  by_cases hu : d = "up"
  · subst hu
    simp [Votes.cast, List.filter_append, List.filter_filter]
  · by_cases hd : d = "down"
    · subst hd
      simp [Votes.cast, List.filter_append, List.filter_filter]
    · simp [Votes.cast, hu, hd, List.filter_filter]

theorem Votes.count_filter_ne (l : List ObjectId) (v : String) :
    (l.filter (fun id => id != v)).count v = 0 :=
  List.count_eq_zero_of_not_mem (Votes.mem_filter_ne l v)

theorem Votes.voteScore_eq (vs : Votes) :
    vs.voteScore = (vs.up.length : Int) - (vs.down.length : Int) := by
  simp [Votes.voteScore, orZero_eq]

/-- Witness of C1: scenario B run on a post whose lists both hold `U2` at the start. -/
theorem vote_mutual_exclusion_witness :
    (scenarioB ≠ [] ∧ ∀ c ∈ scenarioB, c.userId = "U2")
    ∧ ∃ s1 rs p1, ContentService.votePostCalls doubleVotedStore "P1" scenarioB = (.ok rs, s1)
        ∧ findById Post._id s1.posts "P1" = some p1
        ∧ ¬ ("U2" ∈ p1.votes.up ∧ "U2" ∈ p1.votes.down) :=
  ⟨⟨by decide, by decide⟩,
   (vote_mutual_exclusion doubleVotedStore "U2" scenarioB (by decide) (by decide)).1 "P1"
     { examplePost with votes := { up := ["U2", "U3"], down := ["U2"] } } rfl⟩

/-- C2 (vote postcondition). On an existing post, `votePost` with direction up returns and
leaves the voter exactly once in `votes.up` and absent from `votes.down`; with direction
down it leaves the voter exactly once in `votes.down` and absent from `votes.up`; with
direction none it leaves the voter absent from both, whatever the lists held before.  On a
post without votes the calls up, down, none return the scores 1, -1, 0. -/
theorem vote_postcondition (s : Store) (now : Date) (postId : ObjectId) (p : Post) (v : String)
    (hp : findById Post._id s.posts postId = some p) :
    (∃ s1 r p1, ContentService.votePost s now postId v "up" = (.ok r, s1)
        ∧ findById Post._id s1.posts postId = some p1
        ∧ p1.votes.up.count v = 1 ∧ v ∉ p1.votes.down)
    ∧ (∃ s1 r p1, ContentService.votePost s now postId v "down" = (.ok r, s1)
        ∧ findById Post._id s1.posts postId = some p1
        ∧ p1.votes.down.count v = 1 ∧ v ∉ p1.votes.up)
    ∧ (∃ s1 r p1, ContentService.votePost s now postId v "none" = (.ok r, s1)
        ∧ findById Post._id s1.posts postId = some p1
        ∧ v ∉ p1.votes.up ∧ v ∉ p1.votes.down)
    ∧ (p.votes.up = [] → p.votes.down = [] →
        ∃ s3 rs, ContentService.votePostCalls s postId
            [{ now := now, userId := v, voteType := "up" },
             { now := now, userId := v, voteType := "down" },
             { now := now, userId := v, voteType := "none" }] = (.ok rs, s3)
          ∧ rs.map VoteResult.voteScore = [1, -1, 0]) := by
  refine ⟨?_, ?_, ?_, ?_⟩
  · obtain ⟨s1, r, p1, h1, hp1, hv1, _⟩ := ContentService.votePost_ok s now postId p v "up" hp
    refine ⟨s1, r, p1, h1, hp1, ?_, ?_⟩
    · rw [hv1, (Votes.cast_up _ _).1, List.count_append, Votes.count_filter_ne]
      simp
    · rw [hv1, (Votes.cast_up _ _).2]
      exact Votes.mem_filter_ne _ _
  · obtain ⟨s1, r, p1, h1, hp1, hv1, _⟩ := ContentService.votePost_ok s now postId p v "down" hp
    refine ⟨s1, r, p1, h1, hp1, ?_, ?_⟩
    · rw [hv1, (Votes.cast_down _ _).2, List.count_append, Votes.count_filter_ne]
      simp
    · rw [hv1, (Votes.cast_down _ _).1]
      exact Votes.mem_filter_ne _ _
  · obtain ⟨s1, r, p1, h1, hp1, hv1, _⟩ := ContentService.votePost_ok s now postId p v "none" hp
    refine ⟨s1, r, p1, h1, hp1, ?_, ?_⟩
    · rw [hv1, (Votes.cast_other _ _ _ (by decide) (by decide)).1]
      exact Votes.mem_filter_ne _ _
    · rw [hv1, (Votes.cast_other _ _ _ (by decide) (by decide)).2]
      exact Votes.mem_filter_ne _ _
  · intro hu hd
    obtain ⟨s1, r1, p1, h1, hp1, hv1, hr1⟩ := ContentService.votePost_ok s now postId p v "up" hp
    obtain ⟨s2, r2, p2, h2, hp2, hv2, hr2⟩ :=
      ContentService.votePost_ok s1 now postId p1 v "down" hp1
    obtain ⟨s3, r3, p3, h3, hp3, hv3, hr3⟩ :=
      ContentService.votePost_ok s2 now postId p2 v "none" hp2
    refine ⟨s3, [r1, r2, r3], ?_, ?_⟩
    · rw [ContentService.votePostCalls_cons s s1 postId ⟨now, v, "up"⟩ _ r1 h1,
        ContentService.votePostCalls_cons s1 s2 postId ⟨now, v, "down"⟩ _ r2 h2,
        ContentService.votePostCalls_cons s2 s3 postId ⟨now, v, "none"⟩ _ r3 h3]
      rfl
    · have e1 : p1.votes = { up := [v], down := [] } := by
        rw [hv1]; simp [Votes.cast, hu, hd]
      have e2 : p2.votes = { up := [], down := [v] } := by
        rw [hv2, e1]; simp [Votes.cast]
      have e0 : p.votes = { up := [], down := [] } := by
        cases hpv : p.votes with
        | mk u dn => rw [hpv] at hu hd; simp only at hu hd; rw [hu, hd]
      rw [hr1, hr2, hr3, e1, e2, e0]
      simp [Votes.cast, Votes.voteScore, orZero]

/-- Witness of C2: `U2` votes on the post `P1` of the double-voted store. -/
theorem vote_postcondition_witness :
    findById Post._id doubleVotedStore.posts "P1"
        = some { examplePost with votes := { up := ["U2", "U3"], down := ["U2"] } }
    ∧ ∃ s1 r p1, ContentService.votePost doubleVotedStore 10 "P1" "U2" "up" = (.ok r, s1)
        ∧ findById Post._id s1.posts "P1" = some p1
        ∧ p1.votes.up.count "U2" = 1 ∧ "U2" ∉ p1.votes.down :=
  ⟨rfl, (vote_postcondition doubleVotedStore 10 "P1" _ "U2" rfl).1⟩

/-- C3 (vote idempotence). On an existing post, calling `votePost` a second time with the
same voter and direction returns the same voteScore, upvotes and downvotes and stores the
same `votes.up` and `votes.down` as the first call; the same holds for `voteComment`. -/
theorem vote_idempotent (s : Store) (now now2 : Date) (v d : String) :
    (∀ postId p, findById Post._id s.posts postId = some p →
      ∃ s1 r1 p1 s2 r2 p2, ContentService.votePost s now postId v d = (.ok r1, s1)
        ∧ findById Post._id s1.posts postId = some p1
        ∧ ContentService.votePost s1 now2 postId v d = (.ok r2, s2)
        ∧ findById Post._id s2.posts postId = some p2
        ∧ p2.votes.up = p1.votes.up ∧ p2.votes.down = p1.votes.down ∧ r2 = r1)
    ∧ (∀ commentId c, findById Comment._id s.comments commentId = some c →
      ∃ s1 r1 c1 s2 r2 c2, CommentService.voteComment s commentId v d = (.ok r1, s1)
        ∧ findById Comment._id s1.comments commentId = some c1
        ∧ CommentService.voteComment s1 commentId v d = (.ok r2, s2)
        ∧ findById Comment._id s2.comments commentId = some c2
        ∧ c2.votes.up = c1.votes.up ∧ c2.votes.down = c1.votes.down ∧ r2 = r1) := by
  constructor
  · intro postId p hp
    obtain ⟨s1, r1, p1, h1, hp1, hv1, hr1⟩ := ContentService.votePost_ok s now postId p v d hp
    obtain ⟨s2, r2, p2, h2, hp2, hv2, hr2⟩ :=
      ContentService.votePost_ok s1 now2 postId p1 v d hp1
    have e : p2.votes = p1.votes := by rw [hv2, hv1, Votes.cast_cast]
    refine ⟨s1, r1, p1, s2, r2, p2, h1, hp1, h2, hp2, by rw [e], by rw [e], ?_⟩
    rw [hr2, hr1, hv1, Votes.cast_cast]
  · intro commentId c hc
    obtain ⟨s1, r1, c1, h1, hc1, hv1, hr1⟩ := CommentService.voteComment_ok s commentId c v d hc
    obtain ⟨s2, r2, c2, h2, hc2, hv2, hr2⟩ :=
      CommentService.voteComment_ok s1 commentId c1 v d hc1
    have e : c2.votes = c1.votes := by rw [hv2, hv1, Votes.cast_cast]
    refine ⟨s1, r1, c1, s2, r2, c2, h1, hc1, h2, hc2, by rw [e], by rw [e], ?_⟩
    rw [hr2, hr1, hv1, Votes.cast_cast]

/-- C4 (vote score correctness). On an existing post every sequence of `votePost` calls, by
any voters, runs to completion; each returned `voteScore` is `upvotes - downvotes`, and the
`upvotes` and `downvotes` returned by the last call are the lengths of the stored
`votes.up` and `votes.down`. -/
theorem vote_score_correct (postId : ObjectId) (calls : List VoteCall) (s : Store) (p : Post)
    (hp : findById Post._id s.posts postId = some p) :
    ∃ s1 rs p1, ContentService.votePostCalls s postId calls = (.ok rs, s1)
      ∧ findById Post._id s1.posts postId = some p1
      ∧ rs.length = calls.length
      ∧ (∀ r ∈ rs, r.voteScore = (r.upvotes : Int) - (r.downvotes : Int))
      ∧ (∀ r, rs.getLast? = some r →
          r.upvotes = p1.votes.up.length ∧ r.downvotes = p1.votes.down.length
            ∧ r.voteScore = (p1.votes.up.length : Int) - (p1.votes.down.length : Int)) := by
  induction calls generalizing s p with
  | nil =>
    refine ⟨s, [], p, rfl, hp, rfl, ?_, ?_⟩
    · intro r hr; cases hr
    · intro r hr; cases hr
  | cons c cs ih =>
    obtain ⟨s1, r, p1, h1, hp1, hv1, hr1⟩ :=
      ContentService.votePost_ok s c.now postId p c.userId c.voteType hp
    obtain ⟨s2, rs, p2, h2, hp2, hlen, hall, hlast⟩ := ih s1 p1 hp1
    have hr : r.voteScore = (r.upvotes : Int) - (r.downvotes : Int) := by
      rw [hr1]; exact Votes.voteScore_eq _
    refine ⟨s2, r :: rs, p2, ?_, hp2, by simp [hlen], ?_, ?_⟩
    · rw [ContentService.votePostCalls_cons s s1 postId c cs r h1, h2]
    · intro x hx
      rcases List.mem_cons.1 hx with rfl | hx
      · exact hr
      · exact hall x hx
    · intro x hx
      cases rs with
      | nil =>
        have hcs : cs = [] := List.length_eq_zero.1 (by simpa using hlen.symm)
        subst hcs
        simp only [ContentService.votePostCalls, Prod.mk.injEq, Except.ok.injEq] at h2
        have hx2 : x = r := by simpa using hx.symm
        subst hx2
        have hp12 : p2 = p1 := by
          rw [← h2.2, hp1] at hp2
          exact (Option.some.inj hp2).symm
        rw [hp12, hv1]
        rw [hr1]
        exact ⟨rfl, rfl, Votes.voteScore_eq _⟩
      | cons y ys =>
        apply hlast
        simpa [List.getLast?_cons_cons] using hx

/-- Witness of C3: `U2` votes up twice on the post `P1` and on the comment `C1` of the
double-voted store. -/
theorem vote_idempotent_witness :
    (findById Post._id doubleVotedStore.posts "P1"
        = some { examplePost with votes := { up := ["U2", "U3"], down := ["U2"] } }
      ∧ findById Comment._id doubleVotedStore.comments "C1"
        = some { exampleComment with votes := { up := ["U2"], down := ["U3", "U2"] } })
    ∧ (∃ s1 r1 p1 s2 r2 p2, ContentService.votePost doubleVotedStore 10 "P1" "U2" "up" = (.ok r1, s1)
        ∧ findById Post._id s1.posts "P1" = some p1
        ∧ ContentService.votePost s1 11 "P1" "U2" "up" = (.ok r2, s2)
        ∧ findById Post._id s2.posts "P1" = some p2
        ∧ p2.votes.up = p1.votes.up ∧ p2.votes.down = p1.votes.down ∧ r2 = r1)
    ∧ (∃ s1 r1 c1 s2 r2 c2, CommentService.voteComment doubleVotedStore "C1" "U2" "up" = (.ok r1, s1)
        ∧ findById Comment._id s1.comments "C1" = some c1
        ∧ CommentService.voteComment s1 "C1" "U2" "up" = (.ok r2, s2)
        ∧ findById Comment._id s2.comments "C1" = some c2
        ∧ c2.votes.up = c1.votes.up ∧ c2.votes.down = c1.votes.down ∧ r2 = r1) :=
  ⟨⟨rfl, rfl⟩,
   (vote_idempotent doubleVotedStore 10 11 "U2" "up").1 "P1" _ rfl,
   (vote_idempotent doubleVotedStore 10 11 "U2" "up").2 "C1" _ rfl⟩

/-- Witness of C4: scenario B on the post `P1` of the example store. -/
theorem vote_score_correct_witness :
    findById Post._id exampleStore.posts "P1" = some examplePost
    ∧ ∃ s1 rs p1, ContentService.votePostCalls exampleStore "P1" scenarioB = (.ok rs, s1)
      ∧ findById Post._id s1.posts "P1" = some p1
      ∧ rs.length = scenarioB.length
      ∧ (∀ r ∈ rs, r.voteScore = (r.upvotes : Int) - (r.downvotes : Int))
      ∧ (∀ r, rs.getLast? = some r →
          r.upvotes = p1.votes.up.length ∧ r.downvotes = p1.votes.down.length
            ∧ r.voteScore = (p1.votes.up.length : Int) - (p1.votes.down.length : Int)) :=
  ⟨rfl, vote_score_correct "P1" scenarioB exampleStore examplePost rfl⟩

/-! ## Lemmas on the moderation engine -/

theorem findByIdAndUpdate_split {α : Type} (key : α → ObjectId) (docs : List α)
    (id : ObjectId) (f : α → α) (d : α) (h : findById key docs id = some d) :
    ∃ pre suf, docs = pre ++ d :: suf ∧ (∀ q ∈ pre, key q ≠ id)
      ∧ findByIdAndUpdate key docs id f = pre ++ f d :: suf := by
  induction docs with
  | nil => simp [findById] at h
  | cons x xs ih =>
    by_cases hx : key x = id
    · have hb : (key x == id) = true := by simpa using hx
      simp only [findById, List.find?_cons, hb, Option.some.injEq] at h
      subst h
      refine ⟨[], xs, rfl, ?_, ?_⟩
      · intro q hq; cases hq
      · simp [findByIdAndUpdate, hx]
    · have hb : (key x == id) = false := by simpa using hx
      simp only [findById, List.find?_cons, hb] at h
      obtain ⟨pre, suf, h1, h2, h3⟩ := ih h
      refine ⟨x :: pre, suf, by rw [h1]; rfl, ?_, ?_⟩
      · intro q hq
        rcases List.mem_cons.1 hq with rfl | hq
        · exact hx
        · exact h2 q hq
      · rw [findByIdAndUpdate]
        simp only [hx, if_false, h3, List.cons_append]

theorem findByIdAndUpdate_none {α : Type} (key : α → ObjectId) (docs : List α)
    (id : ObjectId) (f : α → α) (h : findById key docs id = none) :
    findByIdAndUpdate key docs id f = docs := by
  induction docs with
  | nil => rfl
  | cons x xs ih =>
    by_cases hx : key x = id
    · have hb : (key x == id) = true := by simpa using hx
      simp [findById, List.find?_cons, hb] at h
    · have hb : (key x == id) = false := by simpa using hx
      simp only [findById, List.find?_cons, hb] at h
      rw [findByIdAndUpdate]
      simp only [hx, if_false, ih h]

/-- Whatever its outcome, `createNotification` writes to the notifications collection only. -/
theorem NotificationService.createNotification_frame (s : Store) (now : Date)
    (newId : ObjectId) (pushRaises : Bool) (recipientId : ObjectId) (data : NotificationData) :
    (NotificationService.createNotification s now newId pushRaises recipientId data).2.posts
        = s.posts
    ∧ (NotificationService.createNotification s now newId pushRaises recipientId data).2.comments
        = s.comments
    ∧ (NotificationService.createNotification s now newId pushRaises recipientId data).2.users
        = s.users
    ∧ (NotificationService.createNotification s now newId pushRaises recipientId data).2.reports
        = s.reports := by
  unfold NotificationService.createNotification
  split
  · exact ⟨rfl, rfl, rfl, rfl⟩
  · dsimp only
    split
    · exact ⟨rfl, rfl, rfl, rfl⟩
    · split <;> exact ⟨rfl, rfl, rfl, rfl⟩

/-- When `createNotification` throws it has written nothing. -/
theorem NotificationService.createNotification_error (s : Store) (now : Date)
    (newId : ObjectId) (pushRaises : Bool) (recipientId : ObjectId) (data : NotificationData)
    (e : String)
    (h : (NotificationService.createNotification s now newId pushRaises recipientId data).1
          = .error e) :
    (NotificationService.createNotification s now newId pushRaises recipientId data).2 = s := by
  unfold NotificationService.createNotification at h ⊢
  split
  · rfl
  · rename_i user hu
    rw [hu] at h
    dsimp only at h ⊢
    split
    · rfl
    · rename_i hv
      rw [if_neg hv] at h
      split
      · rfl
      · rename_i hd
        rw [if_neg hd] at h
        cases h

/-- Whatever its outcome, `applyModerationAction` leaves the reports collection alone. -/
theorem ModerationService.applyModerationAction_reports (s : Store) (now : Date)
    (newId : ObjectId) (pushRaises : Bool) (contentType : String) (contentId : ObjectId)
    (action : Option String) (adminId : ObjectId) :
    (ModerationService.applyModerationAction s now newId pushRaises contentType contentId
        action adminId).2.reports = s.reports := by
  unfold ModerationService.applyModerationAction
  split
  · split
    · rfl
    · split <;> rfl
  · split
    · rfl
    · split
      · rfl
      · split
        · dsimp only
          split
          · rfl
          · rename_i authorId _
            have hf := (NotificationService.createNotification_frame s now newId pushRaises
              authorId
              { type := "moderation_action", title := "Content Warning",
                message := "Your content has been flagged for review. Please review our community guidelines.",
                entityType := none, entityId := none, url := none,
                priority := some "high" }).2.2.2
            split
            · rename_i e s1 heq
              rw [heq] at hf
              exact hf
            · rename_i x s1 heq
              rw [heq] at hf
              exact hf
        · rfl

/-- When `applyModerationAction` throws it has written nothing. -/
theorem ModerationService.applyModerationAction_error (s : Store) (now : Date)
    (newId : ObjectId) (pushRaises : Bool) (contentType : String) (contentId : ObjectId)
    (action : Option String) (adminId : ObjectId) (e : String)
    (h : (ModerationService.applyModerationAction s now newId pushRaises contentType contentId
        action adminId).1 = .error e) :
    (ModerationService.applyModerationAction s now newId pushRaises contentType contentId
        action adminId).2 = s := by
  unfold ModerationService.applyModerationAction at h ⊢
  split
  · rename_i h1
    rw [if_pos h1] at h
    split
    · rename_i h2; rw [if_pos h2] at h; cases h
    · rename_i h2
      rw [if_neg h2] at h
      split
      · rename_i h3; rw [if_pos h3] at h; cases h
      · rfl
  · rename_i h1
    rw [if_neg h1] at h
    split
    · rename_i h2; rw [if_pos h2] at h; cases h
    · rename_i h2
      rw [if_neg h2] at h
      split
      · rename_i h3; rw [if_pos h3] at h; cases h
      · rename_i h3
        rw [if_neg h3] at h
        split
        · rename_i h4
          rw [if_pos h4] at h
          dsimp only at h ⊢
          split
          · rfl
          · rename_i authorId hauth
            rw [hauth] at h
            dsimp only at h
            have hf := NotificationService.createNotification_error s now newId pushRaises
              authorId
              { type := "moderation_action", title := "Content Warning",
                message := "Your content has been flagged for review. Please review our community guidelines.",
                entityType := none, entityId := none, url := none,
                priority := some "high" }
            split
            · rename_i e1 s1 heq
              rw [heq] at hf
              exact hf e1 rfl
            · rename_i x s1 heq
              rw [heq] at h
              cases h
        · rfl

/-- The value of `resolveReport` on an existing report. -/
theorem ModerationService.resolveReport_eq (s : Store) (now : Date) (newId : ObjectId)
    (pushRaises : Bool) (reportId adminId : ObjectId) (res : ResolutionInput) (r : Report)
    (hr : findById Report._id s.reports reportId = some r) :
    ModerationService.resolveReport s now newId pushRaises reportId adminId res
      = match ModerationService.applyModerationAction s now newId pushRaises r.contentType
            r.contentId res.action adminId with
        | (.error e, s1) => (.error e, s1)
        | (.ok _, s1) =>
          if ({ r with status := "resolved",
                       resolution := some { action := res.action, notes := res.notes,
                                            resolvedBy := adminId,
                                            resolvedAt := now } } : Report).valid then
            (.ok { r with status := "resolved",
                          resolution := some { action := res.action, notes := res.notes,
                                               resolvedBy := adminId, resolvedAt := now } },
             { s1 with
                 reports := saveDoc Report._id s1.reports
                   { r with status := "resolved",
                            resolution := some { action := res.action, notes := res.notes,
                                                 resolvedBy := adminId, resolvedAt := now } } })
          else (.error "Report validation failed", s1) := by
  simp only [ModerationService.resolveReport, hr]

/-- The schema accepts the report `resolveReport` builds exactly when the action is unset
or one of the enumerated actions. -/
theorem Report.valid_resolved (r : Report) (action notes : Option String)
    (adminId : ObjectId) (now : Date) :
    ({ r with status := "resolved",
              resolution := some { action := action, notes := notes, resolvedBy := adminId,
                                   resolvedAt := now } } : Report).valid = true
      ↔ (action = none ∨ ∃ a, action = some a ∧ a ∈ resolutionActions) := by
  cases action with
  | none => simp [Report.valid]
  | some a => simp [Report.valid]

/-- The schema accepts the report `dismissReport` builds. -/
theorem Report.valid_dismissed (r : Report) (notes : Option String) (adminId : ObjectId)
    (now : Date) :
    ({ r with status := "dismissed",
              resolution := some { action := some "none", notes := notes,
                                   resolvedBy := adminId, resolvedAt := now } } : Report).valid
      = true := by
  simp [Report.valid, resolutionActions]

/-- The value of `dismissReport` on an existing report. -/
theorem ModerationService.dismissReport_eq (s : Store) (now : Date)
    (reportId adminId : ObjectId) (notes : Option String) (r : Report)
    (hr : findById Report._id s.reports reportId = some r) :
    ModerationService.dismissReport s now reportId adminId notes
      = (.ok { r with status := "dismissed",
                      resolution := some { action := some "none", notes := some (notes.getD ""),
                                           resolvedBy := adminId, resolvedAt := now } },
         { s with
             reports := saveDoc Report._id s.reports
               { r with status := "dismissed",
                        resolution := some { action := some "none",
                                             notes := some (notes.getD ""),
                                             resolvedBy := adminId, resolvedAt := now } } }) := by
  simp only [ModerationService.dismissReport, hr, Report.valid_dismissed, if_true]

/-! ## Moderation engine: the claims -/

/-- C5, counterexample. The report `R1` of the resolved store has status resolved, yet
`dismissReport` on it returns normally and stores status dismissed, and `resolveReport` on it
returns normally and stores a new resolution: neither call fails and neither leaves the
report as it was. -/
theorem terminal_state_not_immutable :
    (findById Report._id resolvedStore.reports "R1").map Report.status = some "resolved"
    ∧ (∃ r1, (ModerationService.dismissReport resolvedStore 20 "R1" "M2" none).1 = .ok r1)
    ∧ (findById Report._id
          (ModerationService.dismissReport resolvedStore 20 "R1" "M2" none).2.reports "R1").map
        Report.status = some "dismissed"
    ∧ (∃ r1, (ModerationService.resolveReport resolvedStore 20 "N1" false "R1" "M2"
          { action := some "none", notes := none }).1 = .ok r1)
    ∧ (findById Report._id
          (ModerationService.resolveReport resolvedStore 20 "N1" false "R1" "M2"
            { action := some "none", notes := none }).2.reports "R1").map
        Report.resolution
        = some (some { action := some "none", notes := none, resolvedBy := "M2",
                       resolvedAt := 20 }) :=
  ⟨rfl, ⟨_, rfl⟩, rfl, ⟨_, rfl⟩, rfl⟩

/-- C5, amended. Neither operation looks at the current status of the report.  On every
existing report, those with status resolved or dismissed included, `dismissReport` returns
normally and stores status dismissed with a fresh resolution (action none, the notes, the
caller, the clock); `resolveReport` returns normally and stores status resolved with the new
resolution whenever applying its action does not throw and the action is unset or one of the
enumerated actions. -/
theorem terminal_state_overwritten (s : Store) (now : Date) (newId : ObjectId)
    (pushRaises : Bool) (reportId adminId : ObjectId) (r : Report)
    (hr : findById Report._id s.reports reportId = some r) :
    (∀ notes : Option String, ∃ r1 s1,
        ModerationService.dismissReport s now reportId adminId notes = (.ok r1, s1)
        ∧ findById Report._id s1.reports reportId = some r1
        ∧ r1.status = "dismissed"
        ∧ r1.resolution = some { action := some "none", notes := some (notes.getD ""),
                                 resolvedBy := adminId, resolvedAt := now })
    ∧ (∀ res : ResolutionInput,
        (ModerationService.applyModerationAction s now newId pushRaises r.contentType
            r.contentId res.action adminId).1 = .ok () →
        (res.action = none ∨ ∃ a, res.action = some a ∧ a ∈ resolutionActions) →
        ∃ r1 s1,
          ModerationService.resolveReport s now newId pushRaises reportId adminId res
            = (.ok r1, s1)
          ∧ findById Report._id s1.reports reportId = some r1
          ∧ r1.status = "resolved"
          ∧ r1.resolution = some { action := res.action, notes := res.notes,
                                   resolvedBy := adminId, resolvedAt := now }) := by
  have hk := findById_key _ _ _ _ hr
  constructor
  · intro notes
    refine ⟨_, _, ModerationService.dismissReport_eq s now reportId adminId notes r hr,
      ?_, rfl, rfl⟩
    exact findById_saveDoc _ _ _ r _ hr hk
  · intro res hact hvalid
    have hrep := ModerationService.applyModerationAction_reports s now newId pushRaises
      r.contentType r.contentId res.action adminId
    rcases hA : ModerationService.applyModerationAction s now newId pushRaises r.contentType
      r.contentId res.action adminId with ⟨o, s1⟩
    rw [hA] at hact hrep
    simp only at hact hrep
    subst hact
    refine ⟨{ r with status := "resolved",
                     resolution := some { action := res.action, notes := res.notes,
                                          resolvedBy := adminId, resolvedAt := now } },
      { s1 with
          reports := saveDoc Report._id s1.reports
            { r with status := "resolved",
                     resolution := some { action := res.action, notes := res.notes,
                                          resolvedBy := adminId, resolvedAt := now } } },
      ?_, ?_, rfl, rfl⟩
    · rw [ModerationService.resolveReport_eq s now newId pushRaises reportId adminId res r hr,
        hA]
      simp only [(Report.valid_resolved r res.action res.notes adminId now).2 hvalid, if_true]
    · simp only [hrep]
      exact findById_saveDoc _ _ _ r _ hr hk

/-- Witness of the amended C5: the already resolved report `R1` is dismissed by `M2`. -/
theorem terminal_state_overwritten_witness :
    findById Report._id resolvedStore.reports "R1"
        = some { exampleReport "R1" "post" "P1" with
                   status := "resolved",
                   resolution := some { action := some "content_removed",
                                        notes := some "confirmed spam",
                                        resolvedBy := "M1", resolvedAt := 5 } }
    ∧ (∃ r1 s1,
        ModerationService.dismissReport resolvedStore 20 "R1" "M2" (some "duplicate")
          = (.ok r1, s1)
        ∧ findById Report._id s1.reports "R1" = some r1
        ∧ r1.status = "dismissed"
        ∧ r1.resolution = some { action := some "none", notes := some "duplicate",
                                 resolvedBy := "M2", resolvedAt := 20 })
    ∧ ((ModerationService.applyModerationAction resolvedStore 20 "N1" false
            resolvedReport.contentType resolvedReport.contentId (some "user_banned") "M2").1
          = .ok ()
        ∧ "user_banned" ∈ resolutionActions)
    ∧ ∃ r1 s1,
        ModerationService.resolveReport resolvedStore 20 "N1" false "R1" "M2"
            { action := some "user_banned", notes := none } = (.ok r1, s1)
        ∧ findById Report._id s1.reports "R1" = some r1
        ∧ r1.status = "resolved"
        ∧ r1.resolution = some { action := some "user_banned", notes := none,
                                 resolvedBy := "M2", resolvedAt := 20 } :=
  ⟨rfl,
   (terminal_state_overwritten resolvedStore 20 "N1" false "R1" "M2" resolvedReport rfl).1
     (some "duplicate"),
   ⟨rfl, by decide⟩,
   (terminal_state_overwritten resolvedStore 20 "N1" false "R1" "M2" resolvedReport rfl).2
     { action := some "user_banned", notes := none } rfl
     (Or.inr ⟨"user_banned", rfl, by decide⟩)⟩

/-- C6 (action effect on a post). For every report on an existing post, `resolveReport` with
action `content_removed` returns normally; the posts collection afterwards is the old one
with the target post (the first one carrying the reported id) replaced by a copy in which
status is rejected, moderatedBy is the moderator and moderatedAt is the clock, every other
field of that post being as before, and every other post is unchanged and in place. -/
theorem content_removed_post_effect (s : Store) (now : Date) (newId : ObjectId)
    (pushRaises : Bool) (reportId adminId : ObjectId) (notes : Option String) (r : Report)
    (p : Post) (hr : findById Report._id s.reports reportId = some r)
    (hct : r.contentType = "post") (hp : findById Post._id s.posts r.contentId = some p) :
    ∃ r1 s1,
      ModerationService.resolveReport s now newId pushRaises reportId adminId
          { action := some "content_removed", notes := notes } = (.ok r1, s1)
      ∧ findById Post._id s1.posts r.contentId
          = some { p with status := "rejected", moderatedBy := some adminId,
                          moderatedAt := some now }
      ∧ ∃ pre suf, s.posts = pre ++ p :: suf ∧ (∀ q ∈ pre, q._id ≠ r.contentId)
          ∧ s1.posts = pre ++ { p with status := "rejected", moderatedBy := some adminId,
                                       moderatedAt := some now } :: suf := by
  have hkp := findById_key _ _ _ _ hp
  have hA : ModerationService.applyModerationAction s now newId pushRaises r.contentType
      r.contentId (some "content_removed") adminId
      = (.ok (), { s with posts := findByIdAndUpdate Post._id s.posts r.contentId (fun p =>
                    { p with status := "rejected", moderatedBy := some adminId,
                             moderatedAt := some now }) }) := by
    simp [ModerationService.applyModerationAction, hct]
  have hv : ({ r with status := "resolved",
                      resolution := some { action := some "content_removed", notes := notes,
                                           resolvedBy := adminId,
                                           resolvedAt := now } } : Report).valid = true :=
    (Report.valid_resolved r _ notes adminId now).2
      (Or.inr ⟨_, rfl, by simp [resolutionActions]⟩)
  refine ⟨{ r with status := "resolved",
                   resolution := some { action := some "content_removed", notes := notes,
                                        resolvedBy := adminId, resolvedAt := now } },
    { s with
        posts := findByIdAndUpdate Post._id s.posts r.contentId (fun p =>
          { p with status := "rejected", moderatedBy := some adminId,
                   moderatedAt := some now }),
        reports := saveDoc Report._id s.reports
          { r with status := "resolved",
                   resolution := some { action := some "content_removed",
                                        notes := notes, resolvedBy := adminId,
                                        resolvedAt := now } } }, ?_, ?_, ?_⟩
  · rw [ModerationService.resolveReport_eq s now newId pushRaises reportId adminId _ r hr]
    simp only [hA, hv, if_true]
  · have hsame := findById_findByIdAndUpdate_same Post._id s.posts r.contentId
      (fun p => { p with status := "rejected", moderatedBy := some adminId,
                         moderatedAt := some now }) (fun d hd => hd)
    rw [hp] at hsame
    exact hsame
  · obtain ⟨pre, suf, h1, h2, h3⟩ := findByIdAndUpdate_split Post._id s.posts r.contentId
      (fun p => { p with status := "rejected", moderatedBy := some adminId,
                         moderatedAt := some now }) p hp
    exact ⟨pre, suf, h1, h2, h3⟩

/-- Witness of C6: scenario A, moderator `M1` resolves `R1` against `P1` with
`content_removed`. -/
theorem content_removed_post_effect_witness :
    (findById Report._id scenarioAStore.reports "R1" = some (exampleReport "R1" "post" "P1")
      ∧ (exampleReport "R1" "post" "P1").contentType = "post"
      ∧ findById Post._id scenarioAStore.posts (exampleReport "R1" "post" "P1").contentId
          = some examplePost)
    ∧ ∃ r1 s1,
      ModerationService.resolveReport scenarioAStore 5 "N1" false "R1" "M1"
          { action := some "content_removed", notes := some "confirmed spam" } = (.ok r1, s1)
      ∧ findById Post._id s1.posts (exampleReport "R1" "post" "P1").contentId
          = some { examplePost with status := "rejected", moderatedBy := some "M1",
                                    moderatedAt := some 5 }
      ∧ ∃ pre suf, scenarioAStore.posts = pre ++ examplePost :: suf
          ∧ (∀ q ∈ pre, q._id ≠ (exampleReport "R1" "post" "P1").contentId)
          ∧ s1.posts = pre ++ { examplePost with status := "rejected",
                                                 moderatedBy := some "M1",
                                                 moderatedAt := some 5 } :: suf :=
  ⟨⟨rfl, rfl, rfl⟩,
   content_removed_post_effect scenarioAStore 5 "N1" false "R1" "M1" (some "confirmed spam")
     (exampleReport "R1" "post" "P1") examplePost rfl rfl rfl⟩

/-- C7 (resolve postcondition). On an existing report, `resolveReport` returns normally
exactly when applying the action does not throw and the action passes the schema (it is
unset or one of the enumerated actions); whenever it returns normally, the returned report
is the stored one, its status is resolved, its resolution holds the action, the notes, the
caller as resolvedBy and the clock as resolvedAt, and every other field of the report
(identifier, reporter, contentType, contentId, reason, description, priority, screenshots)
is as before. -/
theorem resolve_postcondition (s : Store) (now : Date) (newId : ObjectId)
    (pushRaises : Bool) (reportId adminId : ObjectId) (res : ResolutionInput) (r : Report)
    (hr : findById Report._id s.reports reportId = some r) :
    ((∃ r1, (ModerationService.resolveReport s now newId pushRaises reportId adminId res).1
              = .ok r1)
      ↔ ((ModerationService.applyModerationAction s now newId pushRaises r.contentType
            r.contentId res.action adminId).1 = .ok ()
          ∧ (res.action = none ∨ ∃ a, res.action = some a ∧ a ∈ resolutionActions)))
    ∧ ∀ r1 s1,
        ModerationService.resolveReport s now newId pushRaises reportId adminId res
          = (.ok r1, s1) →
        findById Report._id s1.reports reportId = some r1
        ∧ r1.status = "resolved"
        ∧ r1.resolution = some { action := res.action, notes := res.notes,
                                 resolvedBy := adminId, resolvedAt := now }
        ∧ r1._id = r._id ∧ r1.reporter = r.reporter ∧ r1.contentType = r.contentType
        ∧ r1.contentId = r.contentId ∧ r1.reason = r.reason
        ∧ r1.description = r.description ∧ r1.priority = r.priority
        ∧ r1.screenshots = r.screenshots := by
  have hk := findById_key _ _ _ _ hr
  have hrep := ModerationService.applyModerationAction_reports s now newId pushRaises
    r.contentType r.contentId res.action adminId
  have hval := Report.valid_resolved r res.action res.notes adminId now
  rw [ModerationService.resolveReport_eq s now newId pushRaises reportId adminId res r hr]
  rcases hA : ModerationService.applyModerationAction s now newId pushRaises r.contentType
    r.contentId res.action adminId with ⟨o, s2⟩
  rw [hA] at hrep
  simp only at hrep
  cases o with
  | error e =>
    refine ⟨⟨?_, ?_⟩, ?_⟩
    · rintro ⟨r1, h⟩; cases h
    · rintro ⟨h, _⟩; cases h
    · intro r1 s1 h
      simp only [Prod.mk.injEq] at h
      cases h.1
  | ok u =>
    by_cases hv : ({ r with status := "resolved",
                            resolution := some { action := res.action, notes := res.notes,
                                                 resolvedBy := adminId,
                                                 resolvedAt := now } } : Report).valid = true
    · simp only [hv, if_true]
      refine ⟨⟨fun _ => ?_, fun _ => ⟨_, rfl⟩⟩, ?_⟩
      · first
          | exact ⟨rfl, hval.1 hv⟩
          | exact ⟨trivial, hval.1 hv⟩
      intro r1 s1 h
      simp only [Prod.mk.injEq, Except.ok.injEq] at h
      obtain ⟨h1, h2⟩ := h
      subst h1
      subst h2
      refine ⟨?_, rfl, rfl, rfl, rfl, rfl, rfl, rfl, rfl, rfl, rfl⟩
      simp only [hrep]
      exact findById_saveDoc _ _ _ r _ hr hk
    · simp only [hv]
      refine ⟨⟨?_, ?_⟩, ?_⟩
      · rintro ⟨r1, h⟩; simp at h
      · rintro ⟨_, h⟩; exact absurd (hval.2 h) hv
      · intro r1 s1 h
        simp at h

/-- Witness of C7: scenario A, the resolution of `R1` by `M1`. -/
theorem resolve_postcondition_witness :
    findById Report._id scenarioAStore.reports "R1" = some (exampleReport "R1" "post" "P1")
    ∧ (ModerationService.resolveReport scenarioAStore 5 "N1" false "R1" "M1"
          { action := some "content_removed", notes := some "confirmed spam" }
        = (.ok resolvedReport, resolvedStore))
    ∧ findById Report._id resolvedStore.reports "R1" = some resolvedReport
    ∧ resolvedReport.status = "resolved"
    ∧ resolvedReport.resolution
        = some { action := some "content_removed", notes := some "confirmed spam",
                 resolvedBy := "M1", resolvedAt := 5 }
    ∧ resolvedReport.reporter = "U1" :=
  have h := (resolve_postcondition scenarioAStore 5 "N1" false "R1" "M1"
      { action := some "content_removed", notes := some "confirmed spam" }
      (exampleReport "R1" "post" "P1") rfl).2 resolvedReport resolvedStore rfl
  ⟨rfl, rfl, h.1, h.2.1, h.2.2.1, h.2.2.2.2.1⟩

/-- C8 (failure atomicity of resolve). On an existing report, if applying the moderation
action throws, then `resolveReport` throws the same error and the store it leaves behind is
the store it started from: the stored report keeps its previous status and resolution and
is not persisted as resolved. -/
theorem resolve_failure_atomic (s : Store) (now : Date) (newId : ObjectId)
    (pushRaises : Bool) (reportId adminId : ObjectId) (res : ResolutionInput) (r : Report)
    (e : String) (hr : findById Report._id s.reports reportId = some r)
    (hfail : (ModerationService.applyModerationAction s now newId pushRaises r.contentType
        r.contentId res.action adminId).1 = .error e) :
    (ModerationService.resolveReport s now newId pushRaises reportId adminId res).1 = .error e
    ∧ (ModerationService.resolveReport s now newId pushRaises reportId adminId res).2 = s
    ∧ findById Report._id
        (ModerationService.resolveReport s now newId pushRaises reportId adminId res).2.reports
        reportId = some r := by
  have hs := ModerationService.applyModerationAction_error s now newId pushRaises
    r.contentType r.contentId res.action adminId e hfail
  rw [ModerationService.resolveReport_eq s now newId pushRaises reportId adminId res r hr]
  rcases hA : ModerationService.applyModerationAction s now newId pushRaises r.contentType
    r.contentId res.action adminId with ⟨o, s2⟩
  rw [hA] at hfail hs
  simp only at hfail hs
  subst hfail
  subst hs
  exact ⟨rfl, rfl, hr⟩

/-- Witness of C8: the warning for the report `R2` against the vanished user `U9` cannot be
delivered. -/
theorem resolve_failure_atomic_witness :
    (findById Report._id missingUserStore.reports "R2" = some (exampleReport "R2" "user" "U9")
      ∧ (ModerationService.applyModerationAction missingUserStore 20 "N1" false
            (exampleReport "R2" "user" "U9").contentType
            (exampleReport "R2" "user" "U9").contentId (some "warning") "M1").1
          = .error "Recipient not found")
    ∧ (ModerationService.resolveReport missingUserStore 20 "N1" false "R2" "M1"
          { action := some "warning", notes := none }).1 = .error "Recipient not found"
    ∧ (ModerationService.resolveReport missingUserStore 20 "N1" false "R2" "M1"
          { action := some "warning", notes := none }).2 = missingUserStore
    ∧ findById Report._id
        (ModerationService.resolveReport missingUserStore 20 "N1" false "R2" "M1"
          { action := some "warning", notes := none }).2.reports "R2"
        = some (exampleReport "R2" "user" "U9") :=
  ⟨⟨rfl, rfl⟩,
   resolve_failure_atomic missingUserStore 20 "N1" false "R2" "M1"
     { action := some "warning", notes := none } (exampleReport "R2" "user" "U9")
     "Recipient not found" rfl rfl⟩

/-- C9, the failing input evaluated. The report `R2` targets the user `U9`, who no longer
exists.  Resolving it with action `warning` throws `Recipient not found` and leaves the
store as it was, so the report stays pending; on the sibling input, a report against a post
that no longer exists, the same action returns normally and the report becomes resolved. -/
theorem missing_user_warning_raises :
    findById User._id missingUserStore.users "U9" = none
    ∧ ModerationService.resolveReport missingUserStore 20 "N1" false "R2" "M1"
          { action := some "warning", notes := none }
        = (.error "Recipient not found", missingUserStore)
    ∧ (findById Report._id missingUserStore.reports "R2").map Report.status = some "pending"
    ∧ findById Post._id missingPostStore.posts "P9" = none
    ∧ (ModerationService.resolveReport missingPostStore 20 "N1" false "R3" "M1"
          { action := some "warning", notes := none }).1
        = .ok { exampleReport "R3" "post" "P9" with
                  status := "resolved",
                  resolution := some { action := some "warning", notes := none,
                                       resolvedBy := "M1", resolvedAt := 20 } } :=
  ⟨rfl, rfl, rfl, rfl, rfl⟩

/-- C10 (dismiss has no content side effect). On an existing report `dismissReport` returns
normally; the returned report is the stored one and is the old report with status dismissed
and resolution made of action none, the notes (the empty string when none are given), the
caller as resolvedBy and the clock as resolvedAt; the posts, comments, users and
notifications collections are unchanged. -/
theorem dismiss_no_side_effect (s : Store) (now : Date) (reportId adminId : ObjectId)
    (notes : Option String) (r : Report)
    (hr : findById Report._id s.reports reportId = some r) :
    ∃ r1 s1,
      ModerationService.dismissReport s now reportId adminId notes = (.ok r1, s1)
      ∧ findById Report._id s1.reports reportId = some r1
      ∧ r1 = { r with status := "dismissed",
                      resolution := some { action := some "none",
                                           notes := some (notes.getD ""),
                                           resolvedBy := adminId, resolvedAt := now } }
      ∧ s1.posts = s.posts ∧ s1.comments = s.comments ∧ s1.users = s.users
      ∧ s1.notifications = s.notifications :=
  ⟨_, _, ModerationService.dismissReport_eq s now reportId adminId notes r hr,
    findById_saveDoc _ _ _ r _ hr (findById_key Report._id s.reports reportId r hr),
    rfl, rfl, rfl, rfl, rfl⟩

/-- Witness of C10: moderator `M1` dismisses the pending report `R1` of scenario A without
notes. -/
theorem dismiss_no_side_effect_witness :
    findById Report._id scenarioAStore.reports "R1" = some (exampleReport "R1" "post" "P1")
    ∧ ∃ r1 s1,
      ModerationService.dismissReport scenarioAStore 7 "R1" "M1" none = (.ok r1, s1)
      ∧ findById Report._id s1.reports "R1" = some r1
      ∧ r1 = { exampleReport "R1" "post" "P1" with
                 status := "dismissed",
                 resolution := some { action := some "none", notes := some "",
                                      resolvedBy := "M1", resolvedAt := 7 } }
      ∧ s1.posts = scenarioAStore.posts ∧ s1.comments = scenarioAStore.comments
      ∧ s1.users = scenarioAStore.users
      ∧ s1.notifications = scenarioAStore.notifications :=
  ⟨rfl, dismiss_no_side_effect scenarioAStore 7 "R1" "M1" none
          (exampleReport "R1" "post" "P1") rfl⟩

/-! ## Moderation actions on comments and users: the claims -/

/-- C11 (action effect on a comment). For every report on an existing comment,
`resolveReport` with action `content_removed` returns normally; the comments collection
afterwards is the old one with the target comment (the first one carrying the reported id)
replaced by a copy in which status is hidden, moderatedBy is the moderator and moderatedAt
is the clock, so that its content, author, post, parentComment and votes are as before;
every other comment is unchanged and in place. -/
theorem content_removed_comment_effect (s : Store) (now : Date) (newId : ObjectId)
    (pushRaises : Bool) (reportId adminId : ObjectId) (notes : Option String) (r : Report)
    (c : Comment) (hr : findById Report._id s.reports reportId = some r)
    (hct : r.contentType = "comment")
    (hc : findById Comment._id s.comments r.contentId = some c) :
    ∃ r1 s1 c1,
      ModerationService.resolveReport s now newId pushRaises reportId adminId
          { action := some "content_removed", notes := notes } = (.ok r1, s1)
      ∧ findById Comment._id s1.comments r.contentId = some c1
      ∧ c1 = { c with status := "hidden", moderatedBy := some adminId,
                      moderatedAt := some now }
      ∧ c1.content = c.content ∧ c1.author = c.author ∧ c1.post = c.post
      ∧ c1.parentComment = c.parentComment ∧ c1.votes = c.votes
      ∧ ∃ pre suf, s.comments = pre ++ c :: suf ∧ (∀ q ∈ pre, q._id ≠ r.contentId)
          ∧ s1.comments = pre ++ c1 :: suf := by
  have hA : ModerationService.applyModerationAction s now newId pushRaises r.contentType
      r.contentId (some "content_removed") adminId
      = (.ok (), { s with
                    comments := findByIdAndUpdate Comment._id s.comments r.contentId
                      (fun c => { c with status := "hidden", moderatedBy := some adminId,
                                         moderatedAt := some now }) }) := by
    simp [ModerationService.applyModerationAction, hct]
  have hv : ({ r with status := "resolved",
                      resolution := some { action := some "content_removed", notes := notes,
                                           resolvedBy := adminId,
                                           resolvedAt := now } } : Report).valid = true :=
    (Report.valid_resolved r _ notes adminId now).2
      (Or.inr ⟨_, rfl, by simp [resolutionActions]⟩)
  refine ⟨{ r with status := "resolved",
                   resolution := some { action := some "content_removed", notes := notes,
                                        resolvedBy := adminId, resolvedAt := now } },
    { s with
        comments := findByIdAndUpdate Comment._id s.comments r.contentId (fun c =>
          { c with status := "hidden", moderatedBy := some adminId,
                   moderatedAt := some now }),
        reports := saveDoc Report._id s.reports
          { r with status := "resolved",
                   resolution := some { action := some "content_removed",
                                        notes := notes, resolvedBy := adminId,
                                        resolvedAt := now } } },
    { c with status := "hidden", moderatedBy := some adminId, moderatedAt := some now },
    ?_, ?_, rfl, rfl, rfl, rfl, rfl, rfl, ?_⟩
  · rw [ModerationService.resolveReport_eq s now newId pushRaises reportId adminId _ r hr]
    simp only [hA, hv, if_true]
  · have hsame := findById_findByIdAndUpdate_same Comment._id s.comments r.contentId
      (fun c => { c with status := "hidden", moderatedBy := some adminId,
                         moderatedAt := some now }) (fun d hd => hd)
    rw [hc] at hsame
    exact hsame
  · obtain ⟨pre, suf, h1, h2, h3⟩ := findByIdAndUpdate_split Comment._id s.comments
      r.contentId
      (fun c => { c with status := "hidden", moderatedBy := some adminId,
                         moderatedAt := some now }) c hc
    exact ⟨pre, suf, h1, h2, h3⟩

/-- Witness of C11: moderator `M1` resolves the report `R4` against the comment `C1` with
`content_removed`. -/
theorem content_removed_comment_effect_witness :
    (findById Report._id commentReportStore.reports "R4"
        = some (exampleReport "R4" "comment" "C1")
      ∧ (exampleReport "R4" "comment" "C1").contentType = "comment"
      ∧ findById Comment._id commentReportStore.comments
          (exampleReport "R4" "comment" "C1").contentId = some exampleComment)
    ∧ ∃ r1 s1 c1,
      ModerationService.resolveReport commentReportStore 5 "N1" false "R4" "M1"
          { action := some "content_removed", notes := none } = (.ok r1, s1)
      ∧ findById Comment._id s1.comments (exampleReport "R4" "comment" "C1").contentId
          = some c1
      ∧ c1 = { exampleComment with status := "hidden", moderatedBy := some "M1",
                                   moderatedAt := some 5 }
      ∧ c1.content = exampleComment.content ∧ c1.author = exampleComment.author
      ∧ c1.post = exampleComment.post ∧ c1.parentComment = exampleComment.parentComment
      ∧ c1.votes = exampleComment.votes
      ∧ ∃ pre suf, commentReportStore.comments = pre ++ exampleComment :: suf
          ∧ (∀ q ∈ pre, q._id ≠ (exampleReport "R4" "comment" "C1").contentId)
          ∧ s1.comments = pre ++ c1 :: suf :=
  ⟨⟨rfl, rfl, rfl⟩,
   content_removed_comment_effect commentReportStore 5 "N1" false "R4" "M1" none
     (exampleReport "R4" "comment" "C1") exampleComment rfl rfl rfl⟩

/-- The value of `resolveReport` with action `user_suspended` or `user_banned` on an
existing report. -/
theorem ModerationService.resolveReport_deactivate (s : Store) (now : Date)
    (newId : ObjectId) (pushRaises : Bool) (reportId adminId : ObjectId)
    (notes : Option String) (r : Report) (a : String)
    (hr : findById Report._id s.reports reportId = some r)
    (ha : a = "user_suspended" ∨ a = "user_banned") :
    ModerationService.resolveReport s now newId pushRaises reportId adminId
        { action := some a, notes := notes }
      = (.ok { r with status := "resolved",
                      resolution := some { action := some a, notes := notes,
                                           resolvedBy := adminId, resolvedAt := now } },
         { s with
             users := findByIdAndUpdate User._id s.users r.contentId
               (fun u => { u with isActive := false }),
             reports := saveDoc Report._id s.reports
               { r with status := "resolved",
                        resolution := some { action := some a, notes := notes,
                                             resolvedBy := adminId, resolvedAt := now } } }) := by
  have hA : ModerationService.applyModerationAction s now newId pushRaises r.contentType
      r.contentId (some a) adminId
      = (.ok (), { s with
                    users := findByIdAndUpdate User._id s.users r.contentId
                      (fun u => { u with isActive := false }) }) := by
    rcases ha with rfl | rfl <;> simp [ModerationService.applyModerationAction]
  have hv : ({ r with status := "resolved",
                      resolution := some { action := some a, notes := notes,
                                           resolvedBy := adminId,
                                           resolvedAt := now } } : Report).valid = true :=
    (Report.valid_resolved r _ notes adminId now).2
      (Or.inr ⟨a, rfl, by rcases ha with rfl | rfl <;> simp [resolutionActions]⟩)
  rw [ModerationService.resolveReport_eq s now newId pushRaises reportId adminId _ r hr]
  simp only [hA, hv, if_true]

/-- C12 (suspend and ban are observationally equal). For every store and every existing
report, `resolveReport` with action `user_suspended` and with action `user_banned` both
return normally and leave identical posts, comments, users, notifications and events
collections; when a user carries the reported id, both leave that user with isActive false
and otherwise as before; the two returned reports differ only in the action recorded in the
resolution. -/
theorem suspend_ban_equal (s : Store) (now : Date) (newId : ObjectId) (pushRaises : Bool)
    (reportId adminId : ObjectId) (notes : Option String) (r : Report)
    (hr : findById Report._id s.reports reportId = some r) :
    ∃ r1 s1 r2 s2,
      ModerationService.resolveReport s now newId pushRaises reportId adminId
          { action := some "user_suspended", notes := notes } = (.ok r1, s1)
      ∧ ModerationService.resolveReport s now newId pushRaises reportId adminId
          { action := some "user_banned", notes := notes } = (.ok r2, s2)
      ∧ (∀ u, findById User._id s.users r.contentId = some u →
          findById User._id s1.users r.contentId = some { u with isActive := false }
          ∧ findById User._id s2.users r.contentId = some { u with isActive := false })
      ∧ s1.posts = s2.posts ∧ s1.comments = s2.comments ∧ s1.users = s2.users
      ∧ s1.notifications = s2.notifications ∧ s1.events = s2.events
      ∧ s1.posts = s.posts ∧ s1.comments = s.comments
      ∧ r1 = { r with status := "resolved",
                      resolution := some { action := some "user_suspended", notes := notes,
                                           resolvedBy := adminId, resolvedAt := now } }
      ∧ r2 = { r1 with
                 resolution := some { action := some "user_banned", notes := notes,
                                      resolvedBy := adminId, resolvedAt := now } } := by
  have hsame := findById_findByIdAndUpdate_same User._id s.users r.contentId
    (fun u => { u with isActive := false }) (fun d hd => hd)
  have husers : ∀ u, findById User._id s.users r.contentId = some u →
      findById User._id (findByIdAndUpdate User._id s.users r.contentId
        (fun u => { u with isActive := false })) r.contentId
        = some { u with isActive := false } := by
    intro u hu
    rw [hsame, hu]
    rfl
  exact ⟨_, _, _, _,
    ModerationService.resolveReport_deactivate s now newId pushRaises reportId adminId notes r
      "user_suspended" hr (Or.inl rfl),
    ModerationService.resolveReport_deactivate s now newId pushRaises reportId adminId notes r
      "user_banned" hr (Or.inr rfl),
    fun u hu => ⟨husers u hu, husers u hu⟩, rfl, rfl, rfl, rfl, rfl, rfl, rfl, rfl, rfl⟩

/-- Witness of C12: the report `R5` against the user `U2` resolved by `M1`. -/
theorem suspend_ban_equal_witness :
    findById Report._id userReportStore.reports "R5" = some (exampleReport "R5" "user" "U2")
    ∧ findById User._id userReportStore.users (exampleReport "R5" "user" "U2").contentId
        = some (exampleUser "U2")
    ∧ ∃ r1 s1 r2 s2,
      ModerationService.resolveReport userReportStore 5 "N1" false "R5" "M1"
          { action := some "user_suspended", notes := none } = (.ok r1, s1)
      ∧ ModerationService.resolveReport userReportStore 5 "N1" false "R5" "M1"
          { action := some "user_banned", notes := none } = (.ok r2, s2)
      ∧ (∀ u, findById User._id userReportStore.users
              (exampleReport "R5" "user" "U2").contentId = some u →
          findById User._id s1.users (exampleReport "R5" "user" "U2").contentId
            = some { u with isActive := false }
          ∧ findById User._id s2.users (exampleReport "R5" "user" "U2").contentId
            = some { u with isActive := false })
      ∧ s1.posts = s2.posts ∧ s1.comments = s2.comments ∧ s1.users = s2.users
      ∧ s1.notifications = s2.notifications ∧ s1.events = s2.events
      ∧ s1.posts = userReportStore.posts ∧ s1.comments = userReportStore.comments
      ∧ r1 = { exampleReport "R5" "user" "U2" with
                 status := "resolved",
                 resolution := some { action := some "user_suspended", notes := none,
                                      resolvedBy := "M1", resolvedAt := 5 } }
      ∧ r2 = { r1 with
                 resolution := some { action := some "user_banned", notes := none,
                                      resolvedBy := "M1", resolvedAt := 5 } } :=
  ⟨rfl, rfl,
   suspend_ban_equal userReportStore 5 "N1" false "R5" "M1" none
     (exampleReport "R5" "user" "U2") rfl⟩

/-! ## Lemmas on notifications and the warning action -/

theorem findByIdAndUpdate_append_fresh {α : Type} (key : α → ObjectId) (docs : List α)
    (id : ObjectId) (f : α → α) (d : α) (h : findById key docs id = none) (hd : key d = id) :
    findByIdAndUpdate key (docs ++ [d]) id f = docs ++ [f d] := by
  induction docs with
  | nil => simp [findByIdAndUpdate, hd]
  | cons x xs ih =>
    by_cases hx : key x = id
    · have hb : (key x == id) = true := by simpa using hx
      simp [findById, List.find?_cons, hb] at h
    · have hb : (key x == id) = false := by simpa using hx
      simp only [findById, List.find?_cons, hb] at h
      rw [List.cons_append, findByIdAndUpdate]
      simp only [hx, if_false, ih h, List.cons_append]

/-- Every delivery method `createNotification` selects passes the schema. -/
theorem NotificationService.selectDeliveryMethods_valid (user : User) :
    (NotificationService.selectDeliveryMethods user).all (fun d =>
        decide (d.method ∈ ["email", "sms", "inApp"])
          && decide (d.status ∈ ["pending", "sent", "delivered", "failed"])) = true := by
  unfold NotificationService.selectDeliveryMethods
  dsimp only
  split_ifs <;> simp

/-- The value of `createNotification` when the recipient exists, the document passes the
schema and the generated `_id` is not taken: exactly one notification is appended. -/
theorem NotificationService.createNotification_ok (s : Store) (now : Date)
    (newId : ObjectId) (pushRaises : Bool) (recipientId : ObjectId) (data : NotificationData)
    (user : User) (hu : findById User._id s.users recipientId = some user)
    (hvalid : ({ _id := newId, recipient := recipientId, type := data.type,
                 title := data.title, message := data.message,
                 data := { entityType := data.entityType, entityId := data.entityId,
                           url := data.url },
                 deliveryMethods := NotificationService.selectDeliveryMethods user,
                 priority := data.priority.getD "normal",
                 isRead := false, readAt := none, expiresAt := none } : Notification).valid
        = true)
    (hfresh : findById Notification._id s.notifications newId = none) :
    ∃ n, NotificationService.createNotification s now newId pushRaises recipientId data
        = (.ok n, { s with notifications := s.notifications ++ [n] })
      ∧ n._id = newId ∧ n.recipient = recipientId ∧ n.type = data.type
      ∧ n.title = data.title ∧ n.message = data.message
      ∧ n.priority = data.priority.getD "normal"
      ∧ n.deliveryMethods
          = (if pushRaises then NotificationService.selectDeliveryMethods user
             else markInAppSent now (NotificationService.selectDeliveryMethods user)) := by
  cases pushRaises with
  | true =>
    refine ⟨{ _id := newId, recipient := recipientId, type := data.type,
              title := data.title, message := data.message,
              data := { entityType := data.entityType, entityId := data.entityId,
                        url := data.url },
              deliveryMethods := NotificationService.selectDeliveryMethods user,
              priority := data.priority.getD "normal",
              isRead := false, readAt := none, expiresAt := none },
      ?_, rfl, rfl, rfl, rfl, rfl, rfl, rfl⟩
    simp only [NotificationService.createNotification, hu, hvalid, hfresh, saveDoc]
    simp only [not_true_eq_false, if_false, Option.isSome_none, Bool.false_eq_true, if_true]
    rw [findByIdAndUpdate_append_fresh _ _ _ _ _ hfresh rfl]
  | false =>
    refine ⟨{ _id := newId, recipient := recipientId, type := data.type,
              title := data.title, message := data.message,
              data := { entityType := data.entityType, entityId := data.entityId,
                        url := data.url },
              deliveryMethods :=
                markInAppSent now (NotificationService.selectDeliveryMethods user),
              priority := data.priority.getD "normal",
              isRead := false, readAt := none, expiresAt := none },
      ?_, rfl, rfl, rfl, rfl, rfl, rfl, rfl⟩
    simp only [NotificationService.createNotification, hu, hvalid, hfresh, saveDoc]
    simp only [not_true_eq_false, if_false, Option.isSome_none, Bool.false_eq_true]
    rw [findByIdAndUpdate_append_fresh _ _ _ _ _ hfresh rfl]

/-- The warning notification passes the schema for every recipient. -/
theorem warningData_valid (newId recipientId : ObjectId) (user : User) :
    ({ _id := newId, recipient := recipientId, type := warningData.type,
       title := warningData.title, message := warningData.message,
       data := { entityType := warningData.entityType, entityId := warningData.entityId,
                 url := warningData.url },
       deliveryMethods := NotificationService.selectDeliveryMethods user,
       priority := warningData.priority.getD "normal",
       isRead := false, readAt := none, expiresAt := none } : Notification).valid = true := by
  have hd := NotificationService.selectDeliveryMethods_valid user
  have h1 : jsLength warningData.message ≤ 1000 := by decide
  have h2 : jsLength warningData.title ≤ 200 := by decide
  have h3 : warningData.message ≠ "" := by decide
  have h4 : warningData.title ≠ "" := by decide
  have h5 : warningData.type ∈ notificationTypes := by decide
  have h6 : warningData.priority.getD "normal" ∈ ["low", "normal", "high", "urgent"] := by
    decide
  have h7 : warningData.entityType = none := rfl
  simp only [Notification.valid, hd, h1, h2, h3, h4, h5, h6, h7, decide_True, Bool.and_self,
    ne_eq, not_false_eq_true]

/-- The value of `applyModerationAction` with action `warning` once the recipient is
determined. -/
theorem ModerationService.applyModerationAction_warning (s : Store) (now : Date)
    (newId : ObjectId) (pushRaises : Bool) (contentType : String) (contentId : ObjectId)
    (adminId recipient : ObjectId)
    (hrec : (if contentType = "post" then (findById Post._id s.posts contentId).map Post.author
             else if contentType = "comment" then
               (findById Comment._id s.comments contentId).map Comment.author
             else some contentId) = some recipient) :
    ModerationService.applyModerationAction s now newId pushRaises contentType contentId
        (some "warning") adminId
      = match NotificationService.createNotification s now newId pushRaises recipient
            warningData with
        | (.error e, s1) => (.error e, s1)
        | (.ok _, s1) => (.ok (), s1) := by
  have h1 : ¬ ((some "warning" : Option String) = some "content_removed") := by decide
  have h2 : ¬ ((some "warning" : Option String) = some "user_suspended") := by decide
  have h3 : ¬ ((some "warning" : Option String) = some "user_banned") := by decide
  unfold ModerationService.applyModerationAction
  rw [if_neg h1, if_neg h2, if_neg h3, if_pos rfl]
  simp only [hrec]
  rfl

/-- The value of `applyModerationAction` with action `warning` when no recipient is
determined, which is when the reported post or comment no longer exists. -/
theorem ModerationService.applyModerationAction_warning_none (s : Store) (now : Date)
    (newId : ObjectId) (pushRaises : Bool) (contentType : String) (contentId : ObjectId)
    (adminId : ObjectId)
    (hrec : (if contentType = "post" then (findById Post._id s.posts contentId).map Post.author
             else if contentType = "comment" then
               (findById Comment._id s.comments contentId).map Comment.author
             else some contentId) = none) :
    ModerationService.applyModerationAction s now newId pushRaises contentType contentId
        (some "warning") adminId = (.ok (), s) := by
  have h1 : ¬ ((some "warning" : Option String) = some "content_removed") := by decide
  have h2 : ¬ ((some "warning" : Option String) = some "user_suspended") := by decide
  have h3 : ¬ ((some "warning" : Option String) = some "user_banned") := by decide
  unfold ModerationService.applyModerationAction
  rw [if_neg h1, if_neg h2, if_neg h3, if_pos rfl]
  simp only [hrec]

/-! ## The warning action: the claim -/

/-- C13, counterexample. In the orphan-post store the reported post `P1` exists but the
account of its author `U1` has been deleted.  Resolving the report `R1` with action
`warning` throws `Recipient not found`, creates no notification and leaves the report
pending. -/
theorem warning_orphan_author_raises :
    findById Report._id orphanPostStore.reports "R1" = some (exampleReport "R1" "post" "P1")
    ∧ findById Post._id orphanPostStore.posts "P1" = some examplePost
    ∧ findById User._id orphanPostStore.users examplePost.author = none
    ∧ ModerationService.resolveReport orphanPostStore 20 "N1" false "R1" "M1"
          { action := some "warning", notes := none }
        = (.error "Recipient not found", orphanPostStore)
    ∧ orphanPostStore.notifications = [] :=
  ⟨rfl, rfl, rfl, rfl, rfl⟩

/-- C13, amended. Take an existing report whose recipient is determined: the author of the
reported post or comment when that post or comment exists, the reported id when the report
is on a user.  When the recipient has a user account, `resolveReport` with action `warning`
returns normally with the report resolved, leaves the posts, comments and users collections
unchanged, and appends exactly one notification, of type `moderation_action`, priority
high, addressed to that recipient (the `_id` generated for the notification is assumed not
to be taken).  When the recipient has no user account, as after the author of the reported
post or comment has deleted the account, `createNotification` throws, `resolveReport`
throws `Recipient not found`, and the store is left as it was: no notification is created
and the report is not resolved. -/
theorem warning_effect (s : Store) (now : Date) (newId : ObjectId) (pushRaises : Bool)
    (reportId adminId : ObjectId) (notes : Option String) (r : Report)
    (recipient : ObjectId)
    (hr : findById Report._id s.reports reportId = some r)
    (hrec : (r.contentType = "post"
              ∧ ∃ p, findById Post._id s.posts r.contentId = some p ∧ p.author = recipient)
            ∨ (r.contentType = "comment"
              ∧ ∃ c, findById Comment._id s.comments r.contentId = some c
                  ∧ c.author = recipient)
            ∨ (r.contentType = "user" ∧ r.contentId = recipient)) :
    (∀ u, findById User._id s.users recipient = some u →
      findById Notification._id s.notifications newId = none →
      ∃ r1 s1 n,
        ModerationService.resolveReport s now newId pushRaises reportId adminId
            { action := some "warning", notes := notes } = (.ok r1, s1)
        ∧ r1.status = "resolved"
        ∧ findById Report._id s1.reports reportId = some r1
        ∧ s1.posts = s.posts ∧ s1.comments = s.comments ∧ s1.users = s.users
        ∧ s1.notifications = s.notifications ++ [n]
        ∧ n.type = "moderation_action" ∧ n.priority = "high" ∧ n.recipient = recipient)
    ∧ (findById User._id s.users recipient = none →
        (NotificationService.createNotification s now newId pushRaises recipient warningData).1
            = .error "Recipient not found"
        ∧ ModerationService.resolveReport s now newId pushRaises reportId adminId
            { action := some "warning", notes := notes } = (.error "Recipient not found", s)) := by
  have hk := findById_key _ _ _ _ hr
  have hrec2 : (if r.contentType = "post" then
                  (findById Post._id s.posts r.contentId).map Post.author
                else if r.contentType = "comment" then
                  (findById Comment._id s.comments r.contentId).map Comment.author
                else some r.contentId) = some recipient := by
    rcases hrec with ⟨ht, p, hp, ha⟩ | ⟨ht, c, hc, ha⟩ | ⟨ht, ha⟩
    · rw [if_pos ht, hp]; simp [ha]
    · have hnp : r.contentType ≠ "post" := by rw [ht]; decide
      rw [if_neg hnp, if_pos ht, hc]; simp [ha]
    · have hnp : r.contentType ≠ "post" := by rw [ht]; decide
      have hnc : r.contentType ≠ "comment" := by rw [ht]; decide
      rw [if_neg hnp, if_neg hnc, ha]
  have hA := ModerationService.applyModerationAction_warning s now newId pushRaises
    r.contentType r.contentId adminId recipient hrec2
  constructor
  · intro u hu hfresh
    obtain ⟨n, hn, _, hnrec, hntype, _, _, hnprio, _⟩ :=
      NotificationService.createNotification_ok s now newId pushRaises recipient warningData u
        hu (warningData_valid newId recipient u) hfresh
    rw [hn] at hA
    have hv : ({ r with status := "resolved",
                        resolution := some { action := some "warning", notes := notes,
                                             resolvedBy := adminId,
                                             resolvedAt := now } } : Report).valid = true :=
      (Report.valid_resolved r _ notes adminId now).2
        (Or.inr ⟨_, rfl, by simp [resolutionActions]⟩)
    refine ⟨{ r with status := "resolved",
                     resolution := some { action := some "warning", notes := notes,
                                          resolvedBy := adminId, resolvedAt := now } },
      { s with
          notifications := s.notifications ++ [n],
          reports := saveDoc Report._id s.reports
            { r with status := "resolved",
                     resolution := some { action := some "warning", notes := notes,
                                          resolvedBy := adminId, resolvedAt := now } } },
      n, ?_, rfl, ?_, rfl, rfl, rfl, rfl, hntype, hnprio, hnrec⟩
    · rw [ModerationService.resolveReport_eq s now newId pushRaises reportId adminId _ r hr]
      simp only [hA, hv, if_true]
    · exact findById_saveDoc _ _ _ r _ hr hk
  · intro hu
    have hn : NotificationService.createNotification s now newId pushRaises recipient
        warningData = (.error "Recipient not found", s) := by
      simp only [NotificationService.createNotification, hu]
    rw [hn] at hA
    refine ⟨by rw [hn], ?_⟩
    rw [ModerationService.resolveReport_eq s now newId pushRaises reportId adminId _ r hr]
    simp only [hA]

/-- Witness of the amended C13: in scenario A the author `U1` of the reported post `P1`
receives the warning `N1`; in the orphan-comment store the account of the author `U2` of
the reported comment `C1` is gone and the call throws. -/
theorem warning_effect_witness :
    (findById Report._id scenarioAStore.reports "R1" = some (exampleReport "R1" "post" "P1")
      ∧ (exampleReport "R1" "post" "P1").contentType = "post"
      ∧ findById Post._id scenarioAStore.posts (exampleReport "R1" "post" "P1").contentId
          = some examplePost
      ∧ examplePost.author = "U1"
      ∧ findById User._id scenarioAStore.users "U1" = some (exampleUser "U1")
      ∧ findById Notification._id scenarioAStore.notifications "N1" = none)
    ∧ (∃ r1 s1 n,
      ModerationService.resolveReport scenarioAStore 20 "N1" false "R1" "M1"
          { action := some "warning", notes := none } = (.ok r1, s1)
      ∧ r1.status = "resolved"
      ∧ findById Report._id s1.reports "R1" = some r1
      ∧ s1.posts = scenarioAStore.posts ∧ s1.comments = scenarioAStore.comments
      ∧ s1.users = scenarioAStore.users
      ∧ s1.notifications = scenarioAStore.notifications ++ [n]
      ∧ n.type = "moderation_action" ∧ n.priority = "high" ∧ n.recipient = "U1")
    ∧ ModerationService.resolveReport orphanCommentStore 20 "N1" false "R4" "M1"
          { action := some "warning", notes := none }
        = (.error "Recipient not found", orphanCommentStore) :=
  ⟨⟨rfl, rfl, rfl, rfl, rfl, rfl⟩,
   (warning_effect scenarioAStore 20 "N1" false "R1" "M1" none
     (exampleReport "R1" "post" "P1") "U1" rfl
     (Or.inl ⟨rfl, examplePost, rfl, rfl⟩)).1 (exampleUser "U1") rfl rfl,
   ((warning_effect orphanCommentStore 20 "N1" false "R4" "M1" none
     (exampleReport "R4" "comment" "C1") "U2" rfl
     (Or.inr (Or.inl ⟨rfl, exampleComment, rfl, rfl⟩))).2 rfl).2⟩

/-! ## Lemmas on report creation -/

theorem Report.keyTaken_iff (reports : List Report) (newId reporterId : ObjectId)
    (data : ReportData) :
    Report.keyTaken reports (newReport newId reporterId data) = true
      ↔ ∃ d ∈ reports, d.reporter = reporterId ∧ d.contentType = data.contentType
          ∧ d.contentId = data.contentId := by
  simp [Report.keyTaken, newReport, List.any_eq_true, and_assoc]

/-- The value of `createReport` when the target exists in the collection its content type
names: the outcome of `Report.create`. -/
theorem ModerationService.createReport_of_target (s : Store) (newId reporterId : ObjectId)
    (data : ReportData)
    (hex : (data.contentType = "post"
              ∧ (findById Post._id s.posts data.contentId).isSome = true)
            ∨ (data.contentType = "comment"
              ∧ (findById Comment._id s.comments data.contentId).isSome = true)
            ∨ (data.contentType = "user"
              ∧ (findById User._id s.users data.contentId).isSome = true)) :
    ModerationService.createReport s newId reporterId data
      = if ¬ (newReport newId reporterId data).validNew then
          (.error "Report validation failed", s)
        else if (findById Report._id s.reports newId).isSome
            ∨ Report.keyTaken s.reports (newReport newId reporterId data) then
          (.error "E11000 duplicate key error", s)
        else (.ok (newReport newId reporterId data),
              { s with reports := s.reports ++ [newReport newId reporterId data] }) := by
  obtain ⟨ct, cid, reason, desc, shots⟩ := data
  simp only at hex
  rcases hex with ⟨rfl, hp⟩ | ⟨rfl, hp⟩ | ⟨rfl, hp⟩
  · simp only [ModerationService.createReport, if_true, hp]
    rfl
  · have h1 : ¬ ("comment" = "post") := by decide
    simp only [ModerationService.createReport, h1, if_false, if_true, hp]
    rfl
  · have h1 : ¬ ("user" = "post") := by decide
    have h2 : ¬ ("user" = "comment") := by decide
    simp only [ModerationService.createReport, h1, h2, if_false, if_true, hp]
    rfl

/-- The value of `createReport` when no target exists in the collection its content type
names, or when the content type names none of the three collections it looks in: it throws
and writes nothing. -/
theorem ModerationService.createReport_of_no_target (s : Store) (newId reporterId : ObjectId)
    (data : ReportData)
    (hp : data.contentType = "post" → findById Post._id s.posts data.contentId = none)
    (hc : data.contentType = "comment" →
      findById Comment._id s.comments data.contentId = none)
    (hu : data.contentType = "user" → findById User._id s.users data.contentId = none) :
    ∃ e, ModerationService.createReport s newId reporterId data = (.error e, s)
      ∧ (e = "Invalid content type" ∨ e = data.contentType ++ " not found") := by
  obtain ⟨ct, cid, reason, desc, shots⟩ := data
  simp only at hp hc hu
  by_cases h1 : ct = "post"
  · subst h1
    refine ⟨_, ?_, Or.inr rfl⟩
    simp only [ModerationService.createReport, if_true, hp rfl, Option.isSome_none]
  · by_cases h2 : ct = "comment"
    · subst h2
      refine ⟨_, ?_, Or.inr rfl⟩
      simp only [ModerationService.createReport, h1, if_false, if_true, hc rfl,
        Option.isSome_none]
    · by_cases h3 : ct = "user"
      · subst h3
        refine ⟨_, ?_, Or.inr rfl⟩
        simp only [ModerationService.createReport, h1, h2, if_false, if_true, hu rfl,
          Option.isSome_none]
      · refine ⟨_, ?_, Or.inl rfl⟩
        simp only [ModerationService.createReport, h1, h2, h3, if_false]

/-- The length in code units of a string that repeats one character. -/
theorem jsLength_replicate (n : Nat) (c : Char) :
    jsLength (String.mk (List.replicate n c)) = n * utf16Size c := by
  unfold jsLength
  induction n with
  | zero => simp
  | succ k ih =>
    simp only [List.replicate_succ, List.map_cons, List.sum_cons] at ih ⊢
    rw [show (String.mk (c :: List.replicate k c)).toList = c :: List.replicate k c from rfl]
    simp only [List.map_cons, List.sum_cons, List.map_replicate, List.sum_replicate,
      smul_eq_mul]
    ring

/-! ## Report registry: the claims -/

/-- C14, counterexample. In the deleted-post store the report `R1` by `U1` against the post
`P1` is on file, but `P1` itself has been deleted.  The same reporter filing the same report
again is turned down by the existence check, with the error `post not found`, which is not
the duplicate-key error; and in scenario A, where `P1` exists, filing it again with a reason
outside the enumeration is turned down by the schema validation. -/
theorem duplicate_report_not_found_error :
    findById Report._id deletedPostStore.reports "R1" = some (exampleReport "R1" "post" "P1")
    ∧ (exampleReport "R1" "post" "P1").reporter = "U1"
    ∧ ModerationService.createReport deletedPostStore "R9" "U1" (spamReport "post" "P1")
        = (.error "post not found", deletedPostStore)
    ∧ ("post not found" : String) ≠ "E11000 duplicate key error"
    ∧ ModerationService.createReport scenarioAStore "R9" "U1"
          { spamReport "post" "P1" with reason := "boring" }
        = (.error "Report validation failed", scenarioAStore) :=
  ⟨rfl, rfl, rfl, by decide, rfl⟩

/-- C14, amended. If the registry already holds a report with the same reporter, content
type and content id, whatever its status, then `createReport` throws and leaves the store
as it was, and the error is that of the first check that fails: `Invalid content type`
when the content type is not post, comment or user; `<type> not found` when the target no
longer exists; the validation error when the target exists and the new document does not
pass the schema (enumerated reason, description of at most 1000 UTF-16 code units); and
the duplicate-key error E11000 of the unique index when the target exists and the document
passes the schema. -/
theorem report_uniqueness (s : Store) (newId reporterId : ObjectId) (data : ReportData)
    (d : Report) (hd : d ∈ s.reports)
    (hkey : d.reporter = reporterId ∧ d.contentType = data.contentType
      ∧ d.contentId = data.contentId) :
    (∃ e, ModerationService.createReport s newId reporterId data = (.error e, s))
    ∧ (((data.contentType = "post"
            ∧ (findById Post._id s.posts data.contentId).isSome = true)
          ∨ (data.contentType = "comment"
            ∧ (findById Comment._id s.comments data.contentId).isSome = true)
          ∨ (data.contentType = "user"
            ∧ (findById User._id s.users data.contentId).isSome = true)) →
        data.reason ∈ reportReasons →
        (∀ t, data.description = some t → jsLength t ≤ 1000) →
        ModerationService.createReport s newId reporterId data
          = (.error "E11000 duplicate key error", s))
    ∧ (((data.contentType = "post"
            ∧ (findById Post._id s.posts data.contentId).isSome = true)
          ∨ (data.contentType = "comment"
            ∧ (findById Comment._id s.comments data.contentId).isSome = true)
          ∨ (data.contentType = "user"
            ∧ (findById User._id s.users data.contentId).isSome = true)) →
        (data.reason ∉ reportReasons
          ∨ ∃ t, data.description = some t ∧ 1000 < jsLength t) →
        ModerationService.createReport s newId reporterId data
          = (.error "Report validation failed", s))
    ∧ (((data.contentType = "post" ∧ findById Post._id s.posts data.contentId = none)
          ∨ (data.contentType = "comment"
            ∧ findById Comment._id s.comments data.contentId = none)
          ∨ (data.contentType = "user" ∧ findById User._id s.users data.contentId = none)) →
        ModerationService.createReport s newId reporterId data
          = (.error (data.contentType ++ " not found"), s))
    ∧ (data.contentType ≠ "post" → data.contentType ≠ "comment" →
        data.contentType ≠ "user" →
        ModerationService.createReport s newId reporterId data
          = (.error "Invalid content type", s)) := by
  have htaken : Report.keyTaken s.reports (newReport newId reporterId data) = true :=
    (Report.keyTaken_iff s.reports newId reporterId data).2 ⟨d, hd, hkey⟩
  have hcreate : ((data.contentType = "post"
            ∧ (findById Post._id s.posts data.contentId).isSome = true)
          ∨ (data.contentType = "comment"
            ∧ (findById Comment._id s.comments data.contentId).isSome = true)
          ∨ (data.contentType = "user"
            ∧ (findById User._id s.users data.contentId).isSome = true)) →
      ModerationService.createReport s newId reporterId data
        = if ¬ (newReport newId reporterId data).validNew then
            (.error "Report validation failed", s)
          else (.error "E11000 duplicate key error", s) := by
    intro hex
    rw [ModerationService.createReport_of_target s newId reporterId data hex]
    simp only [htaken, or_true, if_true]
  have hmissing : ((data.contentType = "post"
            ∧ findById Post._id s.posts data.contentId = none)
          ∨ (data.contentType = "comment"
            ∧ findById Comment._id s.comments data.contentId = none)
          ∨ (data.contentType = "user" ∧ findById User._id s.users data.contentId = none)) →
        ModerationService.createReport s newId reporterId data
          = (.error (data.contentType ++ " not found"), s) := by
    have h1 : ¬ ("comment" = "post") := by decide
    have h2 : ¬ ("user" = "post") := by decide
    have h3 : ¬ ("user" = "comment") := by decide
    rintro (⟨ht, hn⟩ | ⟨ht, hn⟩ | ⟨ht, hn⟩)
    · simp only [ModerationService.createReport, ht, if_true, hn, Option.isSome_none]
    · simp only [ModerationService.createReport, ht, h1, if_false, if_true, hn,
        Option.isSome_none]
    · simp only [ModerationService.createReport, ht, h2, h3, if_false, if_true, hn,
        Option.isSome_none]
  have hinvalid : data.contentType ≠ "post" → data.contentType ≠ "comment" →
        data.contentType ≠ "user" →
        ModerationService.createReport s newId reporterId data
          = (.error "Invalid content type", s) := by
    intro h1 h2 h3
    simp only [ModerationService.createReport, h1, h2, h3, if_false]
  refine ⟨?_, ?_, ?_, hmissing, hinvalid⟩
  · by_cases h1 : data.contentType = "post"
    · cases hf : findById Post._id s.posts data.contentId with
      | none => exact ⟨_, hmissing (Or.inl ⟨h1, hf⟩)⟩
      | some p =>
        rw [hcreate (Or.inl ⟨h1, by rw [hf]; rfl⟩)]
        split
        · exact ⟨_, rfl⟩
        · exact ⟨_, rfl⟩
    · by_cases h2 : data.contentType = "comment"
      · cases hf : findById Comment._id s.comments data.contentId with
        | none => exact ⟨_, hmissing (Or.inr (Or.inl ⟨h2, hf⟩))⟩
        | some p =>
          rw [hcreate (Or.inr (Or.inl ⟨h2, by rw [hf]; rfl⟩))]
          split
          · exact ⟨_, rfl⟩
          · exact ⟨_, rfl⟩
      · by_cases h3 : data.contentType = "user"
        · cases hf : findById User._id s.users data.contentId with
          | none => exact ⟨_, hmissing (Or.inr (Or.inr ⟨h3, hf⟩))⟩
          | some p =>
            rw [hcreate (Or.inr (Or.inr ⟨h3, by rw [hf]; rfl⟩))]
            split
            · exact ⟨_, rfl⟩
            · exact ⟨_, rfl⟩
        · exact ⟨_, hinvalid h1 h2 h3⟩
  · intro hex hreason hdesc
    rw [hcreate hex]
    have hct : data.contentType ∈ reportContentTypes := by
      rcases hex with ⟨h, _⟩ | ⟨h, _⟩ | ⟨h, _⟩ <;> rw [h] <;> decide
    have hv : (newReport newId reporterId data).validNew = true := by
      cases hdes : data.description with
      | none => simp [Report.validNew, newReport, hct, hreason, hdes]
      | some t => simp [Report.validNew, newReport, hct, hreason, hdes, hdesc t hdes]
    simp only [hv, not_true_eq_false, if_false]
  · intro hex hbad
    rw [hcreate hex]
    have hv : (newReport newId reporterId data).validNew = false := by
      rcases hbad with hreason | ⟨t, hdes, hlong⟩
      · simp [Report.validNew, newReport, hreason]
      · have hnot : ¬ jsLength t ≤ 1000 := by omega
        simp [Report.validNew, newReport, hdes, hnot]
    simp only [hv, Bool.false_eq_true, not_false_eq_true, if_true]

/-- Witness of the amended C14: `U1` files the spam report against `P1` a second time,
first while `R1` is pending, then after it has been resolved, then after the post has been
deleted, and last with a description of 501 characters that take two code units each. -/
theorem report_uniqueness_witness :
    (exampleReport "R1" "post" "P1" ∈ scenarioAStore.reports
      ∧ (exampleReport "R1" "post" "P1").reporter = "U1"
      ∧ (exampleReport "R1" "post" "P1").contentType = (spamReport "post" "P1").contentType
      ∧ (exampleReport "R1" "post" "P1").contentId = (spamReport "post" "P1").contentId
      ∧ (findById Post._id scenarioAStore.posts (spamReport "post" "P1").contentId).isSome
          = true
      ∧ (spamReport "post" "P1").reason ∈ reportReasons)
    ∧ ModerationService.createReport scenarioAStore "R9" "U1" (spamReport "post" "P1")
        = (.error "E11000 duplicate key error", scenarioAStore)
    ∧ (∃ e, ModerationService.createReport resolvedStore "R9" "U1" (spamReport "post" "P1")
        = (.error e, resolvedStore))
    ∧ ModerationService.createReport deletedPostStore "R9" "U1" (spamReport "post" "P1")
        = (.error ((spamReport "post" "P1").contentType ++ " not found"), deletedPostStore)
    ∧ ModerationService.createReport scenarioAStore "R9" "U1" longReport
        = (.error "Report validation failed", scenarioAStore) :=
  ⟨⟨by decide, rfl, rfl, rfl, rfl, by decide⟩,
   (report_uniqueness scenarioAStore "R9" "U1" (spamReport "post" "P1")
      (exampleReport "R1" "post" "P1") (by decide) ⟨rfl, rfl, rfl⟩).2.1
      (Or.inl ⟨rfl, rfl⟩) (by decide) (fun t ht => by cases ht),
   (report_uniqueness resolvedStore "R9" "U1" (spamReport "post" "P1")
      resolvedReport (by decide) ⟨rfl, rfl, rfl⟩).1,
   (report_uniqueness deletedPostStore "R9" "U1" (spamReport "post" "P1")
      (exampleReport "R1" "post" "P1") (by decide) ⟨rfl, rfl, rfl⟩).2.2.2.1
      (Or.inl ⟨rfl, rfl⟩),
   (report_uniqueness scenarioAStore "R9" "U1" longReport
      (exampleReport "R1" "post" "P1") (by decide) ⟨rfl, rfl, rfl⟩).2.2.1
      (Or.inl ⟨rfl, rfl⟩)
      (Or.inr ⟨_, rfl, by rw [jsLength_replicate]; decide⟩)⟩

/-- C15 (invalid target rejected). If the content type is post, comment or user and no
document of that collection carries the content id, or if the content type is any other
string, then `createReport` throws (`<type> not found`, respectively `Invalid content
type`) and leaves the store, the registry included, as it was. -/
theorem invalid_target_rejected (s : Store) (newId reporterId : ObjectId) (data : ReportData)
    (hp : data.contentType = "post" → findById Post._id s.posts data.contentId = none)
    (hc : data.contentType = "comment" →
      findById Comment._id s.comments data.contentId = none)
    (hu : data.contentType = "user" → findById User._id s.users data.contentId = none) :
    (∃ e, (ModerationService.createReport s newId reporterId data).1 = .error e
        ∧ (e = "Invalid content type" ∨ e = data.contentType ++ " not found"))
    ∧ (ModerationService.createReport s newId reporterId data).2 = s
    ∧ (ModerationService.createReport s newId reporterId data).2.reports = s.reports := by
  obtain ⟨e, he, hmsg⟩ :=
    ModerationService.createReport_of_no_target s newId reporterId data hp hc hu
  rw [he]
  exact ⟨⟨e, rfl, hmsg⟩, rfl, rfl⟩

/-- Witness of C15: a report against the post `P9`, which does not exist, and a report with
the unknown content type `page`. -/
theorem invalid_target_rejected_witness :
    (findById Post._id exampleStore.posts (spamReport "post" "P9").contentId = none)
    ∧ ((∃ e, (ModerationService.createReport exampleStore "R9" "U2"
              (spamReport "post" "P9")).1 = .error e
          ∧ (e = "Invalid content type"
              ∨ e = (spamReport "post" "P9").contentType ++ " not found"))
      ∧ (ModerationService.createReport exampleStore "R9" "U2" (spamReport "post" "P9")).2
          = exampleStore
      ∧ (ModerationService.createReport exampleStore "R9" "U2"
            (spamReport "post" "P9")).2.reports = exampleStore.reports)
    ∧ (ModerationService.createReport exampleStore "R9" "U2" (spamReport "page" "P1")).1
        = .error "Invalid content type" :=
  ⟨rfl,
   invalid_target_rejected exampleStore "R9" "U2" (spamReport "post" "P9")
     (fun _ => rfl) (fun h => absurd h (by decide)) (fun h => absurd h (by decide)),
   rfl⟩

/-- C16, the failing input evaluated. The event `E1` exists and `event` is one of the
content types the Report schema and the `createReport` validator declare, yet `createReport`
against it throws `Invalid content type` and files nothing, while a report against the
existing post `P1` is accepted. -/
theorem event_report_rejected :
    findById Event._id eventStore.events "E1" = some exampleEvent
    ∧ "event" ∈ reportContentTypes
    ∧ ModerationService.createReport eventStore "R9" "U2" (spamReport "event" "E1")
        = (.error "Invalid content type", eventStore)
    ∧ (ModerationService.createReport eventStore "R9" "U2" (spamReport "post" "P1")).1
        = .ok (newReport "R9" "U2" (spamReport "post" "P1")) :=
  ⟨rfl, by decide, rfl, rfl⟩

/-! ## Lemmas on the reachable registries -/

theorem mem_findByIdAndUpdate {α : Type} (key : α → ObjectId) (docs : List α)
    (id : ObjectId) (f : α → α) (x : α) (h : x ∈ findByIdAndUpdate key docs id f) :
    x ∈ docs ∨ ∃ d ∈ docs, x = f d := by
  induction docs with
  | nil => simp [findByIdAndUpdate] at h
  | cons y ys ih =>
    rw [findByIdAndUpdate] at h
    by_cases hy : key y = id
    · simp only [hy, if_true] at h
      rcases List.mem_cons.1 h with rfl | h
      · exact Or.inr ⟨y, List.mem_cons_self _ _, rfl⟩
      · exact Or.inl (List.mem_cons_of_mem _ h)
    · simp only [hy, if_false] at h
      rcases List.mem_cons.1 h with rfl | h
      · exact Or.inl (List.mem_cons_self _ _)
      · rcases ih h with h | ⟨d, hd, hx⟩
        · exact Or.inl (List.mem_cons_of_mem _ h)
        · exact Or.inr ⟨d, List.mem_cons_of_mem _ hd, hx⟩

theorem mem_saveDoc {α : Type} (key : α → ObjectId) (docs : List α) (doc x : α)
    (h : x ∈ saveDoc key docs doc) : x ∈ docs ∨ x = doc := by
  rcases mem_findByIdAndUpdate key docs (key doc) (fun _ => doc) x h with h | ⟨_, _, h⟩
  · exact Or.inl h
  · exact Or.inr h

/-- The registry after `createReport`: unchanged, or extended by the new pending report,
which is then the returned one. -/
theorem ModerationService.createReport_reports (s : Store) (newId reporterId : ObjectId)
    (data : ReportData) :
    ((∃ e, (ModerationService.createReport s newId reporterId data).1 = .error e)
        ∧ (ModerationService.createReport s newId reporterId data).2 = s)
      ∨ ModerationService.createReport s newId reporterId data
          = (.ok (newReport newId reporterId data),
             { s with reports := s.reports ++ [newReport newId reporterId data] }) := by
  by_cases hex : (data.contentType = "post"
            ∧ (findById Post._id s.posts data.contentId).isSome = true)
          ∨ (data.contentType = "comment"
            ∧ (findById Comment._id s.comments data.contentId).isSome = true)
          ∨ (data.contentType = "user"
            ∧ (findById User._id s.users data.contentId).isSome = true)
  · rw [ModerationService.createReport_of_target s newId reporterId data hex]
    split
    · exact Or.inl ⟨⟨_, rfl⟩, rfl⟩
    · split
      · exact Or.inl ⟨⟨_, rfl⟩, rfl⟩
      · exact Or.inr rfl
  · have hp : data.contentType = "post" →
        findById Post._id s.posts data.contentId = none := by
      intro ht
      cases hf : findById Post._id s.posts data.contentId with
      | none => rfl
      | some p => exact absurd (Or.inl ⟨ht, by rw [hf]; rfl⟩) hex
    have hc : data.contentType = "comment" →
        findById Comment._id s.comments data.contentId = none := by
      intro ht
      cases hf : findById Comment._id s.comments data.contentId with
      | none => rfl
      | some p => exact absurd (Or.inr (Or.inl ⟨ht, by rw [hf]; rfl⟩)) hex
    have hu : data.contentType = "user" →
        findById User._id s.users data.contentId = none := by
      intro ht
      cases hf : findById User._id s.users data.contentId with
      | none => rfl
      | some p => exact absurd (Or.inr (Or.inr ⟨ht, by rw [hf]; rfl⟩)) hex
    obtain ⟨e, he, _⟩ :=
      ModerationService.createReport_of_no_target s newId reporterId data hp hc hu
    rw [he]
    exact Or.inl ⟨⟨e, rfl⟩, rfl⟩

/-- The registry after `resolveReport`, whatever the outcome: unchanged, or the old one with
the resolved copy of the report saved. -/
theorem ModerationService.resolveReport_reports (s : Store) (now : Date) (newId : ObjectId)
    (pushRaises : Bool) (reportId adminId : ObjectId) (res : ResolutionInput) :
    (ModerationService.resolveReport s now newId pushRaises reportId adminId res).2.reports
        = s.reports
      ∨ ∃ r, findById Report._id s.reports reportId = some r
          ∧ (ModerationService.resolveReport s now newId pushRaises reportId adminId
                res).2.reports
              = saveDoc Report._id s.reports
                  { r with status := "resolved",
                           resolution := some { action := res.action, notes := res.notes,
                                                resolvedBy := adminId, resolvedAt := now } } := by
  cases hr : findById Report._id s.reports reportId with
  | none =>
    left
    simp only [ModerationService.resolveReport, hr]
  | some r =>
    have hrep := ModerationService.applyModerationAction_reports s now newId pushRaises
      r.contentType r.contentId res.action adminId
    rw [ModerationService.resolveReport_eq s now newId pushRaises reportId adminId res r hr]
    rcases hA : ModerationService.applyModerationAction s now newId pushRaises r.contentType
      r.contentId res.action adminId with ⟨o, s2⟩
    rw [hA] at hrep
    simp only at hrep
    cases o with
    | error e => exact Or.inl hrep
    | ok u =>
      dsimp only
      split
      · right
        exact ⟨r, rfl, by simp only [hrep]⟩
      · exact Or.inl hrep

/-- The registry after `dismissReport`, whatever the outcome: unchanged, or the old one with
the dismissed copy of the report saved. -/
theorem ModerationService.dismissReport_reports (s : Store) (now : Date)
    (reportId adminId : ObjectId) (notes : Option String) :
    (ModerationService.dismissReport s now reportId adminId notes).2.reports = s.reports
      ∨ ∃ r, findById Report._id s.reports reportId = some r
          ∧ (ModerationService.dismissReport s now reportId adminId notes).2.reports
              = saveDoc Report._id s.reports
                  { r with status := "dismissed",
                           resolution := some { action := some "none",
                                                notes := some (notes.getD ""),
                                                resolvedBy := adminId, resolvedAt := now } } := by
  cases hr : findById Report._id s.reports reportId with
  | none =>
    left
    simp only [ModerationService.dismissReport, hr]
  | some r =>
    right
    rw [ModerationService.dismissReport_eq s now reportId adminId notes r hr]
    exact ⟨r, rfl, rfl⟩

/-- Every report of a reachable registry is well resolved. -/
theorem ModerationService.Reachable.wellResolved (s : Store)
    (h : ModerationService.Reachable s) : ∀ r ∈ s.reports, r.wellResolved := by
  induction h with
  | empty s h => intro r hr; rw [h] at hr; cases hr
  | content s s1 _ hrep ih => intro r hr; rw [hrep] at hr; exact ih r hr
  | create s newId reporterId data _ ih =>
    intro r hr
    rcases ModerationService.createReport_reports s newId reporterId data with ⟨_, h2⟩ | h2
    · rw [h2] at hr; exact ih r hr
    · rw [h2] at hr
      rcases List.mem_append.1 hr with hr | hr
      · exact ih r hr
      · have hr2 : r = newReport newId reporterId data := by simpa using hr
        subst hr2
        refine ⟨Or.inl rfl, ?_, ?_⟩
        · simp [newReport]
        · intro hd; simp [newReport] at hd
  | resolve s now newId pushRaises reportId adminId res _ ih =>
    intro r hr
    rcases ModerationService.resolveReport_reports s now newId pushRaises reportId adminId res
      with h2 | ⟨r0, _, h2⟩
    · rw [h2] at hr; exact ih r hr
    · rw [h2] at hr
      rcases mem_saveDoc _ _ _ _ hr with hr | hr
      · exact ih r hr
      · subst hr
        refine ⟨Or.inr (Or.inl rfl), ?_, ?_⟩
        · simp
        · intro hd; simp at hd
  | dismiss s now reportId adminId notes _ ih =>
    intro r hr
    rcases ModerationService.dismissReport_reports s now reportId adminId notes
      with h2 | ⟨r0, _, h2⟩
    · rw [h2] at hr; exact ih r hr
    · rw [h2] at hr
      rcases mem_saveDoc _ _ _ _ hr with hr | hr
      · exact ih r hr
      · subst hr
        refine ⟨Or.inr (Or.inr rfl), ?_, ?_⟩
        · simp
        · intro _; exact ⟨_, rfl, rfl⟩

/-! ## The resolution invariant: the claim -/

/-- C17, counterexample. From the example store, whose registry is empty, `createReport`
followed by `resolveReport` with a resolution that carries no action reaches a registry
whose report `R1` has the terminal status resolved and yet no resolution with an action:
resolvedBy and resolvedAt are set, the action is not. -/
theorem resolved_without_action :
    exampleStore.reports = []
    ∧ ModerationService.Reachable actionlessResolvedStore
    ∧ actionlessResolvedStore.reports
        = [{ exampleReport "R1" "post" "P1" with
               status := "resolved",
               resolution := some { action := none, notes := none, resolvedBy := "M1",
                                    resolvedAt := 5 } }]
    ∧ (∃ r ∈ actionlessResolvedStore.reports,
        r.status = "resolved" ∧ r.hasFullResolution = false) :=
  ⟨rfl,
   ModerationService.Reachable.resolve _ 5 "N1" false "R1" "M1"
     { action := none, notes := none }
     (ModerationService.Reachable.create exampleStore "R1" "U1" (spamReport "post" "P1")
       (ModerationService.Reachable.empty exampleStore rfl)),
   rfl,
   ⟨_, List.mem_singleton.2 rfl, rfl, rfl⟩⟩

/-- C17, amended. In every registry reachable from an empty one by `createReport`,
`resolveReport` and `dismissReport`, each report has status pending, resolved or dismissed
and has the resolution sub-document (with its resolvedBy and resolvedAt) if and only if its
status is resolved or dismissed; a dismissed report always records the action `none`, while
a resolved report records an action only when the resolving call supplied one.  A report
that `createReport` has just created is stored with status pending and no resolution. -/
theorem resolution_iff_terminal (s : Store) (h : ModerationService.Reachable s) :
    (∀ r ∈ s.reports,
        (r.status = "pending" ∨ r.status = "resolved" ∨ r.status = "dismissed")
        ∧ (r.resolution.isSome = true ↔ (r.status = "resolved" ∨ r.status = "dismissed"))
        ∧ (r.status = "dismissed" → r.hasFullResolution = true)
        ∧ (r.status = "dismissed" →
            ∃ res, r.resolution = some res ∧ res.action = some "none"))
    ∧ (∀ newId reporterId data r1 s1,
        ModerationService.createReport s newId reporterId data = (.ok r1, s1) →
        r1.status = "pending" ∧ r1.resolution = none ∧ r1 ∈ s1.reports
          ∧ ModerationService.Reachable s1) := by
  constructor
  · intro r hr
    obtain ⟨h1, h2, h3⟩ := ModerationService.Reachable.wellResolved s h r hr
    refine ⟨h1, h2, ?_, h3⟩
    intro hd
    obtain ⟨res, hres, hact⟩ := h3 hd
    simp [Report.hasFullResolution, hres, hact]
  · intro newId reporterId data r1 s1 hc
    have hreach := ModerationService.Reachable.create s newId reporterId data h
    rcases ModerationService.createReport_reports s newId reporterId data with ⟨⟨e, he⟩, _⟩ | h2
    · rw [hc] at he; cases he
    · rw [hc] at h2 hreach
      simp only [Prod.mk.injEq, Except.ok.injEq] at h2
      obtain ⟨h3, h4⟩ := h2
      subst h3
      subst h4
      exact ⟨rfl, rfl, by simp, hreach⟩

/-- Witness of the amended C17: the registry of the counterexample, and a report created
from it. -/
theorem resolution_iff_terminal_witness :
    ModerationService.Reachable actionlessResolvedStore
    ∧ (∀ r ∈ actionlessResolvedStore.reports,
        (r.status = "pending" ∨ r.status = "resolved" ∨ r.status = "dismissed")
        ∧ (r.resolution.isSome = true ↔ (r.status = "resolved" ∨ r.status = "dismissed"))
        ∧ (r.status = "dismissed" → r.hasFullResolution = true)
        ∧ (r.status = "dismissed" →
            ∃ res, r.resolution = some res ∧ res.action = some "none"))
    ∧ (newReport "R2" "U2" (spamReport "comment" "C1")).status = "pending"
    ∧ (newReport "R2" "U2" (spamReport "comment" "C1")).resolution = none :=
  have hreach : ModerationService.Reachable actionlessResolvedStore :=
    ModerationService.Reachable.resolve _ 5 "N1" false "R1" "M1"
      { action := none, notes := none }
      (ModerationService.Reachable.create exampleStore "R1" "U1" (spamReport "post" "P1")
        (ModerationService.Reachable.empty exampleStore rfl))
  have hcreate := (resolution_iff_terminal actionlessResolvedStore hreach).2 "R2" "U2"
    (spamReport "comment" "C1") (newReport "R2" "U2" (spamReport "comment" "C1"))
    { actionlessResolvedStore with
        reports := actionlessResolvedStore.reports
          ++ [newReport "R2" "U2" (spamReport "comment" "C1")] } rfl
  ⟨hreach, (resolution_iff_terminal actionlessResolvedStore hreach).1, hcreate.1, hcreate.2.1⟩

/-! ## Lemmas for reports filed side by side -/

theorem findById_append_single {α : Type} (key : α → ObjectId) (docs : List α) (d : α)
    (id : ObjectId) :
    findById key (docs ++ [d]) id
      = match findById key docs id with
        | some x => some x
        | none => if key d = id then some d else none := by
  induction docs with
  | nil =>
    by_cases h : key d = id
    · have hb : (key d == id) = true := by simpa using h
      simp [findById, List.find?_cons, hb, h]
    · have hb : (key d == id) = false := by simpa using h
      simp [findById, List.find?_cons, hb, h]
  | cons x xs ih =>
    by_cases hx : key x = id
    · have hb : (key x == id) = true := by simpa using hx
      simp [findById, List.find?_cons, hb]
    · have hb : (key x == id) = false := by simpa using hx
      simp only [findById, List.cons_append, List.find?_cons, hb] at ih ⊢
      exact ih

/-- The schema accepts a new report whose content type and reason are enumerated and whose
description has at most 1000 UTF-16 code units. -/
theorem newReport_validNew (newId reporterId : ObjectId) (data : ReportData)
    (hct : data.contentType ∈ reportContentTypes) (hreason : data.reason ∈ reportReasons)
    (hdesc : ∀ t, data.description = some t → jsLength t ≤ 1000) :
    (newReport newId reporterId data).validNew = true := by
  cases hdes : data.description with
  | none => simp [Report.validNew, newReport, hct, hreason, hdes]
  | some t => simp [Report.validNew, newReport, hct, hreason, hdes, hdesc t hdes]

/-- The value of `createReport` when the target exists, the document passes the schema, the
generated `_id` is not taken and the reporter has no report on the target yet: the new
pending report is appended to the registry and returned. -/
theorem ModerationService.createReport_ok (s : Store) (newId reporterId : ObjectId)
    (data : ReportData)
    (hex : (data.contentType = "post"
              ∧ (findById Post._id s.posts data.contentId).isSome = true)
            ∨ (data.contentType = "comment"
              ∧ (findById Comment._id s.comments data.contentId).isSome = true)
            ∨ (data.contentType = "user"
              ∧ (findById User._id s.users data.contentId).isSome = true))
    (hreason : data.reason ∈ reportReasons)
    (hdesc : ∀ t, data.description = some t → jsLength t ≤ 1000)
    (hfresh : findById Report._id s.reports newId = none)
    (hkey : ¬ ∃ d ∈ s.reports, d.reporter = reporterId ∧ d.contentType = data.contentType
        ∧ d.contentId = data.contentId) :
    ModerationService.createReport s newId reporterId data
      = (.ok (newReport newId reporterId data),
         { s with reports := s.reports ++ [newReport newId reporterId data] }) := by
  have hct : data.contentType ∈ reportContentTypes := by
    rcases hex with ⟨h, _⟩ | ⟨h, _⟩ | ⟨h, _⟩ <;> rw [h] <;> decide
  have hv := newReport_validNew newId reporterId data hct hreason hdesc
  have hk : Report.keyTaken s.reports (newReport newId reporterId data) = false := by
    cases hb : Report.keyTaken s.reports (newReport newId reporterId data) with
    | false => rfl
    | true => exact absurd ((Report.keyTaken_iff s.reports newId reporterId data).1 hb) hkey
  rw [ModerationService.createReport_of_target s newId reporterId data hex]
  simp [hv, hfresh, hk]

theorem findById_saveDoc_other {α : Type} (key : α → ObjectId) (docs : List α) (doc : α)
    (id : ObjectId) (hne : id ≠ key doc) :
    findById key (saveDoc key docs doc) id = findById key docs id := by
  unfold saveDoc
  exact findById_findByIdAndUpdate_other key docs (key doc) id (fun _ => doc)
    (fun _ _ => rfl) hne

/-! ## Independence of reports: the claim -/

/-- C18 (independence of reports on the same content). Take two distinct reporters and an
existing post, comment or user, neither reporter having a report on it yet, and let each
file a report that passes the schema, under distinct fresh ids.  Both `createReport` calls
return a stored report with status pending; afterwards `dismissReport` on the first report
returns normally and leaves the second report exactly as it was, and so does
`resolveReport` on the first report, whatever its action and whatever its outcome.  For an
existing event the claim fails at its first step: whoever the reporter, `createReport`
throws `Invalid content type` for the content type event and files nothing, as for the
event `E1` of the event store. -/
theorem reports_independent (s : Store) (id1 id2 u1 u2 : ObjectId) (d1 d2 : ReportData)
    (hne : u1 ≠ u2) (hid : id1 ≠ id2)
    (hct : d2.contentType = d1.contentType) (hcid : d2.contentId = d1.contentId)
    (hex : (d1.contentType = "post"
              ∧ (findById Post._id s.posts d1.contentId).isSome = true)
            ∨ (d1.contentType = "comment"
              ∧ (findById Comment._id s.comments d1.contentId).isSome = true)
            ∨ (d1.contentType = "user"
              ∧ (findById User._id s.users d1.contentId).isSome = true))
    (hr1 : d1.reason ∈ reportReasons) (hr2 : d2.reason ∈ reportReasons)
    (hd1 : ∀ t, d1.description = some t → jsLength t ≤ 1000)
    (hd2 : ∀ t, d2.description = some t → jsLength t ≤ 1000)
    (hf1 : findById Report._id s.reports id1 = none)
    (hf2 : findById Report._id s.reports id2 = none)
    (hk1 : ¬ ∃ d ∈ s.reports, d.reporter = u1 ∧ d.contentType = d1.contentType
        ∧ d.contentId = d1.contentId)
    (hk2 : ¬ ∃ d ∈ s.reports, d.reporter = u2 ∧ d.contentType = d1.contentType
        ∧ d.contentId = d1.contentId) :
    (∃ r1 s1 r2 s2,
      ModerationService.createReport s id1 u1 d1 = (.ok r1, s1)
      ∧ ModerationService.createReport s1 id2 u2 d2 = (.ok r2, s2)
      ∧ r1.status = "pending" ∧ r2.status = "pending"
      ∧ r1.reporter = u1 ∧ r2.reporter = u2
      ∧ findById Report._id s2.reports id1 = some r1
      ∧ findById Report._id s2.reports id2 = some r2
      ∧ (∀ now adminId notes,
          (∃ r3, (ModerationService.dismissReport s2 now id1 adminId notes).1 = .ok r3
              ∧ r3.status = "dismissed")
          ∧ findById Report._id
              (ModerationService.dismissReport s2 now id1 adminId notes).2.reports id2
            = some r2)
      ∧ (∀ now newId pushRaises adminId res,
          findById Report._id
              (ModerationService.resolveReport s2 now newId pushRaises id1 adminId
                res).2.reports id2
            = some r2))
    ∧ (∀ st newId reporterId data, data.contentType = "event" →
        ModerationService.createReport st newId reporterId data
          = (.error "Invalid content type", st))
    ∧ (findById Event._id eventStore.events "E1" = some exampleEvent
        ∧ "event" ∈ reportContentTypes
        ∧ ModerationService.createReport eventStore "R1" "U1" (spamReport "event" "E1")
            = (.error "Invalid content type", eventStore)
        ∧ ModerationService.createReport eventStore "R2" "U2" (spamReport "event" "E1")
            = (.error "Invalid content type", eventStore)) := by
  have hevent : ∀ (st : Store) (newId reporterId : ObjectId) (data : ReportData),
      data.contentType = "event" →
      ModerationService.createReport st newId reporterId data
        = (.error "Invalid content type", st) := by
    intro st newId reporterId data ht
    have h1 : ¬ ("event" = "post") := by decide
    have h2 : ¬ ("event" = "comment") := by decide
    have h3 : ¬ ("event" = "user") := by decide
    simp only [ModerationService.createReport, ht, h1, h2, h3, if_false]
  refine ⟨?_, hevent, rfl, by decide, rfl, rfl⟩
  have hc1 := ModerationService.createReport_ok s id1 u1 d1 hex hr1 hd1 hf1 hk1
  have hex2 : (d2.contentType = "post"
              ∧ (findById Post._id s.posts d2.contentId).isSome = true)
            ∨ (d2.contentType = "comment"
              ∧ (findById Comment._id s.comments d2.contentId).isSome = true)
            ∨ (d2.contentType = "user"
              ∧ (findById User._id s.users d2.contentId).isSome = true) := by
    rw [hct, hcid]; exact hex
  have hf2b : findById Report._id (s.reports ++ [newReport id1 u1 d1]) id2 = none := by
    rw [findById_append_single, hf2]
    simp only [newReport, hid, if_false]
  have hk2b : ¬ ∃ d ∈ s.reports ++ [newReport id1 u1 d1],
      d.reporter = u2 ∧ d.contentType = d2.contentType ∧ d.contentId = d2.contentId := by
    rintro ⟨d, hd, h1, h2, h3⟩
    rcases List.mem_append.1 hd with hd | hd
    · exact hk2 ⟨d, hd, h1, by rw [h2, hct], by rw [h3, hcid]⟩
    · have hdeq : d = newReport id1 u1 d1 := by simpa using hd
      rw [hdeq] at h1
      exact hne h1
  have hc2 := ModerationService.createReport_ok
    { s with reports := s.reports ++ [newReport id1 u1 d1] } id2 u2 d2 hex2 hr2 hd2 hf2b hk2b
  have hfind1 : findById Report._id
      ((s.reports ++ [newReport id1 u1 d1]) ++ [newReport id2 u2 d2]) id1
      = some (newReport id1 u1 d1) := by
    rw [findById_append_single, findById_append_single, hf1]
    simp [newReport]
  have hfind2 : findById Report._id
      ((s.reports ++ [newReport id1 u1 d1]) ++ [newReport id2 u2 d2]) id2
      = some (newReport id2 u2 d2) := by
    rw [findById_append_single, hf2b]
    simp [newReport]
  refine ⟨newReport id1 u1 d1, { s with reports := s.reports ++ [newReport id1 u1 d1] },
    newReport id2 u2 d2,
    { s with reports := (s.reports ++ [newReport id1 u1 d1]) ++ [newReport id2 u2 d2] },
    hc1, hc2, rfl, rfl, rfl, rfl, hfind1, hfind2, ?_, ?_⟩
  · intro now adminId notes
    rw [ModerationService.dismissReport_eq _ now id1 adminId notes (newReport id1 u1 d1) hfind1]
    refine ⟨⟨_, rfl, rfl⟩, ?_⟩
    have hother := findById_saveDoc_other Report._id
      ((s.reports ++ [newReport id1 u1 d1]) ++ [newReport id2 u2 d2])
      { newReport id1 u1 d1 with
          status := "dismissed",
          resolution := some { action := some "none", notes := some (notes.getD ""),
                               resolvedBy := adminId, resolvedAt := now } }
      id2 (fun h => hid h.symm)
    rw [hfind2] at hother
    exact hother
  · intro now newId pushRaises adminId res
    rcases ModerationService.resolveReport_reports
        { s with reports := (s.reports ++ [newReport id1 u1 d1]) ++ [newReport id2 u2 d2] }
        now newId pushRaises id1 adminId res with h | ⟨r0, hr0, h⟩
    · rw [h]; exact hfind2
    · rw [h]
      have hk0 : r0._id = id1 := findById_key Report._id _ id1 r0 hr0
      have hother := findById_saveDoc_other Report._id
        ((s.reports ++ [newReport id1 u1 d1]) ++ [newReport id2 u2 d2])
        { r0 with
            status := "resolved",
            resolution := some { action := res.action, notes := res.notes,
                                 resolvedBy := adminId, resolvedAt := now } }
        id2 (fun h => hid (hk0.symm.trans h.symm))
      rw [hfind2] at hother
      exact hother

/-- Witness of C18: scenario C, `U1` and `U2` report the post `P1` as `R1` and `R2`. -/
theorem reports_independent_witness :
    (("U1" : ObjectId) ≠ "U2" ∧ ("R1" : ObjectId) ≠ "R2"
      ∧ (findById Post._id exampleStore.posts (spamReport "post" "P1").contentId).isSome
          = true
      ∧ (spamReport "post" "P1").reason ∈ reportReasons
      ∧ findById Report._id exampleStore.reports "R1" = none
      ∧ findById Report._id exampleStore.reports "R2" = none
      ∧ exampleStore.reports = [])
    ∧ ∃ r1 s1 r2 s2,
      ModerationService.createReport exampleStore "R1" "U1" (spamReport "post" "P1")
        = (.ok r1, s1)
      ∧ ModerationService.createReport s1 "R2" "U2" (spamReport "post" "P1") = (.ok r2, s2)
      ∧ r1.status = "pending" ∧ r2.status = "pending"
      ∧ r1.reporter = "U1" ∧ r2.reporter = "U2"
      ∧ findById Report._id s2.reports "R1" = some r1
      ∧ findById Report._id s2.reports "R2" = some r2
      ∧ (∀ now adminId notes,
          (∃ r3, (ModerationService.dismissReport s2 now "R1" adminId notes).1 = .ok r3
              ∧ r3.status = "dismissed")
          ∧ findById Report._id
              (ModerationService.dismissReport s2 now "R1" adminId notes).2.reports "R2"
            = some r2)
      ∧ (∀ now newId pushRaises adminId res,
          findById Report._id
              (ModerationService.resolveReport s2 now newId pushRaises "R1" adminId
                res).2.reports "R2"
            = some r2) :=
  ⟨⟨by decide, by decide, rfl, by decide, rfl, rfl, rfl⟩,
   (reports_independent exampleStore "R1" "R2" "U1" "U2" (spamReport "post" "P1")
     (spamReport "post" "P1") (by decide) (by decide) rfl rfl (Or.inl ⟨rfl, rfl⟩)
     (by decide) (by decide) (fun t ht => by cases ht) (fun t ht => by cases ht) rfl rfl
     (fun ⟨d, hd, _⟩ => by cases hd) (fun ⟨d, hd, _⟩ => by cases hd)).1⟩

/-! ## Report lookup and statistics: the claims -/

theorem findById_eq_none_iff {α : Type} (key : α → ObjectId) (docs : List α) (id : ObjectId) :
    findById key docs id = none ↔ ¬ ∃ d ∈ docs, key d = id := by
  simp [findById, List.find?_eq_none]

/-- The value of `getReportById` on an existing report. -/
theorem ModerationService.getReportById_some (s : Store) (reportId : ObjectId) (r : Report)
    (hr : findById Report._id s.reports reportId = some r) :
    ∃ d, ModerationService.getReportById s reportId = (.ok d, s)
      ∧ d.report.doc = r
      ∧ d.content
          = (if r.contentType = "post" then
               (findById Post._id s.posts r.contentId).map (fun p =>
                 ReportedContent.post p
                   ((findById User._id s.users p.author).map User.summaryWithEmail))
             else if r.contentType = "comment" then
               (findById Comment._id s.comments r.contentId).map (fun c =>
                 ReportedContent.comment c
                   ((findById User._id s.users c.author).map User.summaryWithEmail))
             else if r.contentType = "user" then
               (findById User._id s.users r.contentId).map ReportedContent.user
             else none) := by
  simp only [ModerationService.getReportById, hr]
  exact ⟨_, rfl, rfl, rfl⟩

/-- C19 (report detail lookup). `getReportById` throws `Report not found` if and only if no
report of the registry carries the given id, it throws nothing else, and it writes nothing;
when the report exists and its target is gone (no post, comment or user of the reported id
in the collection the content type names) it returns the report with no content. -/
theorem report_detail_lookup (s : Store) (reportId : ObjectId) :
    ((ModerationService.getReportById s reportId).1 = .error "Report not found"
        ↔ ¬ ∃ r ∈ s.reports, r._id = reportId)
    ∧ (∀ e, (ModerationService.getReportById s reportId).1 = .error e →
        e = "Report not found")
    ∧ (ModerationService.getReportById s reportId).2 = s
    ∧ (∀ r, findById Report._id s.reports reportId = some r →
        (r.contentType = "post" → findById Post._id s.posts r.contentId = none) →
        (r.contentType = "comment" → findById Comment._id s.comments r.contentId = none) →
        (r.contentType = "user" → findById User._id s.users r.contentId = none) →
        ∃ d, (ModerationService.getReportById s reportId).1 = .ok d
          ∧ d.report.doc = r ∧ d.content = none) := by
  cases hr : findById Report._id s.reports reportId with
  | none =>
    have hnone := (findById_eq_none_iff Report._id s.reports reportId).1 hr
    have hval : ModerationService.getReportById s reportId
        = (.error "Report not found", s) := by
      simp only [ModerationService.getReportById, hr]
    rw [hval]
    refine ⟨⟨fun _ => hnone, fun _ => rfl⟩, ?_, rfl, ?_⟩
    · intro e he
      have he2 : (Except.error "Report not found" : Except String ReportDetail)
          = Except.error e := he
      simp only [Except.error.injEq] at he2
      exact he2.symm
    · intro r h; cases h
  | some r =>
    have hsome : ∃ d ∈ s.reports, d._id = reportId := by
      by_contra hcon
      rw [(findById_eq_none_iff Report._id s.reports reportId).2 hcon] at hr
      cases hr
    obtain ⟨d, hd, hdoc, hcontent⟩ := ModerationService.getReportById_some s reportId r hr
    rw [hd]
    refine ⟨⟨fun h => ?_, fun h => absurd hsome h⟩, ?_, rfl, ?_⟩
    · have h2 : (Except.ok d : Except String ReportDetail)
          = Except.error "Report not found" := h
      cases h2
    · intro e he
      have h2 : (Except.ok d : Except String ReportDetail) = Except.error e := he
      cases h2
    · intro r0 h0 hp hc hu
      cases h0
      refine ⟨d, rfl, hdoc, ?_⟩
      rw [hcontent]
      by_cases h1 : r.contentType = "post"
      · rw [if_pos h1, hp h1]; rfl
      · by_cases h2 : r.contentType = "comment"
        · rw [if_neg h1, if_pos h2, hc h2]; rfl
        · by_cases h3 : r.contentType = "user"
          · rw [if_neg h1, if_neg h2, if_pos h3, hu h3]; rfl
          · rw [if_neg h1, if_neg h2, if_neg h3]

/-- Witness of C19: the report `R1` of the deleted-post store is returned without content,
and the unknown id `R0` is answered with `Report not found`. -/
theorem report_detail_lookup_witness :
    (findById Report._id deletedPostStore.reports "R1"
        = some (exampleReport "R1" "post" "P1")
      ∧ findById Post._id deletedPostStore.posts (exampleReport "R1" "post" "P1").contentId
          = none)
    ∧ (∃ d, (ModerationService.getReportById deletedPostStore "R1").1 = .ok d
          ∧ d.report.doc = exampleReport "R1" "post" "P1" ∧ d.content = none)
    ∧ ((ModerationService.getReportById deletedPostStore "R0").1 = .error "Report not found"
        ↔ ¬ ∃ r ∈ deletedPostStore.reports, r._id = "R0") :=
  ⟨⟨rfl, rfl⟩,
   (report_detail_lookup deletedPostStore "R1").2.2.2 (exampleReport "R1" "post" "P1") rfl
     (fun _ => rfl) (fun h => absurd h (by decide)) (fun h => absurd h (by decide)),
   (report_detail_lookup deletedPostStore "R0").1⟩

/-- The three totals and the uncounted reports partition the registry. -/
theorem countByStatus_partition (reports : List Report) :
    countByStatus reports "pending" + countByStatus reports "resolved"
        + countByStatus reports "dismissed" + countUncounted reports
      = reports.length := by
  induction reports with
  | nil => rfl
  | cons r rs ih =>
    simp only [countByStatus, countUncounted, List.filter_cons, List.length_cons] at ih ⊢
    by_cases h1 : r.status = "pending"
    · simp only [h1, beq_self_eq_true, Bool.true_or, Bool.not_true, if_true,
        List.length_cons]
      have e1 : (("pending" : String) == "resolved") = false := by decide
      have e2 : (("pending" : String) == "dismissed") = false := by decide
      simp only [e1, e2, Bool.false_eq_true, if_false]
      omega
    · by_cases h2 : r.status = "resolved"
      · simp only [h2, beq_self_eq_true, Bool.true_or, Bool.or_true, Bool.not_true, if_true,
          List.length_cons]
        have e1 : (("resolved" : String) == "pending") = false := by decide
        have e2 : (("resolved" : String) == "dismissed") = false := by decide
        simp only [e1, e2, Bool.false_eq_true, if_false]
        omega
      · by_cases h3 : r.status = "dismissed"
        · simp only [h3, beq_self_eq_true, Bool.or_true, Bool.not_true, if_true,
            List.length_cons]
          have e1 : (("dismissed" : String) == "pending") = false := by decide
          have e2 : (("dismissed" : String) == "resolved") = false := by decide
          simp only [e1, e2, Bool.false_eq_true, if_false]
          omega
        · have e1 : (r.status == "pending") = false := by simpa using h1
          have e2 : (r.status == "resolved") = false := by simpa using h2
          have e3 : (r.status == "dismissed") = false := by simpa using h3
          simp only [e1, e2, e3, Bool.or_self, Bool.not_false, Bool.false_eq_true, if_false,
            if_true, List.length_cons]
          omega

theorem countUncounted_eq_zero (reports : List Report)
    (h : ∀ r ∈ reports, r.status = "pending" ∨ r.status = "resolved"
      ∨ r.status = "dismissed") :
    countUncounted reports = 0 := by
  unfold countUncounted
  rw [List.length_eq_zero, List.filter_eq_nil_iff]
  intro r hr
  rcases h r hr with h1 | h1 | h1 <;> simp [h1]

/-- C20, counterexample. The reviewing store holds four reports, one of each status the
schema declares; `getModerationStats` returns the totals 1, 1 and 1, whose sum 3 is not the
number of reports. -/
theorem stats_miss_reviewing :
    reviewingStore.reports.length = 4
    ∧ reviewingStore.reports.map Report.status
        = ["pending", "reviewing", "resolved", "dismissed"]
    ∧ (ModerationService.getModerationStats reviewingStore).1.map ModerationStats.totals
        = .ok { pending := 1, resolved := 1, dismissed := 1 }
    ∧ (1 : Nat) + 1 + 1 ≠ reviewingStore.reports.length :=
  ⟨rfl, rfl, rfl, by decide⟩

/-- C20, amended. `getModerationStats` always returns and writes nothing; its three totals
count the reports with status pending, resolved and dismissed, so together with the reports
of any other status (reviewing) they add up to the number of reports.  The three totals
alone add up to the number of reports exactly when no report has another status, which is
the case in every registry reachable by `createReport`, `resolveReport` and
`dismissReport`. -/
theorem stats_sum (s : Store) :
    ∃ st, ModerationService.getModerationStats s = (.ok st, s)
      ∧ st.totals.pending + st.totals.resolved + st.totals.dismissed
            + countUncounted s.reports = s.reports.length
      ∧ (st.totals.pending + st.totals.resolved + st.totals.dismissed = s.reports.length
          ↔ countUncounted s.reports = 0)
      ∧ ((∀ r ∈ s.reports, r.status = "pending" ∨ r.status = "resolved"
              ∨ r.status = "dismissed") →
          st.totals.pending + st.totals.resolved + st.totals.dismissed = s.reports.length)
      ∧ (ModerationService.Reachable s →
          st.totals.pending + st.totals.resolved + st.totals.dismissed
            = s.reports.length) := by
  have hpart := countByStatus_partition s.reports
  have hall : (∀ r ∈ s.reports, r.status = "pending" ∨ r.status = "resolved"
      ∨ r.status = "dismissed") →
      countByStatus s.reports "pending" + countByStatus s.reports "resolved"
        + countByStatus s.reports "dismissed" = s.reports.length := by
    intro h
    have h0 := countUncounted_eq_zero s.reports h
    omega
  have hiff : (countByStatus s.reports "pending" + countByStatus s.reports "resolved"
        + countByStatus s.reports "dismissed" = s.reports.length
      ↔ countUncounted s.reports = 0) := by
    constructor <;> intro h <;> omega
  refine ⟨_, rfl, hpart, hiff, hall, ?_⟩
  intro hreach
  exact hall (fun r hr => (ModerationService.Reachable.wellResolved s hreach r hr).1)

/-- Witness of the amended C20: the reviewing store, where one report is uncounted, and the
resolved store, whose reports are all counted. -/
theorem stats_sum_witness :
    countUncounted reviewingStore.reports = 1
    ∧ (∀ r ∈ resolvedStore.reports, r.status = "pending" ∨ r.status = "resolved"
        ∨ r.status = "dismissed")
    ∧ (∃ st, ModerationService.getModerationStats reviewingStore = (.ok st, reviewingStore)
        ∧ st.totals.pending + st.totals.resolved + st.totals.dismissed
            + countUncounted reviewingStore.reports = reviewingStore.reports.length) :=
  ⟨rfl, by decide,
   (stats_sum reviewingStore).imp fun _ h => ⟨h.1, h.2.1⟩⟩

/-! ## Lemmas on the delivery methods -/

/-- The selection of `createNotification`, read off the three preference values. -/
theorem NotificationService.selectDeliveryMethods_eq (user : User) :
    NotificationService.selectDeliveryMethods user
      = (if user.prefInApp ≠ some false then
            [{ method := "inApp", status := "pending", sentAt := none, error := none }]
          else [])
        ++ (if user.prefEmail = some true then
            [{ method := "email", status := "pending", sentAt := none, error := none }]
          else [])
        ++ (if user.prefSms = some true then
            [{ method := "sms", status := "pending", sentAt := none, error := none }]
          else []) := by
  unfold NotificationService.selectDeliveryMethods User.prefInApp User.prefEmail User.prefSms
  cases hp : user.preferences with
  | none => rfl
  | some p =>
    cases hn : p.notifications with
    | none => simp [hn]
    | some q => simp [hn]

/-- What a successful `createNotification` has built. -/
theorem NotificationService.createNotification_of_ok (s s1 : Store) (now : Date)
    (newId : ObjectId) (pushRaises : Bool) (recipientId : ObjectId) (data : NotificationData)
    (n : Notification)
    (hok : NotificationService.createNotification s now newId pushRaises recipientId data
        = (.ok n, s1)) :
    ∃ user, findById User._id s.users recipientId = some user
      ∧ n.recipient = recipientId
      ∧ n.deliveryMethods
          = (if pushRaises then NotificationService.selectDeliveryMethods user
             else markInAppSent now (NotificationService.selectDeliveryMethods user))
      ∧ s1 = { s with notifications := s.notifications ++ [n] }
      ∧ (NotificationService.newNotification newId recipientId data user).valid = true
      ∧ findById Notification._id s.notifications newId = none := by
  cases hu : findById User._id s.users recipientId with
  | none => simp [NotificationService.createNotification, hu] at hok
  | some user =>
    by_cases hv : (NotificationService.newNotification newId recipientId data user).valid
        = true
    · cases hf : findById Notification._id s.notifications newId with
      | none =>
        obtain ⟨n1, hn1, _, hrec, _, _, _, _, hdm⟩ :=
          NotificationService.createNotification_ok s now newId pushRaises recipientId data
            user hu hv hf
        rw [hn1] at hok
        simp only [Prod.mk.injEq, Except.ok.injEq] at hok
        obtain ⟨h1, h2⟩ := hok
        subst h1
        exact ⟨user, rfl, hrec, hdm, h2.symm, hv, rfl⟩
      | some x =>
        unfold NotificationService.newNotification at hv
        simp [NotificationService.createNotification, hu, hv, hf] at hok
    · unfold NotificationService.newNotification at hv
      simp [NotificationService.createNotification, hu, hv] at hok

theorem markInAppSent_methods (now : Date) (ds : List DeliveryMethod) :
    (markInAppSent now ds).map DeliveryMethod.method = ds.map DeliveryMethod.method := by
  induction ds with
  | nil => rfl
  | cons d rest ih =>
    rw [markInAppSent]
    by_cases h : d.method = "inApp"
    · simp [h]
    · simp [h, ih]

/-- The method names of a notification `createNotification` has built. -/
theorem NotificationService.createNotification_methods (s s1 : Store) (now : Date)
    (newId : ObjectId) (pushRaises : Bool) (recipientId : ObjectId) (data : NotificationData)
    (user : User) (n : Notification)
    (hu : findById User._id s.users recipientId = some user)
    (hok : NotificationService.createNotification s now newId pushRaises recipientId data
        = (.ok n, s1)) :
    n.deliveryMethods.map DeliveryMethod.method
      = (if user.prefInApp ≠ some false then ["inApp"] else [])
        ++ (if user.prefEmail = some true then ["email"] else [])
        ++ (if user.prefSms = some true then ["sms"] else []) := by
  obtain ⟨u, hu2, _, hdm, _, _, _⟩ :=
    NotificationService.createNotification_of_ok s s1 now newId pushRaises recipientId data n hok
  rw [hu] at hu2
  cases hu2
  rw [hdm]
  have hsel : (NotificationService.selectDeliveryMethods user).map DeliveryMethod.method
      = (if user.prefInApp ≠ some false then ["inApp"] else [])
        ++ (if user.prefEmail = some true then ["email"] else [])
        ++ (if user.prefSms = some true then ["sms"] else []) := by
    rw [NotificationService.selectDeliveryMethods_eq]
    split_ifs <;> rfl
  cases pushRaises with
  | true => simpa using hsel
  | false =>
    simp only [Bool.false_eq_true, if_false]
    rw [markInAppSent_methods, hsel]

/-! ## Notification dispatcher: the claims -/

/-- C21 (delivery-method selection). For every existing recipient, the notification that
`createNotification` returns lists the method inApp if and only if the recipient's inApp
preference is not explicitly false, email if and only if the email preference is true, sms
if and only if the sms preference is true; the listed methods form a sublist of inApp,
email, sms, so each occurs at most once and they appear in that order. -/
theorem delivery_method_selection (s s1 : Store) (now : Date) (newId : ObjectId)
    (pushRaises : Bool) (recipientId : ObjectId) (data : NotificationData) (user : User)
    (n : Notification) (hu : findById User._id s.users recipientId = some user)
    (hok : NotificationService.createNotification s now newId pushRaises recipientId data
        = (.ok n, s1)) :
    ("inApp" ∈ n.deliveryMethods.map DeliveryMethod.method ↔ user.prefInApp ≠ some false)
    ∧ ("email" ∈ n.deliveryMethods.map DeliveryMethod.method ↔ user.prefEmail = some true)
    ∧ ("sms" ∈ n.deliveryMethods.map DeliveryMethod.method ↔ user.prefSms = some true)
    ∧ (n.deliveryMethods.map DeliveryMethod.method).Nodup
    ∧ (n.deliveryMethods.map DeliveryMethod.method).Sublist ["inApp", "email", "sms"] := by
  rw [NotificationService.createNotification_methods s s1 now newId pushRaises recipientId
    data user n hu hok]
  by_cases h1 : user.prefInApp = some false <;> by_cases h2 : user.prefEmail = some true
    <;> by_cases h3 : user.prefSms = some true
    <;> simp only [ne_eq, h1, h2, h3, not_true_eq_false, not_false_eq_true, if_true, if_false]
    <;> decide

/-- Witness of C21: an alert for the citizen `U1`, whose preferences are the schema defaults
(inApp and email on, sms off). -/
theorem delivery_method_selection_witness :
    (findById User._id preferenceStore.users "U1" = some (exampleUser "U1")
      ∧ (NotificationService.createNotification preferenceStore 30 "N1" false "U1"
            alertData).2.notifications.map
          (fun n => n.deliveryMethods.map DeliveryMethod.method)
          = [["inApp", "email"]])
    ∧ ∃ n s1,
      NotificationService.createNotification preferenceStore 30 "N1" false "U1" alertData
        = (.ok n, s1)
      ∧ ("inApp" ∈ n.deliveryMethods.map DeliveryMethod.method
          ↔ (exampleUser "U1").prefInApp ≠ some false)
      ∧ ("email" ∈ n.deliveryMethods.map DeliveryMethod.method
          ↔ (exampleUser "U1").prefEmail = some true)
      ∧ ("sms" ∈ n.deliveryMethods.map DeliveryMethod.method
          ↔ (exampleUser "U1").prefSms = some true)
      ∧ (n.deliveryMethods.map DeliveryMethod.method).Nodup
      ∧ (n.deliveryMethods.map DeliveryMethod.method).Sublist ["inApp", "email", "sms"] :=
  ⟨⟨rfl, rfl⟩,
   ⟨_, _, rfl,
    delivery_method_selection preferenceStore _ 30 "N1" false "U1" alertData
      (exampleUser "U1") _ rfl rfl⟩⟩

/-- C22, counterexample. The citizen `U3` exists and has stored the preference values inApp
false, email false and sms false; the notification `createNotification` creates for `U3`
has an empty deliveryMethods list, so the inApp method is not attempted. -/
theorem in_app_not_attempted_when_disabled :
    findById User._id preferenceStore.users "U3" = some (mutedUser "U3")
    ∧ (mutedUser "U3").prefInApp = some false
    ∧ ∃ n,
      (NotificationService.createNotification preferenceStore 30 "N1" false "U3" alertData).1
        = .ok n
      ∧ n.recipient = "U3"
      ∧ n.deliveryMethods = []
      ∧ "inApp" ∉ n.deliveryMethods.map DeliveryMethod.method :=
  ⟨rfl, rfl, _, rfl, rfl, rfl, by decide⟩

/-- C22, amended. For every existing recipient whose stored inApp preference is not
explicitly false (it is unset, as with the schema default, or true), the notification that
`createNotification` returns has a non-empty deliveryMethods list that includes the inApp
method; when the preference is explicitly false the inApp method is left out, and the list
is empty exactly when in addition neither email nor sms is enabled. -/
theorem in_app_unless_disabled (s s1 : Store) (now : Date) (newId : ObjectId)
    (pushRaises : Bool) (recipientId : ObjectId) (data : NotificationData) (user : User)
    (n : Notification) (hu : findById User._id s.users recipientId = some user)
    (hok : NotificationService.createNotification s now newId pushRaises recipientId data
        = (.ok n, s1)) :
    (user.prefInApp ≠ some false →
        "inApp" ∈ n.deliveryMethods.map DeliveryMethod.method ∧ n.deliveryMethods ≠ [])
    ∧ (user.prefInApp = some false →
        "inApp" ∉ n.deliveryMethods.map DeliveryMethod.method)
    ∧ (n.deliveryMethods = []
        ↔ (user.prefInApp = some false ∧ user.prefEmail ≠ some true
            ∧ user.prefSms ≠ some true)) := by
  have hm := NotificationService.createNotification_methods s s1 now newId pushRaises
    recipientId data user n hu hok
  have hnil : n.deliveryMethods = [] ↔ n.deliveryMethods.map DeliveryMethod.method = [] := by
    simp
  rw [hnil, hm]
  have hne : n.deliveryMethods ≠ [] ↔ n.deliveryMethods.map DeliveryMethod.method ≠ [] := by
    simp
  rw [hne, hm]
  by_cases h1 : user.prefInApp = some false <;> by_cases h2 : user.prefEmail = some true
    <;> by_cases h3 : user.prefSms = some true
    <;> simp [h1, h2, h3]

/-- Witness of the amended C22: the default citizen `U1` gets the inApp method, the muted
citizen `U3` gets none. -/
theorem in_app_unless_disabled_witness :
    (findById User._id preferenceStore.users "U1" = some (exampleUser "U1")
      ∧ (exampleUser "U1").prefInApp ≠ some false)
    ∧ ∃ n s1,
      NotificationService.createNotification preferenceStore 30 "N1" true "U1" alertData
        = (.ok n, s1)
      ∧ "inApp" ∈ n.deliveryMethods.map DeliveryMethod.method ∧ n.deliveryMethods ≠ [] :=
  ⟨⟨rfl, by decide⟩,
   ⟨_, _, rfl,
    (in_app_unless_disabled preferenceStore _ 30 "N1" true "U1" alertData (exampleUser "U1") _
      rfl rfl).1 (by decide)⟩⟩

/-- Every method `createNotification` selects starts pending, without send date. -/
theorem NotificationService.selectDeliveryMethods_pending (user : User) :
    ∀ d ∈ NotificationService.selectDeliveryMethods user,
      d.status = "pending" ∧ d.sentAt = none := by
  rw [NotificationService.selectDeliveryMethods_eq]
  by_cases h1 : user.prefInApp = some false <;> by_cases h2 : user.prefEmail = some true
    <;> by_cases h3 : user.prefSms = some true
    <;> simp [h1, h2, h3]

/-- After the mark-as-sent step every inApp method is sent at the clock value and every
other method is as selected. -/
theorem NotificationService.markInAppSent_select (now : Date) (user : User) :
    ∀ d ∈ markInAppSent now (NotificationService.selectDeliveryMethods user),
      (d.method = "inApp" → d.status = "sent" ∧ d.sentAt = some now)
      ∧ (d.method ≠ "inApp" → d.status = "pending" ∧ d.sentAt = none) := by
  rw [NotificationService.selectDeliveryMethods_eq]
  by_cases h1 : user.prefInApp = some false <;> by_cases h2 : user.prefEmail = some true
    <;> by_cases h3 : user.prefSms = some true
    <;> simp [h1, h2, h3, markInAppSent]

/-- C23 (delivery state after notify). In the notification `createNotification` returns,
every email and sms method has status pending; the inApp method has status sent with sentAt
set to the clock when the push did not throw, and status pending when the push threw; no
method has status failed.  Whenever the call returns a notification, the same call with a
throwing push also returns one, all of whose methods are pending. -/
theorem delivery_state (s s1 : Store) (now : Date) (newId : ObjectId) (pushRaises : Bool)
    (recipientId : ObjectId) (data : NotificationData) (n : Notification)
    (hok : NotificationService.createNotification s now newId pushRaises recipientId data
        = (.ok n, s1)) :
    (∀ d ∈ n.deliveryMethods,
        ((d.method = "email" ∨ d.method = "sms") → d.status = "pending" ∧ d.sentAt = none)
        ∧ (d.method = "inApp" →
            (pushRaises = false → d.status = "sent" ∧ d.sentAt = some now)
            ∧ (pushRaises = true → d.status = "pending" ∧ d.sentAt = none))
        ∧ d.status ≠ "failed")
    ∧ ∃ n2 s2,
        NotificationService.createNotification s now newId true recipientId data = (.ok n2, s2)
        ∧ (∀ d ∈ n2.deliveryMethods, d.status = "pending")
        ∧ n2.deliveryMethods.map DeliveryMethod.method
            = n.deliveryMethods.map DeliveryMethod.method := by
  obtain ⟨user, hu, _, hdm, _, hv, hf⟩ :=
    NotificationService.createNotification_of_ok s s1 now newId pushRaises recipientId data n hok
  constructor
  · intro d hd
    rw [hdm] at hd
    cases pushRaises with
    | true =>
      simp only [if_true] at hd
      obtain ⟨h1, h2⟩ := NotificationService.selectDeliveryMethods_pending user d hd
      refine ⟨fun _ => ⟨h1, h2⟩, fun _ => ⟨(fun h => Bool.noConfusion h), fun _ => ⟨h1, h2⟩⟩, ?_⟩
      rw [h1]; decide
    | false =>
      simp only [Bool.false_eq_true, if_false] at hd
      obtain ⟨h1, h2⟩ := NotificationService.markInAppSent_select now user d hd
      refine ⟨?_, fun h => ⟨fun _ => h1 h, (fun h => Bool.noConfusion h)⟩, ?_⟩
      · intro hm
        apply h2
        rcases hm with hm | hm <;> rw [hm] <;> decide
      · by_cases hm : d.method = "inApp"
        · rw [(h1 hm).1]; decide
        · rw [(h2 hm).1]; decide
  · obtain ⟨n2, hn2, _, _, _, _, _, _, hdm2⟩ :=
      NotificationService.createNotification_ok s now newId true recipientId data user hu hv hf
    refine ⟨n2, _, hn2, ?_, ?_⟩
    · intro d hd
      rw [hdm2] at hd
      simp only [if_true] at hd
      exact (NotificationService.selectDeliveryMethods_pending user d hd).1
    · rw [hdm2, hdm]
      cases pushRaises with
      | true => rfl
      | false =>
        simp only [Bool.false_eq_true, if_false, if_true]
        rw [markInAppSent_methods]

/-- Witness of C23: an alert for the eager citizen `U4`, whose three methods are all
selected, with a push that goes through. -/
theorem delivery_state_witness :
    (NotificationService.createNotification preferenceStore 30 "N1" false "U4" alertData).1.map
        Notification.deliveryMethods
      = .ok [{ method := "inApp", status := "sent", sentAt := some 30, error := none },
             { method := "email", status := "pending", sentAt := none, error := none },
             { method := "sms", status := "pending", sentAt := none, error := none }]
    ∧ ∃ n s1,
      NotificationService.createNotification preferenceStore 30 "N1" false "U4" alertData
        = (.ok n, s1)
      ∧ (∀ d ∈ n.deliveryMethods,
          ((d.method = "email" ∨ d.method = "sms") → d.status = "pending" ∧ d.sentAt = none)
          ∧ (d.method = "inApp" →
              (false = false → d.status = "sent" ∧ d.sentAt = some 30)
              ∧ (false = true → d.status = "pending" ∧ d.sentAt = none))
          ∧ d.status ≠ "failed")
      ∧ ∃ n2 s2,
          NotificationService.createNotification preferenceStore 30 "N1" true "U4" alertData
            = (.ok n2, s2)
          ∧ (∀ d ∈ n2.deliveryMethods, d.status = "pending")
          ∧ n2.deliveryMethods.map DeliveryMethod.method
              = n.deliveryMethods.map DeliveryMethod.method :=
  ⟨rfl,
   ⟨_, _, rfl,
    delivery_state preferenceStore _ 30 "N1" false "U4" alertData _ rfl⟩⟩

/-! ## Vote frame -/

theorem Votes.length_filter_ne (l : List ObjectId) (v : String) :
    (l.filter (fun id => id != v)).length + l.count v = l.length := by
  induction l with
  | nil => rfl
  | cons x xs ih =>
    by_cases h : x = v
    · subst h
      simp only [List.filter_cons, bne_self_eq_false, Bool.false_eq_true, if_false,
        List.count_cons_self, List.length_cons]
      omega
    · have hb : (x != v) = true := by simpa using h
      have hc : (x == v) = false := by simpa using h
      simp only [List.filter_cons, hb, if_true, List.length_cons, List.count_cons, hc,
        Bool.false_eq_true, if_false]
      omega

/-- The frame of the vote computation: the entries of the other voters are kept, in order,
and the lengths change by the removed entries of the voter and the one pushed. -/
theorem Votes.cast_frame (vs : Votes) (v d : String) :
    (vs.cast v d).up.filter (fun id => id != v) = vs.up.filter (fun id => id != v)
    ∧ (vs.cast v d).down.filter (fun id => id != v) = vs.down.filter (fun id => id != v)
    ∧ (vs.cast v d).up.length + vs.up.count v
        = vs.up.length + (if d = "up" then 1 else 0)
    ∧ (vs.cast v d).down.length + vs.down.count v
        = vs.down.length + (if d ≠ "up" ∧ d = "down" then 1 else 0) := by
  have hu := Votes.length_filter_ne vs.up v
  have hd := Votes.length_filter_ne vs.down v
  by_cases h1 : d = "up"
  · subst h1
    rw [(Votes.cast_up vs v).1, (Votes.cast_up vs v).2]
    refine ⟨by simp [List.filter_append, List.filter_filter],
      by simp [List.filter_filter], ?_, ?_⟩
    · simp only [List.length_append, List.length_singleton, if_true]; omega
    · simp only [ne_eq, not_true_eq_false, false_and, if_false]; omega
  · by_cases h2 : d = "down"
    · subst h2
      rw [(Votes.cast_down vs v).1, (Votes.cast_down vs v).2]
      refine ⟨by simp [List.filter_filter],
        by simp [List.filter_append, List.filter_filter], ?_, ?_⟩
      · simp only [h1, if_false]; omega
      · simp only [List.length_append, List.length_singleton, ne_eq, h1, not_false_eq_true,
          and_self, if_true]
        omega
    · rw [(Votes.cast_other vs v d h1 h2).1, (Votes.cast_other vs v d h1 h2).2]
      refine ⟨by simp [List.filter_filter], by simp [List.filter_filter], ?_, ?_⟩
      · simp only [h1, if_false]; omega
      · simp only [h2, and_false, if_false]; omega

/-- C27 (vote frame). On an existing post, `votePost` by voter `v` returns and stores lists
in which the entries of every other voter are the same as before and in the same relative
order (the lists with the entries of `v` filtered out are unchanged), so every other voter
keeps its membership; the length of each list is the old length minus the entries of `v`
that were removed, plus one when `v` was pushed on that list.  The same holds for
`voteComment` on an existing comment. -/
theorem vote_frame (s : Store) (now : Date) (v d : String) :
    (∀ postId p, findById Post._id s.posts postId = some p →
      ∃ r s1 p1, ContentService.votePost s now postId v d = (.ok r, s1)
        ∧ findById Post._id s1.posts postId = some p1
        ∧ p1.votes.up.filter (fun id => id != v) = p.votes.up.filter (fun id => id != v)
        ∧ p1.votes.down.filter (fun id => id != v) = p.votes.down.filter (fun id => id != v)
        ∧ (∀ w, w ≠ v → ((w ∈ p1.votes.up ↔ w ∈ p.votes.up)
            ∧ (w ∈ p1.votes.down ↔ w ∈ p.votes.down)))
        ∧ p1.votes.up.length + p.votes.up.count v
            = p.votes.up.length + (if d = "up" then 1 else 0)
        ∧ p1.votes.down.length + p.votes.down.count v
            = p.votes.down.length + (if d ≠ "up" ∧ d = "down" then 1 else 0))
    ∧ (∀ commentId c, findById Comment._id s.comments commentId = some c →
      ∃ r s1 c1, CommentService.voteComment s commentId v d = (.ok r, s1)
        ∧ findById Comment._id s1.comments commentId = some c1
        ∧ c1.votes.up.filter (fun id => id != v) = c.votes.up.filter (fun id => id != v)
        ∧ c1.votes.down.filter (fun id => id != v) = c.votes.down.filter (fun id => id != v)
        ∧ (∀ w, w ≠ v → ((w ∈ c1.votes.up ↔ w ∈ c.votes.up)
            ∧ (w ∈ c1.votes.down ↔ w ∈ c.votes.down)))
        ∧ c1.votes.up.length + c.votes.up.count v
            = c.votes.up.length + (if d = "up" then 1 else 0)
        ∧ c1.votes.down.length + c.votes.down.count v
            = c.votes.down.length + (if d ≠ "up" ∧ d = "down" then 1 else 0)) := by
  have hmem : ∀ (l1 l2 : List ObjectId),
      l1.filter (fun id => id != v) = l2.filter (fun id => id != v) →
      ∀ w, w ≠ v → (w ∈ l1 ↔ w ∈ l2) := by
    intro l1 l2 h w hw
    have h1 : w ∈ l1.filter (fun id => id != v) ↔ w ∈ l1 := by simp [List.mem_filter, hw]
    have h2 : w ∈ l2.filter (fun id => id != v) ↔ w ∈ l2 := by simp [List.mem_filter, hw]
    rw [← h1, ← h2, h]
  constructor
  · intro postId p hp
    obtain ⟨s1, r, p1, h1, hp1, hv1, _⟩ := ContentService.votePost_ok s now postId p v d hp
    obtain ⟨f1, f2, f3, f4⟩ := Votes.cast_frame p.votes v d
    rw [← hv1] at f1 f2 f3 f4
    exact ⟨r, s1, p1, h1, hp1, f1, f2,
      fun w hw => ⟨hmem _ _ f1 w hw, hmem _ _ f2 w hw⟩, f3, f4⟩
  · intro commentId c hc
    obtain ⟨s1, r, c1, h1, hc1, hv1, _⟩ := CommentService.voteComment_ok s commentId c v d hc
    obtain ⟨f1, f2, f3, f4⟩ := Votes.cast_frame c.votes v d
    rw [← hv1] at f1 f2 f3 f4
    exact ⟨r, s1, c1, h1, hc1, f1, f2,
      fun w hw => ⟨hmem _ _ f1 w hw, hmem _ _ f2 w hw⟩, f3, f4⟩

/-- Witness of C27: `U2` votes down on the post `P1` of the double-voted store, where `U3`
has voted up. -/
theorem vote_frame_witness :
    findById Post._id doubleVotedStore.posts "P1"
        = some { examplePost with votes := { up := ["U2", "U3"], down := ["U2"] } }
    ∧ ∃ r s1 p1, ContentService.votePost doubleVotedStore 10 "P1" "U2" "down" = (.ok r, s1)
        ∧ findById Post._id s1.posts "P1" = some p1
        ∧ p1.votes.up.filter (fun id => id != "U2") = ["U3"]
        ∧ p1.votes.down.filter (fun id => id != "U2") = []
        ∧ p1.votes.up.length + 1 = 2 + 0
        ∧ p1.votes.down.length + 1 = 1 + 1 :=
  have h := (vote_frame doubleVotedStore 10 "U2" "down").1 "P1"
    { examplePost with votes := { up := ["U2", "U3"], down := ["U2"] } } rfl
  ⟨rfl, h.imp fun _ h => h.imp fun _ h => h.imp fun _ h =>
    ⟨h.1, h.2.1, h.2.2.1, h.2.2.2.1, h.2.2.2.2.2.1, h.2.2.2.2.2.2⟩⟩

/-! ## Suspension target -/

/-- C28 (suspension targets the reported id). For every existing report, in particular one
whose content type is post or comment, `resolveReport` with action `user_suspended` or
`user_banned` returns normally and looks the user up by the report's contentId: every user
with another id is found unchanged; when a user carries the reported id, that one user has
isActive set to false and the users collection is otherwise as before; when no user carries
it, the users collection is unchanged.  The author of the reported post or comment is
therefore found unchanged (and stays active) unless the author's id is the reported id; the
posts and comments collections are unchanged. -/
theorem suspension_targets_reported_id (s : Store) (now : Date) (newId : ObjectId)
    (pushRaises : Bool) (reportId adminId : ObjectId) (notes : Option String) (r : Report)
    (a : String) (hr : findById Report._id s.reports reportId = some r)
    (ha : a = "user_suspended" ∨ a = "user_banned") :
    ∃ r1 s1,
      ModerationService.resolveReport s now newId pushRaises reportId adminId
          { action := some a, notes := notes } = (.ok r1, s1)
      ∧ (∀ id, id ≠ r.contentId → findById User._id s1.users id = findById User._id s.users id)
      ∧ (∀ u, findById User._id s.users r.contentId = some u →
          ∃ pre suf, s.users = pre ++ u :: suf ∧ (∀ q ∈ pre, q._id ≠ r.contentId)
            ∧ s1.users = pre ++ { u with isActive := false } :: suf)
      ∧ (findById User._id s.users r.contentId = none → s1.users = s.users)
      ∧ (∀ p, r.contentType = "post" → findById Post._id s.posts r.contentId = some p →
          p.author ≠ r.contentId →
          findById User._id s1.users p.author = findById User._id s.users p.author)
      ∧ (∀ c, r.contentType = "comment" →
          findById Comment._id s.comments r.contentId = some c → c.author ≠ r.contentId →
          findById User._id s1.users c.author = findById User._id s.users c.author)
      ∧ s1.posts = s.posts ∧ s1.comments = s.comments := by
  have hother : ∀ id, id ≠ r.contentId →
      findById User._id (findByIdAndUpdate User._id s.users r.contentId
        (fun u => { u with isActive := false })) id = findById User._id s.users id :=
    fun id hne => findById_findByIdAndUpdate_other User._id s.users r.contentId id
      (fun u => { u with isActive := false }) (fun d hd => hd) hne
  refine ⟨_, _,
    ModerationService.resolveReport_deactivate s now newId pushRaises reportId adminId notes r
      a hr ha,
    hother, ?_, ?_, fun p _ _ hne => hother p.author hne,
    fun c _ _ hne => hother c.author hne, rfl, rfl⟩
  · intro u hu
    exact findByIdAndUpdate_split User._id s.users r.contentId
      (fun u => { u with isActive := false }) u hu
  · intro hnone
    exact findByIdAndUpdate_none User._id s.users r.contentId
      (fun u => { u with isActive := false }) hnone

/-- Witness of C28: in scenario A the report `R1` against the post `P1` is resolved with
`user_suspended`; no user has the id `P1`, and the author `U1` stays as before. -/
theorem suspension_targets_reported_id_witness :
    (findById Report._id scenarioAStore.reports "R1" = some (exampleReport "R1" "post" "P1")
      ∧ findById User._id scenarioAStore.users (exampleReport "R1" "post" "P1").contentId
          = none)
    ∧ ∃ r1 s1,
      ModerationService.resolveReport scenarioAStore 5 "N1" false "R1" "M1"
          { action := some "user_suspended", notes := none } = (.ok r1, s1)
      ∧ s1.users = scenarioAStore.users
      ∧ findById User._id s1.users examplePost.author = some (exampleUser "U1")
      ∧ (exampleUser "U1").isActive = true :=
  have h := suspension_targets_reported_id scenarioAStore 5 "N1" false "R1" "M1" none
    (exampleReport "R1" "post" "P1") "user_suspended" rfl (Or.inl rfl)
  ⟨⟨rfl, rfl⟩,
   h.imp fun _ h => h.imp fun _ h =>
    ⟨h.1, h.2.2.2.1 rfl,
     (h.2.2.2.2.1 examplePost rfl rfl (by decide)).trans rfl, rfl⟩⟩

/-! ## Bulk notification -/

/-- The schema accepts the document built for a recipient exactly when it accepts the data
argument. -/
theorem NotificationService.newNotification_valid (newId recipientId : ObjectId)
    (data : NotificationData) (user : User) :
    (NotificationService.newNotification newId recipientId data user).valid = data.valid := by
  have hd := NotificationService.selectDeliveryMethods_valid user
  simp only [NotificationService.newNotification, Notification.valid, NotificationData.valid,
    hd, Bool.and_true]

theorem filterMap_some_cons {α : Type} (a : α) (l : List (Option α)) :
    (some a :: l).filterMap (fun x => x) = a :: l.filterMap (fun x => x) := rfl

theorem filterMap_none_cons {α : Type} (l : List (Option α)) :
    ((none : Option α) :: l).filterMap (fun x => x) = l.filterMap (fun x => x) := rfl

/-- The inductive step of the bulk claim: with valid data and fresh, pairwise distinct
generated ids, the settled array holds a notification exactly at the positions of the ids
of existing users. -/
theorem NotificationService.settleAll_spec (now : Date) (gen : Nat → ObjectId)
    (pushRaises : Nat → Bool) (data : NotificationData) (hvalid : data.valid = true) :
    ∀ (recipientIds : List ObjectId) (k : Nat) (s : Store),
      (∀ j, j < k + recipientIds.length → k ≤ j →
        findById Notification._id s.notifications (gen j) = none) →
      (∀ j, j < k + recipientIds.length → ∀ i, i < j → k ≤ i → gen i ≠ gen j) →
      ((NotificationService.settleAll s now gen pushRaises data k recipientIds).1.filterMap
          (fun n => n)).map Notification.recipient
        = recipientIds.filter (fun id => (findById User._id s.users id).isSome)
      ∧ (NotificationService.settleAll s now gen pushRaises data k recipientIds).2.users
        = s.users
      ∧ (NotificationService.settleAll s now gen pushRaises data k recipientIds).2.notifications
        = s.notifications
          ++ (NotificationService.settleAll s now gen pushRaises data k recipientIds).1.filterMap
              (fun n => n) := by
  intro recipientIds
  induction recipientIds with
  | nil => intro k s _ _; simp [NotificationService.settleAll]
  | cons id rest ih =>
    intro k s hfresh hinj
    cases hu : findById User._id s.users id with
    | none =>
      have hc : NotificationService.createNotification s now (gen k) (pushRaises k) id data
          = (.error "Recipient not found", s) := by
        simp only [NotificationService.createNotification, hu]
      obtain ⟨h1, h2, h3⟩ := ih (k + 1) s
        (fun j hj hk => hfresh j (by simp only [List.length_cons]; omega) (by omega))
        (fun j hj i hi hk => hinj j (by simp only [List.length_cons]; omega) i hi (by omega))
      rw [NotificationService.settleAll, hc]
      simp only [filterMap_none_cons, List.filter_cons, hu, Option.isSome_none,
        Bool.false_eq_true, if_false]
      exact ⟨h1, h2, h3⟩
    | some user =>
      have hv : (NotificationService.newNotification (gen k) id data user).valid = true := by
        rw [NotificationService.newNotification_valid]; exact hvalid
      have hf := hfresh k (by simp only [List.length_cons]; omega) (Nat.le_refl k)
      obtain ⟨n, hn, hnid, hnrec, _⟩ :=
        NotificationService.createNotification_ok s now (gen k) (pushRaises k) id data user hu
          hv hf
      have hfresh2 : ∀ j, j < k + 1 + rest.length → k + 1 ≤ j →
          findById Notification._id (s.notifications ++ [n]) (gen j) = none := by
        intro j hj hk
        rw [findById_append_single,
          hfresh j (by simp only [List.length_cons]; omega) (by omega)]
        have hne : gen k ≠ gen j :=
          hinj j (by simp only [List.length_cons]; omega) k (by omega) (Nat.le_refl k)
        simp only [hnid, hne, if_false]
      obtain ⟨h1, h2, h3⟩ := ih (k + 1) { s with notifications := s.notifications ++ [n] }
        hfresh2
        (fun j hj i hi hk => hinj j (by simp only [List.length_cons]; omega) i hi (by omega))
      rw [NotificationService.settleAll, hn]
      simp only [filterMap_some_cons, List.map_cons, List.filter_cons, hu,
        Option.isSome_some, if_true, hnrec]
      refine ⟨?_, h2, ?_⟩
      · rw [h1]
      · rw [h3]
        simp only [List.append_assoc, List.singleton_append]

theorem NotificationService.settleAll_length (now : Date) (gen : Nat → ObjectId)
    (pushRaises : Nat → Bool) (data : NotificationData) :
    ∀ (recipientIds : List ObjectId) (k : Nat) (s : Store),
      (NotificationService.settleAll s now gen pushRaises data k recipientIds).1.length
        = recipientIds.length := by
  intro recipientIds
  induction recipientIds with
  | nil => intro k s; rfl
  | cons id rest ih =>
    intro k s
    rw [NotificationService.settleAll]
    rcases hc : NotificationService.createNotification s now (gen k) (pushRaises k) id data
      with ⟨o, s1⟩
    cases o with
    | error e => simp only [List.length_cons, ih]
    | ok n => simp only [List.length_cons, ih]

/-- C24 (bulk notification resilience). For every list of recipient ids
`sendBulkNotification` returns normally, with at most one notification per listed id; and
when the data passes the schema and the generated ids are fresh and pairwise distinct, so
that a call fails only for an id that resolves to no user, it returns exactly one
notification for each listed id of an existing user, in the order of the list, and nothing
for the other ids: the recipients of the returned notifications are the listed ids of
existing users, the length is their number, and the returned notifications are the ones
appended to the collection. -/
theorem bulk_notification_resilience (s : Store) (now : Date) (gen : Nat → ObjectId)
    (pushRaises : Nat → Bool) (recipientIds : List ObjectId) (data : NotificationData) :
    ∃ ns s1,
      NotificationService.sendBulkNotification s now gen pushRaises recipientIds data
        = (.ok ns, s1)
      ∧ ns.length ≤ recipientIds.length
      ∧ (data.valid = true →
          (∀ j, j < recipientIds.length →
            findById Notification._id s.notifications (gen j) = none) →
          (∀ j, j < recipientIds.length → ∀ i, i < j → gen i ≠ gen j) →
          ns.map Notification.recipient
              = recipientIds.filter (fun id => (findById User._id s.users id).isSome)
          ∧ ns.length
              = (recipientIds.filter (fun id => (findById User._id s.users id).isSome)).length
          ∧ s1.notifications = s.notifications ++ ns
          ∧ s1.users = s.users) := by
  refine ⟨_, _, rfl, ?_, ?_⟩
  · have hlen := NotificationService.settleAll_length now gen pushRaises data recipientIds 0 s
    have hle := List.length_filterMap_le (fun n : Option Notification => n)
      (NotificationService.settleAll s now gen pushRaises data 0 recipientIds).1
    omega
  · intro hvalid hfresh hinj
    obtain ⟨h1, h2, h3⟩ := NotificationService.settleAll_spec now gen pushRaises data hvalid
      recipientIds 0 s
      (fun j hj _ => hfresh j (by omega))
      (fun j hj i hi _ => hinj j (by omega) i hi)
    refine ⟨h1, ?_, h3, h2⟩
    rw [← h1, List.length_map]

/-- Witness of C24: the list valid, invalid, valid of the specification, `U1`, `U9`, `U2`
on the example store, returns the two notifications for `U1` and `U2`. -/
theorem bulk_notification_resilience_witness :
    (alertData.valid = true
      ∧ (∀ j, j < ["U1", "U9", "U2"].length →
          findById Notification._id exampleStore.notifications (exampleGen j) = none)
      ∧ (∀ j, j < ["U1", "U9", "U2"].length → ∀ i, i < j → exampleGen i ≠ exampleGen j)
      ∧ ["U1", "U9", "U2"].filter (fun id => (findById User._id exampleStore.users id).isSome)
          = ["U1", "U2"])
    ∧ ∃ ns s1,
      NotificationService.sendBulkNotification exampleStore 30 exampleGen (fun _ => false)
          ["U1", "U9", "U2"] alertData = (.ok ns, s1)
      ∧ ns.length ≤ 3
      ∧ ns.map Notification.recipient = ["U1", "U2"]
      ∧ ns.length = 2
      ∧ s1.notifications = exampleStore.notifications ++ ns
      ∧ s1.users = exampleStore.users :=
  have h := bulk_notification_resilience exampleStore 30 exampleGen (fun _ => false)
    ["U1", "U9", "U2"] alertData
  ⟨⟨by decide, by decide, by decide, by decide⟩,
   h.imp fun _ h => h.imp fun _ h =>
    ⟨h.1, h.2.1, (h.2.2 (by decide) (by decide) (by decide)).1,
     (h.2.2 (by decide) (by decide) (by decide)).2.1,
     (h.2.2 (by decide) (by decide) (by decide)).2.2.1,
     (h.2.2 (by decide) (by decide) (by decide)).2.2.2⟩⟩

/-! ## Report listing: the claim -/

/-- The number of pages is the least number of pages of `limit` entries that hold `total`
entries. -/
theorem ceilDiv_least (total limit : Nat) (hl : 1 ≤ limit) :
    total ≤ ceilDiv total limit * limit
    ∧ (∀ n, total ≤ n * limit → ceilDiv total limit ≤ n)
    ∧ (total = 0 → ceilDiv total limit = 0) := by
  have hpos : 0 < limit := hl
  refine ⟨?_, ?_, ?_⟩
  · by_contra hcon
    have hlt : ceilDiv total limit * limit < total := Nat.lt_of_not_le hcon
    have h1 : (ceilDiv total limit + 1) * limit ≤ total + limit - 1 := by
      rw [Nat.add_mul, Nat.one_mul]; omega
    have h2 : ceilDiv total limit + 1 ≤ (total + limit - 1) / limit :=
      (Nat.le_div_iff_mul_le hpos).2 h1
    unfold ceilDiv at h2
    omega
  · intro n hn
    unfold ceilDiv
    have h1 : (total + limit - 1) / limit < n + 1 := by
      rw [Nat.div_lt_iff_lt_mul hpos, Nat.add_mul, Nat.one_mul]
      omega
    omega
  · intro h0
    subst h0
    unfold ceilDiv
    exact Nat.div_eq_of_lt (by omega)

/-- C25 (pagination contract). For every page of at least 1, every limit of at least 1 (in
particular the limits 1 to 100 the validator admits) and every filter, `getReports` returns
normally and writes nothing; its pagination repeats page and limit, total is the number of
reports matching the filter, pages is the least number n with n * limit at least total (0
when total is 0); the returned items are at most limit many, and the item at position i is
the report at position (page - 1) * limit + i of the matching reports in newest-first order,
with nothing returned beyond the end of that list. -/
theorem pagination_contract (s : Store) (filters : ReportFilters) (page limit : Nat)
    (hp : 1 ≤ page) (hl : 1 ≤ limit) :
    ∃ pg, ModerationService.getReports s filters (some page) (some limit) = (.ok pg, s)
      ∧ pg.pagination.page = page ∧ pg.pagination.limit = limit
      ∧ pg.pagination.total = (s.reports.filter filters.matches).length
      ∧ pg.pagination.total ≤ pg.pagination.pages * limit
      ∧ (∀ n, pg.pagination.total ≤ n * limit → pg.pagination.pages ≤ n)
      ∧ (pg.pagination.total = 0 → pg.pagination.pages = 0)
      ∧ pg.reports.length ≤ limit
      ∧ (∀ i, i < limit →
          (pg.reports.map PopulatedReport.doc)[i]?
            = ((s.reports.filter filters.matches).reverse)[(page - 1) * limit + i]?)
      ∧ (∀ i, limit ≤ i → (pg.reports.map PopulatedReport.doc)[i]? = none)
      ∧ (∀ r ∈ pg.reports, filters.matches r.doc = true ∧ r = populateReport s r.doc) := by
  obtain ⟨h1, h2, h3⟩ := ceilDiv_least (s.reports.filter filters.matches).length limit hl
  have hdoc : ∀ l : List Report, (l.map (populateReport s)).map PopulatedReport.doc = l := by
    intro l
    induction l with
    | nil => rfl
    | cons x xs ih => simp only [List.map_cons, ih]; rfl
  have hskip : ¬ (((page : Int) - 1) * (limit : Int) < 0) := by
    have h4 : (0 : Int) ≤ (page : Int) - 1 := by omega
    have h5 : (0 : Int) ≤ (limit : Int) := by omega
    exact Int.not_lt.2 (Int.mul_nonneg h4 h5)
  have htonat : (((page : Int) - 1) * (limit : Int)).toNat = (page - 1) * limit := by
    have h4 : ((page : Int) - 1) = ((page - 1 : Nat) : Int) := by omega
    rw [h4, ← Int.natCast_mul, Int.toNat_ofNat]
  have hval : ModerationService.getReports s filters (some page) (some limit)
      = (.ok { reports := (((s.reports.filter filters.matches).reverse.drop
                  ((page - 1) * limit)).take limit).map (populateReport s),
               pagination := { page := page, limit := limit,
                               total := (s.reports.filter filters.matches).length,
                               pages := ceilDiv (s.reports.filter filters.matches).length
                                 limit } }, s) := by
    simp only [ModerationService.getReports, Option.getD_some, hskip, if_false, htonat]
  refine ⟨_, hval, rfl, rfl, rfl, h1, h2, h3, ?_, ?_, ?_, ?_⟩
  · simp only [List.length_map, List.length_take]
    omega
  · intro i hi
    simp only []
    rw [hdoc, List.getElem?_take_of_lt hi, List.getElem?_drop]
  · intro i hi
    simp only []
    rw [hdoc, List.getElem?_eq_none]
    simp only [List.length_take]
    omega
  · intro r hr
    simp only [List.mem_map] at hr
    obtain ⟨d, hd, rfl⟩ := hr
    have hd2 := List.mem_of_mem_drop (List.mem_of_mem_take hd)
    rw [List.mem_reverse, List.mem_filter] at hd2
    exact ⟨hd2.2, rfl⟩

/-- Witness of C25: page 2 with limit 2 of the pending reports of the five-report store,
which are `Q5`, `Q4`, `Q2`, `Q1` newest-first. -/
theorem pagination_contract_witness :
    ((1 : Nat) ≤ 2
      ∧ (ModerationService.getReports fiveReportStore pendingFilter (some 2) (some 2)).1.map
            (fun pg => (pg.reports.map (fun r => r.doc._id), pg.pagination))
          = .ok (["Q2", "Q1"], { page := 2, limit := 2, total := 4, pages := 2 }))
    ∧ ∃ pg,
      ModerationService.getReports fiveReportStore pendingFilter (some 2) (some 2)
        = (.ok pg, fiveReportStore)
      ∧ pg.pagination.page = 2 ∧ pg.pagination.limit = 2
      ∧ pg.pagination.total = (fiveReportStore.reports.filter pendingFilter.matches).length
      ∧ pg.pagination.total ≤ pg.pagination.pages * 2
      ∧ (∀ n, pg.pagination.total ≤ n * 2 → pg.pagination.pages ≤ n)
      ∧ (pg.pagination.total = 0 → pg.pagination.pages = 0)
      ∧ pg.reports.length ≤ 2
      ∧ (∀ i, i < 2 →
          (pg.reports.map PopulatedReport.doc)[i]?
            = ((fiveReportStore.reports.filter pendingFilter.matches).reverse)[(2 - 1) * 2 + i]?)
      ∧ (∀ i, 2 ≤ i → (pg.reports.map PopulatedReport.doc)[i]? = none)
      ∧ (∀ r ∈ pg.reports,
          pendingFilter.matches r.doc = true ∧ r = populateReport fiveReportStore r.doc) :=
  ⟨⟨by decide, rfl⟩,
   pagination_contract fiveReportStore pendingFilter 2 2 (by decide) (by decide)⟩

/-! ## Events: the claims -/

theorem UserIdArg.strictEq_objectId (idString : String) (id : ObjectId) :
    UserIdArg.strictEq idString (.objectId id) = false := rfl

theorem UserIdArg.strictEq_text (idString id : String) :
    UserIdArg.strictEq idString (.text id) = true ↔ idString = id := by
  simp [UserIdArg.strictEq]

theorem cancelFirst_split (userId : String) (pre suf : List Attendee) (a : Attendee)
    (hpre : ∀ x ∈ pre, x.user ≠ userId) (ha : a.user = userId) :
    cancelFirst (.text userId) (pre ++ a :: suf)
      = pre ++ { a with status := "cancelled" } :: suf := by
  induction pre with
  | nil => simp [cancelFirst, UserIdArg.strictEq, ha]
  | cons x pre ih =>
    have hx : UserIdArg.strictEq x.user (.text userId) = false := by
      simpa [UserIdArg.strictEq] using hpre x (List.mem_cons_self _ _)
    simp only [List.cons_append, cancelFirst, hx, Bool.false_eq_true, if_false]
    exact congrArg (fun l => x :: l) (ih (fun y hy => hpre y (List.mem_cons_of_mem _ hy)))

theorem Event.attendeeCount_push (e : Event) (userId : ObjectId) (now : Date) :
    ({ e with
         attendees := e.attendees
           ++ [{ user := userId, status := "registered", registeredAt := now }] }
      : Event).attendeeCount = e.attendeeCount + 1 := by
  have hr : (("registered" : String) != "cancelled") = true := by decide
  simp only [Event.attendeeCount, orZero_eq, List.filter_append, List.length_append,
    List.filter_cons, List.filter_nil, hr, if_true, List.length_cons, List.length_nil]

/-- A successful `registerForEvent` found the event not full and saved it with one
registered entry pushed. -/
theorem EventService.registerForEvent_of_ok (s : Store) (now : Date) (eventId : ObjectId)
    (userId : UserIdArg) (e : Event) (msg : String)
    (he : findById Event._id s.events eventId = some e)
    (hok : (EventService.registerForEvent s now eventId userId).1 = .ok msg) :
    e.isFull = false
    ∧ (EventService.registerForEvent s now eventId userId).2
        = { s with
              events := saveDoc Event._id s.events
                { e with
                    attendees := e.attendees
                      ++ [{ user := userId.toObjectId, status := "registered",
                            registeredAt := now }] } } := by
  unfold EventService.registerForEvent at hok ⊢
  rw [he] at hok ⊢
  dsimp only at hok ⊢
  by_cases h1 : e.status ≠ "published"
  · rw [if_pos h1] at hok; cases hok
  · rw [if_neg h1] at hok ⊢
    by_cases h2 : (e.attendees.find?
        (fun a => UserIdArg.strictEq a.user userId && a.status != "cancelled")).isSome = true
    · rw [if_pos h2] at hok; cases hok
    · rw [if_neg h2] at hok ⊢
      by_cases h3 : e.isFull = true
      · rw [if_pos h3] at hok; cases hok
      · rw [if_neg h3] at hok ⊢
        refine ⟨by simpa using h3, ?_⟩
        split at hok
        · cases hok
        · split at hok
          · rename_i h4 h5
            rw [if_neg h4, if_pos h5]
          · cases hok

/-- The value of `registerForEvent` on a published event that is full, when the lookup of
an existing registration finds nothing. -/
theorem EventService.registerForEvent_full (s : Store) (now : Date) (eventId : ObjectId)
    (userId : UserIdArg) (e : Event)
    (he : findById Event._id s.events eventId = some e) (hpub : e.status = "published")
    (hnot : ∀ a ∈ e.attendees, UserIdArg.strictEq a.user userId = true →
      a.status = "cancelled")
    (hf : e.isFull = true) :
    EventService.registerForEvent s now eventId userId
      = (.error "Event is at full capacity", s) := by
  have hfind : (e.attendees.find?
      (fun a => UserIdArg.strictEq a.user userId && a.status != "cancelled")).isSome
        = false := by
    rw [Bool.eq_false_iff]
    intro hsome
    obtain ⟨a, ha⟩ := Option.isSome_iff_exists.mp hsome
    have hmem := List.mem_of_find?_eq_some ha
    have hprop := List.find?_some ha
    simp only [Bool.and_eq_true, bne_iff_ne, ne_eq] at hprop
    exact hprop.2 (hnot a hmem hprop.1)
  simp only [EventService.registerForEvent, he, hpub, ne_eq, not_true_eq_false, if_false,
    hfind, Bool.false_eq_true, hf, if_true]

/-- C26, counterexample. The event `E1` of the zero-capacity store has its capacity set to
0 and no attendee, so its count of non-cancelled attendees does not exceed the capacity;
`registerForEvent`, called as the route handler calls it, nevertheless returns normally and
leaves one registered attendee, above the capacity, because `isFull` takes the capacity 0
for an unset one.  In the fractional-capacity store `E1` has capacity 2.5 and two
attendees; the call returns normally and leaves three. -/
theorem zero_capacity_not_enforced :
    (findById Event._id zeroCapacityStore.events "E1").map
        (fun e => (e.capacity, e.attendeeCount, e.isFull)) = some (some 0, 0, false)
    ∧ (EventService.registerForEvent zeroCapacityStore 50 "E1" (.objectId "U2")).1
        = .ok "Successfully registered for event"
    ∧ (findById Event._id
          (EventService.registerForEvent zeroCapacityStore 50 "E1"
            (.objectId "U2")).2.events "E1").map
        (fun e => (e.capacity, e.attendeeCount)) = some (some 0, 1)
    ∧ (findById Event._id fractionalCapacityStore.events "E1").map
        (fun e => (e.capacity, e.attendeeCount, e.isFull)) = some (some twoAndHalf, 2, false)
    ∧ (EventService.registerForEvent fractionalCapacityStore 50 "E1" (.objectId "U2")).1
        = .ok "Successfully registered for event"
    ∧ (findById Event._id
          (EventService.registerForEvent fractionalCapacityStore 50 "E1"
            (.objectId "U2")).2.events "E1").map
        (fun e => (e.capacity, e.attendeeCount)) = some (some twoAndHalf, 3)
    ∧ twoAndHalf = 5 / 2 ∧ ((2 : Nat) : ℚ) ≤ twoAndHalf ∧ twoAndHalf < ((3 : Nat) : ℚ) := by
  refine ⟨rfl, rfl, rfl, rfl, rfl, rfl, ?_, by decide, by decide⟩
  rw [show twoAndHalf = Rat.mk' 5 2 (by decide) (by decide) from rfl, Rat.mk'_eq_divInt,
    Rat.divInt_eq_div]
  norm_num

/-- C26, amended. Take an event whose capacity is set to a number, and a user id passed as
a string or as an ObjectId.  When the capacity is not 0, a successful `registerForEvent`
adds one to the count of non-cancelled attendees and leaves that count below the capacity
plus one, hence at most the capacity when the capacity is a whole number; and when the
count has reached the capacity the call never succeeds: on a published event for which the
lookup of an existing registration finds nothing, as it always does for an ObjectId, it
throws `Event is at full capacity` and leaves the store unchanged.  When the capacity is 0
the event is never full and the call never throws `Event is at full capacity`. -/
theorem capacity_enforced_unless_zero (s : Store) (now : Date) (eventId : ObjectId)
    (userId : UserIdArg) (e : Event) (c : ℚ)
    (he : findById Event._id s.events eventId = some e)
    (hc : e.capacity = some c) :
    (c ≠ 0 →
      (∀ msg, (EventService.registerForEvent s now eventId userId).1 = .ok msg →
        ∃ e1, findById Event._id
            (EventService.registerForEvent s now eventId userId).2.events eventId = some e1
          ∧ e1.capacity = some c ∧ e1.attendeeCount = e.attendeeCount + 1
          ∧ (e1.attendeeCount : ℚ) < c + 1
          ∧ (∀ k : Int, c = (k : ℚ) → (e1.attendeeCount : ℚ) ≤ c))
      ∧ (c ≤ (e.attendeeCount : ℚ) →
        (∀ msg, (EventService.registerForEvent s now eventId userId).1 ≠ .ok msg)
        ∧ (e.status = "published" →
            (∀ a ∈ e.attendees, UserIdArg.strictEq a.user userId = true →
              a.status = "cancelled") →
            EventService.registerForEvent s now eventId userId
              = (.error "Event is at full capacity", s))
        ∧ (e.status = "published" → ∀ id,
            EventService.registerForEvent s now eventId (.objectId id)
              = (.error "Event is at full capacity", s))))
    ∧ (c = 0 →
        e.isFull = false
        ∧ (EventService.registerForEvent s now eventId userId).1
            ≠ .error "Event is at full capacity") := by
  have hk := findById_key _ _ _ _ he
  refine ⟨?_, ?_⟩
  · intro hnz
    have hfull : e.isFull = decide ((e.attendeeCount : ℚ) ≥ c) := by
      unfold Event.isFull
      rw [hc]
      simp only [hnz, if_false]
    refine ⟨?_, ?_⟩
    · intro msg hok
      obtain ⟨hnf, hst⟩ :=
        EventService.registerForEvent_of_ok s now eventId userId e msg he hok
      rw [hst]
      rw [hfull] at hnf
      have hlt : (e.attendeeCount : ℚ) < c := by
        have : ¬ ((e.attendeeCount : ℚ) ≥ c) := by simpa using hnf
        exact lt_of_not_ge this
      refine ⟨_, findById_saveDoc _ _ _ e _ he hk, hc,
        Event.attendeeCount_push e userId.toObjectId now, ?_, ?_⟩
      · rw [Event.attendeeCount_push]
        push_cast
        linarith
      · intro k hk2
        rw [Event.attendeeCount_push]
        rw [hk2] at hlt ⊢
        have h1 : ((e.attendeeCount : Int) : ℚ) < (k : ℚ) := by exact_mod_cast hlt
        have h2 : (e.attendeeCount : Int) < k := by exact_mod_cast h1
        have h3 : ((e.attendeeCount + 1 : Nat) : Int) ≤ k := by push_cast; omega
        exact_mod_cast h3
    · intro hcount
      have hf : e.isFull = true := by
        rw [hfull]
        simpa using hcount
      refine ⟨?_, ?_, ?_⟩
      · intro msg hok
        have := (EventService.registerForEvent_of_ok s now eventId userId e msg he hok).1
        rw [hf] at this
        cases this
      · intro hpub hnot
        exact EventService.registerForEvent_full s now eventId userId e he hpub hnot hf
      · intro hpub id
        exact EventService.registerForEvent_full s now eventId (.objectId id) e he hpub
          (fun a _ h => Bool.noConfusion h) hf
  · intro hz
    have hnf : e.isFull = false := by
      unfold Event.isFull
      rw [hc]
      simp only [hz, if_true]
    refine ⟨hnf, ?_⟩
    unfold EventService.registerForEvent
    rw [he]
    dsimp only
    rw [hnf]
    have d1 : ("Event is not available for registration" : String)
        ≠ "Event is at full capacity" := by decide
    have d2 : ("Already registered for this event" : String)
        ≠ "Event is at full capacity" := by decide
    have d3 : ("Registration deadline has passed" : String)
        ≠ "Event is at full capacity" := by decide
    have d4 : ("Event validation failed" : String) ≠ "Event is at full capacity" := by decide
    split
    · intro h; exact d1 (Except.error.inj h)
    · split
      · intro h; exact d2 (Except.error.inj h)
      · rw [if_neg (by decide : ¬ (false = true))]
        split
        · intro h; exact d3 (Except.error.inj h)
        · split
          · intro h; cases h
          · intro h; exact d4 (Except.error.inj h)

/-- Witness of the amended C26: in the roomy store `E1` has capacity 2 and one registered
attendee; `U2` registers and the count becomes 2. -/
theorem capacity_enforced_unless_zero_witness :
    (EventService.registerForEvent roomyEventStore 50 "E1" (.objectId "U2")).1
        = .ok "Successfully registered for event"
    ∧ ∃ e1, findById Event._id
          (EventService.registerForEvent roomyEventStore 50 "E1"
            (.objectId "U2")).2.events "E1" = some e1
        ∧ e1.capacity = some 2 ∧ e1.attendeeCount = 1 + 1 ∧ (e1.attendeeCount : ℚ) < 2 + 1
        ∧ (∀ k : Int, (2 : ℚ) = (k : ℚ) → (e1.attendeeCount : ℚ) ≤ 2) :=
  ⟨rfl,
   ((capacity_enforced_unless_zero roomyEventStore 50 "E1" (.objectId "U2")
      { exampleEvent with
          capacity := some 2,
          attendees := [{ user := "U1", status := "registered", registeredAt := 40 }] }
      2 rfl rfl).1 (by decide)).1 "Successfully registered for event" rfl⟩

/-- C29 (cancellation is effective). For a user id passed as an ObjectId, which is what the
handler of `DELETE /api/events/:id/register` passes, `cancelRegistration` on a stored event
throws `Not registered for this event` and changes nothing, whatever the attendee list
holds.  For a user id passed as a string, on a stored event that lists an entry of the user,
it returns normally and sets to cancelled the first entry of that user in the attendee list
and nothing else, so afterwards the user has no entry with a status other than cancelled
exactly when every later entry of the user was cancelled already.  In the registered store
`U2` is registered for `E1` through the route: the cancellation through the route throws,
`U2` still counts as an attendee, and a further registration through the route adds a
second registered entry of `U2`.  In the re-registered store `E1` lists a cancelled and then
a registered entry of `U2`: `cancelRegistration` with the id string returns normally and
leaves the store as it was, `U2` still counts as an attendee and a further
`registerForEvent` throws `Already registered for this event`. -/
theorem cancellation_marks_first_entry (s : Store) (eventId : ObjectId) (userId : String)
    (e : Event) (pre suf : List Attendee) (a : Attendee)
    (he : findById Event._id s.events eventId = some e) (hv : e.valid = true)
    (hsplit : e.attendees = pre ++ a :: suf)
    (hpre : ∀ x ∈ pre, x.user ≠ userId) (ha : a.user = userId) :
    (∀ id, EventService.cancelRegistration s eventId (.objectId id)
        = (.error "Not registered for this event", s))
    ∧ (EventService.cancelRegistration s eventId (.text userId)).1
        = .ok "Registration cancelled"
    ∧ (∃ e1, findById Event._id
          (EventService.cancelRegistration s eventId (.text userId)).2.events eventId
          = some e1
        ∧ e1.attendees = pre ++ { a with status := "cancelled" } :: suf
        ∧ ((∀ x ∈ e1.attendees, x.user = userId → x.status = "cancelled")
            ↔ (∀ x ∈ suf, x.user = userId → x.status = "cancelled")))
    ∧ ((findById Event._id registeredStore.events "E1").map Event.attendees
          = some [{ user := "U2", status := "registered", registeredAt := 50 }]
        ∧ EventService.cancelRegistration registeredStore "E1" (.objectId "U2")
            = (.error "Not registered for this event", registeredStore)
        ∧ (findById Event._id registeredStore.events "E1").map Event.attendeeCount = some 1
        ∧ (findById Event._id
              (EventService.registerForEvent registeredStore 52 "E1"
                (.objectId "U2")).2.events "E1").map Event.attendees
            = some [{ user := "U2", status := "registered", registeredAt := 50 },
                    { user := "U2", status := "registered", registeredAt := 52 }])
    ∧ ((findById Event._id reRegisteredStore.events "E1").map Event.attendees
          = some [{ user := "U2", status := "cancelled", registeredAt := 50 },
                  { user := "U2", status := "registered", registeredAt := 52 }]
        ∧ EventService.cancelRegistration reRegisteredStore "E1" (.text "U2")
            = (.ok "Registration cancelled", reRegisteredStore)
        ∧ (findById Event._id
              (EventService.cancelRegistration reRegisteredStore "E1"
                (.text "U2")).2.events "E1").map
            Event.attendeeCount = some 1
        ∧ (EventService.registerForEvent
              (EventService.cancelRegistration reRegisteredStore "E1" (.text "U2")).2 60 "E1"
              (.text "U2")).1
            = .error "Already registered for this event") := by
  have hk := findById_key _ _ _ _ he
  have hoid : ∀ id, EventService.cancelRegistration s eventId (.objectId id)
      = (.error "Not registered for this event", s) := by
    intro id
    have hnone : (e.attendees.find?
        (fun x => UserIdArg.strictEq x.user (.objectId id))).isNone = true := by
      rw [Option.isNone_iff_eq_none, List.find?_eq_none]
      intro x _
      simp [UserIdArg.strictEq]
    simp only [EventService.cancelRegistration, he, hnone, if_true]
  have hfind : (e.attendees.find?
      (fun x => UserIdArg.strictEq x.user (.text userId))).isNone = false := by
    rw [hsplit, Bool.eq_false_iff]
    intro hnone
    rw [Option.isNone_iff_eq_none, List.find?_eq_none] at hnone
    have := hnone a (by simp)
    simp [UserIdArg.strictEq, ha] at this
  have hv1 : ({ e with attendees := cancelFirst (.text userId) e.attendees } : Event).valid
      = true := hv
  have hval : EventService.cancelRegistration s eventId (.text userId)
      = (.ok "Registration cancelled",
         { s with
             events := saveDoc Event._id s.events
               { e with attendees := cancelFirst (.text userId) e.attendees } }) := by
    simp only [EventService.cancelRegistration, he, hfind, Bool.false_eq_true, if_false, hv1,
      if_true]
  rw [hval]
  refine ⟨hoid, rfl, ⟨_, findById_saveDoc _ _ _ e _ he hk, ?_, ?_⟩,
    ⟨rfl, rfl, rfl, rfl⟩, rfl, rfl, rfl, rfl⟩
  · show cancelFirst (.text userId) e.attendees = _
    rw [hsplit, cancelFirst_split userId pre suf a hpre ha]
  · show (∀ x ∈ cancelFirst (.text userId) e.attendees, _) ↔ _
    rw [hsplit, cancelFirst_split userId pre suf a hpre ha]
    constructor
    · intro h x hx hu
      exact h x (by simp [hx]) hu
    · intro h x hx hu
      rcases List.mem_append.mp hx with hx | hx
      · exact absurd hu (hpre x hx)
      · rcases List.mem_cons.mp hx with hx | hx
        · rw [hx]
        · exact h x hx hu

/-- Witness of C29: in the registered store `U2` holds one registered entry of `E1`; the
cancellation with the ObjectId throws, and the cancellation with the id string marks the
single entry cancelled and leaves no entry of `U2` with another status. -/
theorem cancellation_marks_first_entry_witness :
    EventService.cancelRegistration registeredStore "E1" (.objectId "U2")
        = (.error "Not registered for this event", registeredStore)
    ∧ (EventService.cancelRegistration registeredStore "E1" (.text "U2")).1
        = .ok "Registration cancelled"
    ∧ ∃ e1, findById Event._id
          (EventService.cancelRegistration registeredStore "E1" (.text "U2")).2.events "E1"
          = some e1
        ∧ e1.attendees = [] ++ [{ user := "U2", status := "cancelled", registeredAt := 50 }]
        ∧ ((∀ x ∈ e1.attendees, x.user = "U2" → x.status = "cancelled")
            ↔ (∀ x ∈ ([] : List Attendee), x.user = "U2" → x.status = "cancelled")) :=
  ⟨(cancellation_marks_first_entry registeredStore "E1" "U2"
      { exampleEvent with
          attendees := [{ user := "U2", status := "registered", registeredAt := 50 }] }
      [] [] { user := "U2", status := "registered", registeredAt := 50 }
      rfl rfl rfl (fun _ h => absurd h (List.not_mem_nil _)) rfl).1 "U2",
   (cancellation_marks_first_entry registeredStore "E1" "U2"
      { exampleEvent with
          attendees := [{ user := "U2", status := "registered", registeredAt := 50 }] }
      [] [] { user := "U2", status := "registered", registeredAt := 50 }
      rfl rfl rfl (fun _ h => absurd h (List.not_mem_nil _)) rfl).2.1,
   (cancellation_marks_first_entry registeredStore "E1" "U2"
      { exampleEvent with
          attendees := [{ user := "U2", status := "registered", registeredAt := 50 }] }
      [] [] { user := "U2", status := "registered", registeredAt := 50 }
      rfl rfl rfl (fun _ h => absurd h (List.not_mem_nil _)) rfl).2.2.1⟩

/-! ## Posts: update rights -/

theorem Post.applyUpdates_frame (p : Post) (u : PostUpdates) :
    (p.applyUpdates u)._id = p._id ∧ (p.applyUpdates u).isOfficial = p.isOfficial
    ∧ (p.applyUpdates u).isPinned = p.isPinned
    ∧ (p.applyUpdates u).moderationNotes = p.moderationNotes
    ∧ (p.applyUpdates u).moderatedBy = p.moderatedBy
    ∧ (p.applyUpdates u).moderatedAt = p.moderatedAt
    ∧ (p.applyUpdates u).author = p.author ∧ (p.applyUpdates u).votes = p.votes :=
  ⟨rfl, rfl, rfl, rfl, rfl, rfl, rfl, rfl⟩

theorem Post.preSave_frame (now : Date) (p : Post) :
    (p.preSave now).isOfficial = p.isOfficial ∧ (p.preSave now).isPinned = p.isPinned
    ∧ (p.preSave now).moderationNotes = p.moderationNotes
    ∧ (p.preSave now).moderatedBy = p.moderatedBy
    ∧ (p.preSave now).moderatedAt = p.moderatedAt
    ∧ (p.preSave now).author = p.author ∧ (p.preSave now).status = p.status := by
  unfold Post.preSave
  dsimp only
  split <;> split <;> exact ⟨rfl, rfl, rfl, rfl, rfl, rfl, rfl⟩

/-- The value of `updatePost` for a caller who is not staff or administrator. -/
theorem ContentService.updatePost_citizen (s : Store) (now : Date) (postId : ObjectId)
    (callerId : String) (updates : PostUpdates) (p : Post)
    (hp : findById Post._id s.posts postId = some p) :
    ContentService.updatePost s now postId callerId updates false
      = if p.author ≠ callerId then (.error "Not authorized to update this post", s)
        else if (p.applyUpdates updates).valid then
          (.ok ((p.applyUpdates updates).preSave now),
           { s with posts := saveDoc Post._id s.posts ((p.applyUpdates updates).preSave now) })
        else (.error "Post validation failed", s) := by
  simp only [ContentService.updatePost, hp, and_true, Bool.false_eq_true, if_false]

/-- The value of `updatePost` for staff and administrators. -/
theorem ContentService.updatePost_admin (s : Store) (now : Date) (postId : ObjectId)
    (callerId : String) (updates : PostUpdates) (p : Post)
    (hp : findById Post._id s.posts postId = some p) :
    ContentService.updatePost s now postId callerId updates true
      = if ((p.applyUpdates updates).applyAdminUpdates updates).valid then
          (.ok (((p.applyUpdates updates).applyAdminUpdates updates).preSave now),
           { s with
               posts := saveDoc Post._id s.posts
                 (((p.applyUpdates updates).applyAdminUpdates updates).preSave now) })
        else (.error "Post validation failed", s) := by
  simp only [ContentService.updatePost, hp, Bool.true_eq_false, and_false, if_false, if_true]

/-- C30 (author update rights versus moderation). On an existing post, `updatePost` throws
`Not authorized to update this post` if and only if the caller is neither the author nor
staff or administrator, and then the store is unchanged; for a caller who is not staff or
administrator, whatever the request body and whatever the outcome, the stored post keeps its
isOfficial, isPinned, moderationNotes, moderatedBy, moderatedAt, author and votes; yet the
status is open to the author: in the resolved store the author `U1` of the post `P1`, which
moderation has marked rejected, sets it back to published. -/
theorem update_rights (s : Store) (now : Date) (postId : ObjectId) (callerId : String)
    (updates : PostUpdates) (isAdmin : Bool) (p : Post)
    (hp : findById Post._id s.posts postId = some p) :
    ((ContentService.updatePost s now postId callerId updates isAdmin).1
          = .error "Not authorized to update this post"
        ↔ (p.author ≠ callerId ∧ isAdmin = false))
    ∧ ((p.author ≠ callerId ∧ isAdmin = false) →
        (ContentService.updatePost s now postId callerId updates isAdmin).2 = s)
    ∧ (isAdmin = false →
        ∃ p1, findById Post._id
            (ContentService.updatePost s now postId callerId updates isAdmin).2.posts postId
            = some p1
          ∧ p1.isOfficial = p.isOfficial ∧ p1.isPinned = p.isPinned
          ∧ p1.moderationNotes = p.moderationNotes ∧ p1.moderatedBy = p.moderatedBy
          ∧ p1.moderatedAt = p.moderatedAt ∧ p1.author = p.author ∧ p1.votes = p.votes)
    ∧ ((findById Post._id resolvedStore.posts "P1").map
          (fun q => (q.author, q.status, q.moderatedBy)) = some ("U1", "rejected", some "M1")
        ∧ (ContentService.updatePost resolvedStore 40 "P1" "U1" republishUpdates false).1.map
            Post.status = .ok "published"
        ∧ (findById Post._id
              (ContentService.updatePost resolvedStore 40 "P1" "U1" republishUpdates
                false).2.posts "P1").map Post.status = some "published") := by
  have hk := findById_key _ _ _ _ hp
  refine ⟨?_, ?_, ?_, rfl, rfl, rfl⟩
  · cases isAdmin with
    | false =>
      rw [ContentService.updatePost_citizen s now postId callerId updates p hp]
      by_cases ha : p.author = callerId
      · simp only [ha, ne_eq, not_true_eq_false, if_false, false_and, iff_false]
        split
        · intro h; cases h
        · intro h
          simp at h
      · simp only [ne_eq, ha, not_false_eq_true, if_true, and_self]
    | true =>
      rw [ContentService.updatePost_admin s now postId callerId updates p hp]
      simp only [Bool.true_eq_false, and_false, iff_false]
      split
      · intro h; cases h
      · intro h
        simp at h
  · rintro ⟨ha, hadm⟩
    subst hadm
    rw [ContentService.updatePost_citizen s now postId callerId updates p hp, if_pos ha]
  · intro hadm
    subst hadm
    rw [ContentService.updatePost_citizen s now postId callerId updates p hp]
    by_cases ha : p.author ≠ callerId
    · rw [if_pos ha]
      exact ⟨p, hp, rfl, rfl, rfl, rfl, rfl, rfl, rfl⟩
    · rw [if_neg ha]
      by_cases hv : (p.applyUpdates updates).valid = true
      · rw [if_pos hv]
        obtain ⟨f1, f2, f3, f4, f5, f6, _⟩ := Post.preSave_frame now (p.applyUpdates updates)
        refine ⟨(p.applyUpdates updates).preSave now, ?_, f1, f2, f3, f4, f5, f6, ?_⟩
        · exact findById_saveDoc _ _ _ p _ hp (by rw [Post.preSave_id]; exact hk)
        · rw [Post.preSave_votes]; rfl
      · rw [if_neg hv]
        exact ⟨p, hp, rfl, rfl, rfl, rfl, rfl, rfl, rfl⟩

/-- Witness of C30: in the resolved store the citizen `U2`, who is not the author of `P1`,
is turned away, and the author `U1` republishes the rejected post while the moderation
fields, the author and the votes stay as they were. -/
theorem update_rights_witness :
    findById Post._id resolvedStore.posts "P1"
        = some { examplePost with status := "rejected", moderatedBy := some "M1",
                                  moderatedAt := some 5 }
    ∧ ((ContentService.updatePost resolvedStore 40 "P1" "U2" republishUpdates false).1
          = .error "Not authorized to update this post"
        ↔ (("U1" : ObjectId) ≠ "U2" ∧ false = false))
    ∧ (∃ p1, findById Post._id
          (ContentService.updatePost resolvedStore 40 "P1" "U1" republishUpdates
            false).2.posts "P1" = some p1
        ∧ p1.isOfficial = false ∧ p1.isPinned = false ∧ p1.moderationNotes = none
        ∧ p1.moderatedBy = some "M1" ∧ p1.moderatedAt = some 5 ∧ p1.author = "U1"
        ∧ p1.votes = { up := [], down := [] }) :=
  ⟨rfl,
   (update_rights resolvedStore 40 "P1" "U2" republishUpdates false
      { examplePost with status := "rejected", moderatedBy := some "M1",
                         moderatedAt := some 5 } rfl).1,
   (update_rights resolvedStore 40 "P1" "U1" republishUpdates false
      { examplePost with status := "rejected", moderatedBy := some "M1",
                         moderatedAt := some 5 } rfl).2.2.1 rfl⟩
